import Mathlib

/-!
# Surround-view camera ingestion path: frame assembler, packet ring, packet filter, decoder pool

Shallow embedding of `camera-mjpeg.c`, `netif.c`, `netif.h` and `jpu-decoder.c`.

Conventions of the embedding:
* a byte is a `Nat`; a region of memory is a `List Nat`; a pointer into a region is an offset;
* a `u8`/`u16`/`u32` store is an explicit `% 2^w`;
* a call into an external collaborator (buffer acquisition, device I/O) is an argument giving
  the value that the call returns, and what is handed to a collaborator is a field of the result.
-/

namespace SvUtest

/-! ## Network buffer accessors (`netif.h`) -/

/-- Byte read `p[i]`; a read past the end of the modelled region yields 0. -/
def byteAt (p : List Nat) (i : Nat) : Nat := p.getD i 0

/-- Big-endian 16-bit read: `(u16)((pdu[0] << 8) | pdu[1])`. -/
def netif_get_u16 (pdu : List Nat) : Nat :=
  ((byteAt pdu 0 <<< 8) ||| byteAt pdu 1) % 65536

/-- Big-endian 32-bit read: `(u32)((pdu[0] << 24) | (pdu[1] << 16) | (pdu[2] << 8) | pdu[3])`. -/
def netif_get_u32 (pdu : List Nat) : Nat :=
  ((byteAt pdu 0 <<< 24) ||| (byteAt pdu 1 <<< 16) ||| (byteAt pdu 2 <<< 8) ||| byteAt pdu 3)
    % 4294967296

def NETIF_HEADER_LENGTH : Nat := 24

/-- Subtype field: `pdu[0] & 0x7F`. -/
def pdu_get_subtype (pdu : List Nat) : Nat := byteAt pdu 0 &&& 0x7F

/-- Sequence number field: `pdu[2]`. -/
def pdu_get_sequence_number (pdu : List Nat) : Nat := byteAt pdu 2

/-- Source timestamp field: `netif_get_u32(pdu + 12)`. -/
def pdu_get_timestamp (pdu : List Nat) : Nat := netif_get_u32 (pdu.drop 12)

/-- Stream data length field: `netif_get_u16(pdu + 20)`. -/
def pdu_get_stream_data_length (pdu : List Nat) : Nat := netif_get_u16 (pdu.drop 20)

/-- Protocol specific header: `netif_get_u16(pdu + 22)`. -/
def pdu_get_protocol_header (pdu : List Nat) : Nat := netif_get_u16 (pdu.drop 22)

/-- Payload pointer: `pdu + NETIF_HEADER_LENGTH`. -/
def get_pdu (pdu : List Nat) : List Nat := pdu.drop NETIF_HEADER_LENGTH

/-! ## Frame assembler (`camera-mjpeg.c`) -/

def CAMERA_FLAG_INIT_DONE : Nat := 1
def CAMERA_FLAG_SYNC : Nat := 2
def CAMERA_EVENT_AVBTP_DISC : Nat := 16

/-- Value of `EPROTO` on Linux. -/
def EPROTO : Int := 71

/-- A `GstBuffer` as the assembler sees it: backing memory, current size, DTS and PTS. -/
structure GstBuffer where
  mem : List Nat
  size : Nat
  dts : Nat
  pts : Nat
deriving DecidableEq, Repr

/-- The bytes a consumer of the buffer sees: the first `size` bytes of its memory. -/
def GstBuffer.bytes (b : GstBuffer) : List Nat := b.mem.take b.size

/-- The `GstMapInfo` of the camera: the mapped memory and the size reported at map time. -/
structure GstMapInfo where
  data : List Nat
  size : Nat
deriving DecidableEq, Repr

/-- Receiver part of `camera_data_t`. `input` is the write pointer, as an offset from `map.data`. -/
structure camera_data where
  sequence_num : Nat
  flags : Nat
  buffer : Option GstBuffer
  map : GstMapInfo
  input : Nat
  remaining : Nat
deriving DecidableEq, Repr

/-- Outcome of one call of `camera_jpeg_parse`: the camera afterwards, the return value, the
buffer given to `gst_app_src_push_buffer` (if that call was made) and whether `get_buffer`
was called. -/
structure ParseOut where
  camera : camera_data
  ret : Int
  pushed : Option GstBuffer
  acquired : Bool
deriving DecidableEq, Repr

/-- `memcpy(mem + off, src, |src|)` on a region. -/
def memcpy (mem : List Nat) (off : Nat) (src : List Nat) : List Nat :=
  mem.take off ++ src ++ mem.drop (off + src.length)

/-- The label `drop:` of `camera_jpeg_parse`: save the flags, return 1. -/
def camera_jpeg_drop (camera : camera_data) (flags : Nat) (acquired : Bool) : ParseOut :=
  { camera := { camera with flags := flags % 256 }, ret := 1, pushed := none,
    acquired := acquired }

/-- The branch of `camera_jpeg_parse` taken when an EOI tag is found with the write pointer at
offset `input`: set the size, unmap, push the buffer, forget it, reset the flags, return 0. -/
def camera_jpeg_complete (camera : camera_data) (flags : Nat) (mem : List Nat) (input : Nat)
    (acquired : Bool) : ParseOut :=
  { camera := { camera with
      map := { data := mem, size := input }
      buffer := none
      flags := (flags ^^^ CAMERA_FLAG_SYNC) % 256 }
    ret := 0
    pushed := camera.buffer.map (fun b => { b with mem := mem, size := input })
    acquired := acquired }

/-- Second half of `camera_jpeg_parse` (from "copy PDU data into buffer if there is a place"),
entered with the local variables `flags`, `remaining` and `input`. -/
def camera_jpeg_copy (camera : camera_data) (flags remaining input : Nat) (data : List Nat)
    (length : Nat) (acquired : Bool) : ParseOut :=
  if length > remaining then
    camera_jpeg_drop camera (flags ^^^ CAMERA_FLAG_SYNC) acquired
  else
    let mem := memcpy camera.map.data input (data.take length)
    let input := input + length
    let remaining := remaining - length
    if netif_get_u16 (mem.drop (input - 2)) = 0xFFD9 then
      camera_jpeg_complete camera flags mem input acquired
    else if netif_get_u16 (mem.drop (input - 3)) = 0xFFD9 then
      camera_jpeg_complete camera flags mem (input - 1) acquired
    else
      { camera := { camera with
          map := { camera.map with data := mem }
          remaining := remaining
          input := input
          flags := flags % 256 }
        ret := 1, pushed := none, acquired := acquired }

/-- Parse a PDU carrying MJPEG video. `get_buffer` is what `camera->get_buffer` returns if it is
called. `CHK_ERR(cond, err)` returns `err` when `cond` fails. -/
def camera_jpeg_parse (camera : camera_data) (get_buffer : Option GstBuffer)
    (ph ts : Nat) (data : List Nat) (length : Nat) : ParseOut :=
  if ¬ (length > 2) then
    { camera := camera, ret := 0, pushed := none, acquired := false }
  else
    let flags :=
      if camera.flags &&& CAMERA_FLAG_INIT_DONE ≠ 0 then
        if camera.flags &&& CAMERA_EVENT_AVBTP_DISC ≠ 0 then
          (camera.flags ^^^ CAMERA_EVENT_AVBTP_DISC) ||| CAMERA_FLAG_SYNC
        else camera.flags
      else CAMERA_FLAG_INIT_DONE ||| CAMERA_FLAG_SYNC
    if flags &&& CAMERA_FLAG_SYNC ≠ 0 then
      if netif_get_u16 data ≠ 0xFFD8 then
        camera_jpeg_drop camera flags false
      else
        match camera.buffer with
        | none =>
          match get_buffer with
          | none => camera_jpeg_drop camera flags true
          | some buffer =>
            let camera := { camera with
              map := { data := buffer.mem, size := buffer.size }
              buffer := some { buffer with dts := ts, pts := ts } }
            camera_jpeg_copy camera (flags ^^^ CAMERA_FLAG_SYNC) camera.map.size 0 data length
              true
        | some _ =>
          camera_jpeg_copy camera (flags ^^^ CAMERA_FLAG_SYNC) camera.map.size 0 data length
            false
    else
      camera_jpeg_copy camera flags camera.remaining camera.input data length false

/-- Outcome of one call of `camera_pdu_rx`; `disc` tells whether the discontinuity flag was
raised by this call. -/
structure RxOut where
  camera : camera_data
  ret : Int
  pushed : Option GstBuffer
  acquired : Bool
  disc : Bool
deriving DecidableEq, Repr

/-- PDU processing. `pdu` holds the bytes of the packet, `length` is the packet length passed by
the caller and `tstamp` its reception time. -/
def camera_pdu_rx (camera : camera_data) (get_buffer : Option GstBuffer) (pdu : List Nat)
    (length tstamp : Nat) : RxOut :=
  let sequence_num := pdu_get_sequence_number pdu
  let datalen := pdu_get_stream_data_length pdu
  let ph := pdu_get_protocol_header pdu
  if pdu_get_subtype pdu ≠ 0x2 then
    { camera := camera, ret := -EPROTO, pushed := none, acquired := false, disc := false }
  else if ¬ (length ≥ datalen + NETIF_HEADER_LENGTH) then
    { camera := camera, ret := -EPROTO, pushed := none, acquired := false, disc := false }
  else
    let disc : Bool :=
      decide (sequence_num ≠ camera.sequence_num) &&
        decide (camera.flags &&& CAMERA_FLAG_INIT_DONE ≠ 0)
    let camera :=
      if disc then { camera with flags := (camera.flags ||| CAMERA_EVENT_AVBTP_DISC) % 256 }
      else camera
    let r := camera_jpeg_parse camera get_buffer ph tstamp (get_pdu pdu) datalen
    if r.ret < 0 then
      { camera := r.camera, ret := r.ret, pushed := r.pushed, acquired := r.acquired,
        disc := disc }
    else
      { camera := { r.camera with sequence_num := (sequence_num + 1) % 256 }
        ret := 0, pushed := r.pushed, acquired := r.acquired, disc := disc }

/-- What the caller supplies with one PDU: the packet, its length, its timestamp, and what
buffer acquisition returns if the assembler asks for a buffer while handling it. -/
structure PduIn where
  pdu : List Nat
  length : Nat
  tstamp : Nat
  get_buffer : Option GstBuffer
deriving DecidableEq, Repr

/-- One call of `camera_pdu_rx` on the packet `p`. -/
def camera_rx (c : camera_data) (p : PduIn) : RxOut :=
  camera_pdu_rx c p.get_buffer p.pdu p.length p.tstamp

/-- Feed a sequence of PDUs through `camera_pdu_rx`, collecting the outcome of each call. -/
def camera_feed : camera_data → List PduIn → camera_data × List RxOut
  | c, [] => (c, [])
  | c, p :: ps =>
    let r := camera_rx c p
    let rest := camera_feed r.camera ps
    (rest.1, r :: rest.2)

/-- The buffers pushed downstream by a run, in order. -/
def pushedFrames (rs : List RxOut) : List GstBuffer := rs.filterMap (fun r => r.pushed)

/-- Sequence number carried by the packet. -/
def PduIn.seq (p : PduIn) : Nat := pdu_get_sequence_number p.pdu

/-- Declared stream data length of the packet. -/
def PduIn.datalen (p : PduIn) : Nat := pdu_get_stream_data_length p.pdu

/-- The payload of the packet: the declared number of bytes after the 24-byte header. -/
def PduIn.payload (p : PduIn) : List Nat := (get_pdu p.pdu).take p.datalen

/-- The packet passes the format checks of `camera_pdu_rx` (subtype 0x02, declared length within
the packet), the bytes announced by `length` are there, and each of them is a byte. -/
structure PduIn.WellFormed (p : PduIn) : Prop where
  subtype : pdu_get_subtype p.pdu = 0x2
  declared : p.datalen + NETIF_HEADER_LENGTH ≤ p.length
  present : p.length ≤ p.pdu.length
  bytes : ∀ x ∈ p.pdu, x < 256

/-- Sequence numbers increase by 1 modulo 256 from each packet to the next. -/
def seqInOrder : List PduIn → Prop
  | [] => True
  | [_] => True
  | p :: q :: rest => q.seq = (p.seq + 1) % 256 ∧ seqInOrder (q :: rest)

/-- The payload starts with the SOI marker `0xFFD8`. -/
def startsWithSOI (pl : List Nat) : Prop := pl.take 2 = [0xFF, 0xD8]

/-- The payload ends with the EOI marker `0xFFD9`. -/
def endsWithEOI (pl : List Nat) : Prop := pl.drop (pl.length - 2) = [0xFF, 0xD9]

/-- First probe of the end-of-image check, `netif_get_u16(input - 2) == 0xFFD9`, on a payload
that has just been appended. -/
def eoiAligned (pl : List Nat) : Prop := netif_get_u16 (pl.drop (pl.length - 2)) = 0xFFD9

/-- Second probe of the end-of-image check, `netif_get_u16(input - 3) == 0xFFD9`. -/
def eoiMisaligned (pl : List Nat) : Prop := netif_get_u16 (pl.drop (pl.length - 3)) = 0xFFD9

/-- The end-of-image check of `camera_jpeg_parse` on the payload just appended. -/
def eoiCheck (pl : List Nat) : Prop := eoiAligned pl ∨ eoiMisaligned pl

instance (pl : List Nat) : Decidable (startsWithSOI pl) := by unfold startsWithSOI; infer_instance
instance (pl : List Nat) : Decidable (endsWithEOI pl) := by unfold endsWithEOI; infer_instance
instance (pl : List Nat) : Decidable (eoiAligned pl) := by unfold eoiAligned; infer_instance
instance (pl : List Nat) : Decidable (eoiMisaligned pl) := by unfold eoiMisaligned; infer_instance
instance (pl : List Nat) : Decidable (eoiCheck pl) := by unfold eoiCheck; infer_instance

/-- Build an AVTP packet (24-byte header, then the payload) with the given sequence number. -/
def mkPdu (seq : Nat) (payload : List Nat) : List Nat :=
  [0x02, 0, seq % 256, 0, 0, 0, 0, 0, 0, 0, 0, 0, 0, 0, 0, 0, 0, 0, 0, 0,
   (payload.length / 256) % 256, payload.length % 256, 0, 0] ++ payload

/-- A well-formed packet with the given sequence number, payload and reception time. -/
def mkPduIn (seq : Nat) (payload : List Nat) (tstamp : Nat) (get_buffer : Option GstBuffer) :
    PduIn :=
  { pdu := mkPdu seq payload, length := NETIF_HEADER_LENGTH + payload.length, tstamp := tstamp,
    get_buffer := get_buffer }

/-- The camera right after `__camera_mjpeg_create`: flags cleared and no buffer. -/
def camera_init : camera_data :=
  { sequence_num := 0, flags := 0, buffer := none, map := { data := [], size := 0 },
    input := 0, remaining := 0 }

/-- The states of the receiver that `camera_pdu_rx` can produce from a freshly created camera
(`__camera_mjpeg_create` clears the flags and the buffer and sets nothing else). -/
inductive CameraReachable : camera_data → Prop
  | created (c : camera_data) : c.flags = 0 → c.buffer = none → CameraReachable c
  | rx (c : camera_data) (p : PduIn) : CameraReachable c → CameraReachable (camera_rx c p).camera

/-- The receiver is collecting a frame: init-done set, sync-searching clear. -/
def COLLECTING (c : camera_data) : Prop :=
  c.flags &&& CAMERA_FLAG_INIT_DONE ≠ 0 ∧ c.flags &&& CAMERA_FLAG_SYNC = 0

/-- The receiver is searching for a start of image: init-done and sync-searching set. -/
def SEARCHING (c : camera_data) : Prop :=
  c.flags &&& CAMERA_FLAG_INIT_DONE ≠ 0 ∧ c.flags &&& CAMERA_FLAG_SYNC ≠ 0

/-- A discontinuity is pending. -/
def DISC_PENDING (c : camera_data) : Prop := c.flags &&& CAMERA_EVENT_AVBTP_DISC ≠ 0

instance (c : camera_data) : Decidable (COLLECTING c) := by unfold COLLECTING; infer_instance
instance (c : camera_data) : Decidable (SEARCHING c) := by unfold SEARCHING; infer_instance
instance (c : camera_data) : Decidable (DISC_PENDING c) := by unfold DISC_PENDING; infer_instance

/-- Invariant of the receiver: the flags word is one of five values, a collecting receiver holds
a buffer, and the mapped size of a held buffer is the size of that buffer. -/
def CameraInv (c : camera_data) : Prop :=
  (c.flags = 0 ∨ c.flags = 1 ∨ c.flags = 3 ∨ c.flags = 17 ∨ c.flags = 19) ∧
  ((c.flags = 1 ∨ c.flags = 17) → c.buffer ≠ none) ∧
  (∀ hdr, c.buffer = some hdr → c.map.size = hdr.size)

/-- The receiver is between two PDUs of a frame: it collects into the buffer `hdr` of capacity
`cap`, the bytes `w` have been written from the start of the mapped memory. -/
structure Collecting (c : camera_data) (hdr : GstBuffer) (cap : Nat) (w : List Nat) : Prop where
  flags : c.flags = 1
  buffer : c.buffer = some hdr
  input : c.input = w.length
  written : c.map.data.take w.length = w
  inside : w.length ≤ c.map.data.length
  remaining : c.remaining + w.length = cap

instance seqInOrderDecidable : (ps : List PduIn) → Decidable (seqInOrder ps)
  | [] => isTrue trivial
  | [_] => isTrue trivial
  | p :: q :: rest =>
    match seqInOrderDecidable (q :: rest) with
    | isTrue h => if h' : q.seq = (p.seq + 1) % 256 then isTrue ⟨h', h⟩
                  else isFalse (fun hc => h' hc.1)
    | isFalse h => isFalse (fun hc => h hc.2)

/-- An in-order PDU sequence delimited by SOI and EOI: every packet passes the format checks,
sequence numbers increase by 1 modulo 256, the first payload starts with `0xFFD8`, the last ends
with `0xFFD9`, no earlier payload matches the end-of-image check, buffer acquisition on the first
packet returns `b`, and the payloads together fit the size of `b`. -/
structure FrameSequence (ps : List PduIn) (b : GstBuffer) : Prop where
  nonempty : ps ≠ []
  wellFormed : ∀ p ∈ ps, p.WellFormed
  inOrder : seqInOrder ps
  soi : ∀ p ∈ ps.head?, startsWithSOI p.payload
  eoi : ∀ p ∈ ps.getLast?, endsWithEOI p.payload
  noEarlyEoi : ∀ p ∈ ps.dropLast, ¬ eoiCheck p.payload
  acquire : ∀ p ∈ ps.head?, p.get_buffer = some b
  buffer : b.size ≤ b.mem.length
  fits : (ps.map PduIn.payload).flatten.length ≤ b.size

/-- Feeding `ps` pushes exactly one frame downstream, on the last packet, and its bytes are the
concatenation of the payloads. -/
def ReassembledOnce (c : camera_data) (ps : List PduIn) : Prop :=
  ∃ f : GstBuffer,
    (camera_feed c ps).2.map (fun r => r.pushed) = List.replicate (ps.length - 1) none ++ [some f]
    ∧ f.bytes = (ps.map PduIn.payload).flatten

/-- A fresh 16-byte buffer. -/
def buf16 : GstBuffer := { mem := List.replicate 16 0, size := 16, dts := 0, pts := 0 }

/-- Three packets carrying one frame of 10 bytes. -/
def c1_frame : List PduIn :=
  [mkPduIn 7 [0xFF, 0xD8, 1, 2] 100 (some buf16), mkPduIn 8 [3, 4, 5] 200 none,
   mkPduIn 9 [6, 0xFF, 0xD9] 300 none]

/-- Three packets carrying one frame, the middle payload being 2 bytes long. -/
def c1_short : List PduIn :=
  [mkPduIn 0 [0xFF, 0xD8, 1] 100 (some buf16), mkPduIn 1 [0xAA, 0xBB] 200 none,
   mkPduIn 2 [2, 0xFF, 0xD9] 300 none]

/-- A frame start, a packet after a sequence gap, and a complete frame in one packet. -/
def c2_history : List PduIn :=
  [mkPduIn 0 [0xFF, 0xD8, 1] 100 (some buf16), mkPduIn 5 [1, 2, 3] 200 none,
   mkPduIn 6 [0xFF, 0xD8, 0xFF, 0xD9] 300 none]

/-- The packet starts a frame for the parser: its payload is longer than 2 bytes and starts with
the SOI marker. -/
def startsFrame (p : PduIn) : Prop := 2 < p.payload.length ∧ startsWithSOI p.payload

instance (p : PduIn) : Decidable (startsFrame p) := by unfold startsFrame; infer_instance

/-- The receiver has abandoned a frame and keeps its buffer `hdr`: a discontinuity is pending on
a collecting receiver, or the receiver is searching. -/
structure Resync (c : camera_data) (hdr : GstBuffer) : Prop where
  flags : c.flags = 3 ∨ c.flags = 17
  buffer : c.buffer = some hdr
  size : c.map.size = hdr.size

/-- The receiver after the first packet of a frame, collecting into a 16-byte buffer. -/
def c3_collecting : camera_data :=
  (camera_rx camera_init (mkPduIn 0 [0xFF, 0xD8, 1] 100 (some buf16))).camera

/-- The buffer held by `c3_collecting`. -/
def c3_hdr : GstBuffer := { buf16 with dts := 100, pts := 100 }

/-! ## Decoder session (`jpu-decoder.c`) -/

def CAMERAS_NUMBER : Nat := 4
def MJPEG_INPUT_POOL_SIZE : Nat := 4
def MJPEG_INPUT_BUFFERS_NUM : Nat := MJPEG_INPUT_POOL_SIZE * CAMERAS_NUMBER
def MJPEG_OUTPUT_BUFFERS_NUM : Nat := MJPEG_INPUT_BUFFERS_NUM

/-- Value of `EINVAL` on Linux. -/
def EINVAL : Int := 22

/-- Value of `EBADFD` on Linux. -/
def EBADFD : Int := 77

/-- A pool entry `jpu_buffer_t`. `priv` points to the `GstBuffer` of the entry: `some n` is a live
buffer with reference count `n`, `none` is `NULL`. `map` is the mapping ("filled") flag. -/
structure jpu_buffer where
  priv : Option Nat
  map : Nat
deriving DecidableEq, Repr, Inhabited

/-- What a decoder function does to the outside, in order. -/
inductive Event
  | lock
  | unlock
  | submit (j : Nat)
  | queue_input (j : Nat)
  | queue_output (j : Nat)
  | dequeue_output
  | dequeue_input
  | signal_wait
  | signal_wait_input (i : Nat)
  | signal_flush_wait
  | cond_wait_input (i : Nat)
  | cond_wait_flush
  | process (i k : Nat)
  | bug
deriving DecidableEq, Repr

/-- The fields of `mjpeg_decoder_t` that the pool logic uses. `locked` tells whether
`dec->lock` is held. -/
structure mjpeg_decoder where
  input_pool : List jpu_buffer
  output_pool : List jpu_buffer
  input : List (List Nat)
  output_count : Int
  output_busy : Int
  active : Bool
  locked : Bool
deriving DecidableEq, Repr

/-- Result of a decoder function: the session afterwards, what it did, and what it returned. -/
structure Out (α : Type) where
  dec : mjpeg_decoder
  trace : List Event
  ret : α
deriving Repr

/-- Update of `pool[j].map`. -/
def set_map (pool : List jpu_buffer) (j : Nat) (v : Nat) : List jpu_buffer :=
  pool.set j { pool.getD j default with map := v }

/-- Update of `pool[j].priv`. -/
def set_priv (pool : List jpu_buffer) (j : Nat) (v : Option Nat) : List jpu_buffer :=
  pool.set j { pool.getD j default with priv := v }

/-- `gst_buffer_ref` on the buffer of `pool[j]`. -/
def buffer_ref (pool : List jpu_buffer) (j : Nat) : List jpu_buffer :=
  set_priv pool j ((pool.getD j default).priv.map (· + 1))

/-- `pthread_mutex_lock(&dec->lock)`. -/
def mutex_lock (dec : mjpeg_decoder) : mjpeg_decoder := { dec with locked := true }

/-- `pthread_mutex_unlock(&dec->lock)`. -/
def mutex_unlock (dec : mjpeg_decoder) : mjpeg_decoder := { dec with locked := false }

/-- Submit buffers for decoding (runs with the lock held). `qin` and `qout` are the values that
`jpu_input_buffer_queue` and `jpu_output_buffer_queue` return; `CHK_API` returns a negative
value at once. -/
def __submit_buffers (dec : mjpeg_decoder) (j : Nat) (qin qout : Int) : Out Int :=
  if qin < 0 then
    { dec := dec, trace := [Event.submit j, Event.queue_input j], ret := qin }
  else if qout < 0 then
    { dec := dec, trace := [Event.submit j, Event.queue_input j, Event.queue_output j],
      ret := qout }
  else
    { dec := { dec with output_count := dec.output_count + 1 }
      trace := [Event.submit j, Event.queue_input j, Event.queue_output j] ++
        (if dec.output_count = 0 then [Event.signal_wait] else [])
      ret := 0 }

/-- Process a new input buffer submitted from camera `i`. `j` is the index of the pool entry the
buffer belongs to (`buf - dec->input_pool`); the check `buf->priv == buffer` is that the entry
still points to a buffer. -/
def __camera_input_put (dec : mjpeg_decoder) (i : Nat) (j : Int) (qin qout : Int) : Out Int :=
  if ¬ (j ≥ 0 ∧ j < MJPEG_INPUT_BUFFERS_NUM) then
    { dec := dec, trace := [], ret := -EINVAL }
  else if (dec.input_pool.getD j.toNat default).priv = none then
    { dec := dec, trace := [], ret := -EINVAL }
  else
    let j := j.toNat
    let dec := { dec with input_pool := buffer_ref dec.input_pool j }
    let dec := mutex_lock dec
    let dec := { dec with input_pool := set_map dec.input_pool j 1 }
    let r : Out Int :=
      if (dec.output_pool.getD j default).map = 0 then __submit_buffers dec j qin qout
      else { dec := dec, trace := [], ret := 0 }
    { dec := mutex_unlock r.dec, trace := [Event.lock] ++ r.trace ++ [Event.unlock],
      ret := r.ret }

/-- What `__camera_input_get` comes to: a buffer (the pool index and the `priv` pointer of the
entry), `NULL`, or the caller left waiting in `pthread_cond_wait`. -/
inductive InputGet
  | buffer (j : Nat) (priv : Option Nat)
  | null
  | waiting
deriving DecidableEq, Repr

/-- Retrieve a new input buffer for camera `i`, from the call to the return or to the first
`pthread_cond_wait`. `DROP_BUFFERS` is the compile-time policy flag. A caller that waits holds
no lock (`pthread_cond_wait` releases it); what it does when it is woken up is
`__camera_input_get_woken`. -/
def __camera_input_get (dec : mjpeg_decoder) (i : Nat) (DROP_BUFFERS : Bool) : Out InputGet :=
  let dec := mutex_lock dec
  match dec.input.getD i [] with
  | [] =>
    if ¬ DROP_BUFFERS ∧ dec.active then
      { dec := mutex_unlock dec, trace := [Event.lock, Event.cond_wait_input i],
        ret := InputGet.waiting }
    else
      { dec := mutex_unlock dec, trace := [Event.lock, Event.unlock], ret := InputGet.null }
  | j :: rest =>
    let dec := { dec with input := dec.input.set i rest }
    { dec := mutex_unlock dec, trace := [Event.lock, Event.unlock],
      ret := InputGet.buffer j (dec.input_pool.getD j default).priv }

/-- The rest of `__camera_input_get` for a caller that waited (`!DROP_BUFFERS`) and is woken up.
`pthread_cond_wait` returns with the lock held and the inner loop tests
`dec->active && g_queue_is_empty(&dec->input[i])` again: active with an empty queue, the caller
waits again; active with a buffer in the queue, it leaves both loops (`break`) and takes the
head of the queue; not active, it returns `NULL` whatever the queue holds (`goto out` without
another test of the queue). -/
def __camera_input_get_woken (dec : mjpeg_decoder) (i : Nat) : Out InputGet :=
  let dec := mutex_lock dec
  if dec.active then
    match dec.input.getD i [] with
    | [] =>
      { dec := mutex_unlock dec, trace := [Event.cond_wait_input i], ret := InputGet.waiting }
    | j :: rest =>
      let dec := { dec with input := dec.input.set i rest }
      { dec := mutex_unlock dec, trace := [Event.unlock],
        ret := InputGet.buffer j (dec.input_pool.getD j default).priv }
  else
    { dec := mutex_unlock dec, trace := [Event.unlock], ret := InputGet.null }

/-- Input buffer dispose function, for the buffer of entry `j`; returns whether the buffer is to
be destroyed. -/
def __jpu_input_buffer_dispose (dec : mjpeg_decoder) (j : Nat) : Out Bool :=
  let i := j / CAMERAS_NUMBER
  let dec := mutex_lock dec
  if dec.active then
    let dec := { dec with input_pool := set_map dec.input_pool j 0 }
    let dec := { dec with input := dec.input.set i (dec.input.getD i [] ++ [j]) }
    let dec := { dec with input_pool := buffer_ref dec.input_pool j }
    { dec := mutex_unlock dec
      trace := [Event.lock, Event.signal_wait_input i, Event.unlock], ret := false }
  else
    let dec := { dec with input_pool := set_priv dec.input_pool j none }
    { dec := mutex_unlock dec, trace := [Event.lock, Event.unlock], ret := true }

/-- Output buffer dispose function, for the buffer of entry `k`; returns whether the buffer is
to be destroyed. `BUG` aborts on an index outside the pool. -/
def __jpu_output_buffer_dispose (dec : mjpeg_decoder) (k : Nat) (qin qout : Int) : Out Bool :=
  if k ≥ MJPEG_OUTPUT_BUFFERS_NUM then
    { dec := dec, trace := [Event.bug], ret := false }
  else
    let dec := mutex_lock dec
    let dec := { dec with output_busy := dec.output_busy - 1 }
    if dec.active then
      let dec := { dec with output_pool := set_map dec.output_pool k 0 }
      let dec := { dec with output_pool := buffer_ref dec.output_pool k }
      let r : Out Int :=
        if (dec.input_pool.getD k default).map ≠ 0 then __submit_buffers dec k qin qout
        else { dec := dec, trace := [], ret := 0 }
      { dec := mutex_unlock r.dec, trace := [Event.lock] ++ r.trace ++ [Event.unlock],
        ret := false }
    else
      let sig := if dec.output_busy = 0 then [Event.signal_flush_wait] else []
      let dec := { dec with output_pool := set_priv dec.output_pool k none }
      { dec := mutex_unlock dec, trace := [Event.lock] ++ sig ++ [Event.unlock], ret := true }

/-- `gst_buffer_unref` on the buffer of input entry `j`: when the last reference goes, the
dispose function runs (it takes a reference again, or lets the buffer be destroyed). -/
def gst_buffer_unref_input (dec : mjpeg_decoder) (j : Nat) : Out Unit :=
  match (dec.input_pool.getD j default).priv with
  | none => { dec := dec, trace := [], ret := () }
  | some n =>
    if n ≤ 1 then
      let r := __jpu_input_buffer_dispose
        { dec with input_pool := set_priv dec.input_pool j (some 0) } j
      { dec := r.dec, trace := r.trace, ret := () }
    else
      { dec := { dec with input_pool := set_priv dec.input_pool j (some (n - 1)) }
        trace := [], ret := () }

/-- `gst_buffer_unref` on the buffer of output entry `k`. -/
def gst_buffer_unref_output (dec : mjpeg_decoder) (k : Nat) (qin qout : Int) : Out Unit :=
  match (dec.output_pool.getD k default).priv with
  | none => { dec := dec, trace := [], ret := () }
  | some n =>
    if n ≤ 1 then
      let r := __jpu_output_buffer_dispose
        { dec with output_pool := set_priv dec.output_pool k (some 0) } k qin qout
      { dec := r.dec, trace := r.trace, ret := () }
    else
      { dec := { dec with output_pool := set_priv dec.output_pool k (some (n - 1)) }
        trace := [], ret := () }

/-- Data processing notification from the decoder loop. `k` and `j` are the values returned by
`jpu_output_buffer_dequeue` and `jpu_input_buffer_dequeue`; `proc` is the value returned by the
consumer's `process` callback and `keep` tells whether the consumer holds a reference to the
output buffer when the callback returns; `qin`, `qout` are the results of the device calls of a
resubmission, if the release of the output buffer leads to one. -/
def __decoder_process (dec : mjpeg_decoder) (k j : Int) (proc : Int) (keep : Bool)
    (qin qout : Int) : Out Int :=
  let dec := mutex_lock dec
  if k < 0 then
    { dec := dec, trace := [Event.lock, Event.dequeue_output], ret := k }
  else if j < 0 then
    { dec := dec, trace := [Event.lock, Event.dequeue_output, Event.dequeue_input], ret := j }
  else
    let i := j.toNat / CAMERAS_NUMBER
    let dec := { dec with output_count := dec.output_count - 1 }
    if k ≠ j then
      { dec := dec, trace := [Event.lock, Event.dequeue_output, Event.dequeue_input],
        ret := -EBADFD }
    else
      let j := j.toNat
      let k := k.toNat
      if dec.active then
        let dec := { dec with output_pool := set_map dec.output_pool k 1 }
        let dec := { dec with output_busy := dec.output_busy + 1 }
        let dec := mutex_unlock dec
        let dec := if keep then { dec with output_pool := buffer_ref dec.output_pool k } else dec
        let t := [Event.lock, Event.dequeue_output, Event.dequeue_input, Event.unlock,
          Event.process i k]
        if proc < 0 then
          { dec := dec, trace := t, ret := proc }
        else
          let r1 := gst_buffer_unref_input dec j
          let r2 := gst_buffer_unref_output r1.dec k qin qout
          { dec := r2.dec, trace := t ++ r1.trace ++ r2.trace, ret := 0 }
      else
        let dec := mutex_unlock dec
        let r1 := gst_buffer_unref_input dec j
        let r2 := gst_buffer_unref_output r1.dec k qin qout
        { dec := r2.dec
          trace := [Event.lock, Event.dequeue_output, Event.dequeue_input, Event.unlock]
            ++ r1.trace ++ r2.trace
          ret := 0 }

/-- State change notification; `newstate_null` tells whether the element enters
`GST_STATE_NULL`. Returns `true` when the function has returned and `false` when the caller is
left waiting on `flush_wait` (the wait releases the lock). -/
def camera_state_changed (dec : mjpeg_decoder) (newstate_null : Bool) : Out Bool :=
  if ¬ dec.active then
    { dec := dec, trace := [], ret := true }
  else if newstate_null then
    let dec := mutex_lock dec
    let sig := (List.range CAMERAS_NUMBER).map Event.signal_wait_input
    let dec := { dec with active := false }
    if dec.output_busy > 0 then
      { dec := mutex_unlock dec
        trace := [Event.lock] ++ sig ++ [Event.signal_wait, Event.cond_wait_flush], ret := false }
    else
      { dec := mutex_unlock dec
        trace := [Event.lock] ++ sig ++ [Event.signal_wait, Event.unlock], ret := true }
  else
    { dec := dec, trace := [], ret := true }

/-- The session after a successful `camera_mjpeg_create` / `mjpeg_runtime_init`: both pools
allocated with every mapping flag cleared, entry `j` of the input pool pushed on the queue of
camera `j / CAMERAS_NUMBER`, counters cleared, activity flag set. -/
def mjpeg_runtime_init : mjpeg_decoder :=
  { input_pool := List.replicate MJPEG_INPUT_BUFFERS_NUM { priv := some 1, map := 0 }
    output_pool := List.replicate MJPEG_OUTPUT_BUFFERS_NUM { priv := some 1, map := 0 }
    input := (List.range MJPEG_INPUT_BUFFERS_NUM).foldl
      (fun q j => q.set (j / CAMERAS_NUMBER) (q.getD (j / CAMERAS_NUMBER) [] ++ [j]))
      (List.replicate CAMERAS_NUMBER [])
    output_count := 0
    output_busy := 0
    active := true
    locked := false }

/-- One step of the session after start-up. -/
inductive SessionOp
  | input_get (i : Nat) (drop : Bool)
  | input_put (i : Nat) (j : Int) (qin qout : Int)
  | decoder_process (k j : Int) (proc : Int) (keep : Bool) (qin qout : Int)
  | input_dispose (j : Nat)
  | output_dispose (k : Nat) (qin qout : Int)
deriving Repr

/-- The session after one step. -/
def session_step (dec : mjpeg_decoder) : SessionOp → mjpeg_decoder
  | SessionOp.input_get i drop => (__camera_input_get dec i drop).dec
  | SessionOp.input_put i j qin qout => (__camera_input_put dec i j qin qout).dec
  | SessionOp.decoder_process k j proc keep qin qout =>
    (__decoder_process dec k j proc keep qin qout).dec
  | SessionOp.input_dispose j => (__jpu_input_buffer_dispose dec j).dec
  | SessionOp.output_dispose k qin qout => (__jpu_output_buffer_dispose dec k qin qout).dec

/-- The states the session goes through on a list of steps, the starting state first. -/
def session_run : mjpeg_decoder → List SessionOp → List mjpeg_decoder
  | dec, [] => [dec]
  | dec, op :: ops => dec :: session_run (session_step dec op) ops

/-- Number of calls of `__submit_buffers(dec, j)` in a trace. -/
def submissions (j : Nat) (t : List Event) : Nat := t.count (Event.submit j)

/-- Session with output entry 5 handed to the consumer and input entry 5 acquired, not filled. -/
def c4_session : mjpeg_decoder :=
  { mjpeg_runtime_init with
    output_pool := set_map mjpeg_runtime_init.output_pool 5 1
    output_busy := 1 }

/-- Invariant of the free-input queues: one queue per camera, and the queue of camera `i` holds
distinct pool indices `j` with `j / MJPEG_INPUT_POOL_SIZE = i`. -/
structure QueuesOk (dec : mjpeg_decoder) : Prop where
  cameras : dec.input.length = CAMERAS_NUMBER
  owner : ∀ i j, j ∈ dec.input.getD i [] → j / MJPEG_INPUT_POOL_SIZE = i
  nodup : ∀ i, (dec.input.getD i []).Nodup

/-- `n` acquisitions in a row for camera `i`: the session afterwards and what each returned. -/
def acquire_many (dec : mjpeg_decoder) (i : Nat) (drop : Bool) :
    Nat → mjpeg_decoder × List InputGet
  | 0 => (dec, [])
  | n + 1 =>
    let r := __camera_input_get dec i drop
    let rest := acquire_many r.dec i drop n
    (rest.1, r.ret :: rest.2)

/-- The acquisition obtained a buffer. -/
def InputGet.isBuffer : InputGet → Bool
  | InputGet.buffer _ _ => true
  | _ => false

/-! ## Packet filter (`netif.c`, `netif_filter_setup`) -/

/-- One instruction of a classic packet-filter program (`struct sock_filter`). -/
structure sock_filter where
  code : Nat
  jt : Nat
  jf : Nat
  k : Nat
deriving DecidableEq, Repr

/-- The loop "adjust reject index reference" of `netif_filter_setup`: `i` counts down from
`length - 2` while the pointer `f` moves up; a jump offset equal to `(u8)-1` becomes `i`. -/
def filter_adjust : List sock_filter → Nat → List sock_filter
  | f :: rest, i + 1 =>
    { f with jt := if f.jt = 255 then i + 1 else f.jt
             jf := if f.jf = 255 then i + 1 else f.jf } :: filter_adjust rest i
  | fs, _ => fs

/-- Stream filter setup: the program handed to `SO_ATTACH_FILTER`. `da` and `sa` are the MAC
addresses to match (`none` for a `NULL` pointer); `proto` and `vlan` are given when non-zero. -/
def netif_filter_setup (da sa : Option (List Nat)) (proto vlan : Nat) : List sock_filter :=
  let f : List sock_filter := []
  let f := match da with
    | some da => f ++ [⟨0x20, 0, 0, 2⟩, ⟨0x15, 0, 255, netif_get_u32 (da.drop 2)⟩,
                       ⟨0x28, 0, 0, 0⟩, ⟨0x15, 0, 255, netif_get_u16 da⟩]
    | none => f
  let f := match sa with
    | some sa => f ++ [⟨0x20, 0, 0, 8⟩, ⟨0x15, 0, 255, netif_get_u32 (sa.drop 2)⟩,
                       ⟨0x28, 0, 0, 6⟩, ⟨0x15, 0, 255, netif_get_u16 sa⟩]
    | none => f
  let f :=
    if vlan ≠ 0 ∨ proto ≠ 0 then
      let f := f ++ [⟨0x28, 0, 0, 12⟩]
      let f := if proto ≠ 0 then f ++ [⟨0x15, if vlan ≠ 0 then 6 else 3, 0, proto⟩] else f
      let f := f ++ [⟨0x15, 0, 255, 0x8100⟩]
      let f := if vlan ≠ 0 then
          f ++ [⟨0x28, 0, 0, 14⟩, ⟨0x54, 0, 0, 0xFFF⟩, ⟨0x15, 0, 255, vlan⟩]
        else f
      let f := if proto ≠ 0 then f ++ [⟨0x28, 0, 0, 16⟩, ⟨0x15, 0, 255, proto⟩] else f
      f
    else f
  let f := f ++ [⟨0x06, 0, 0, 0xFFFF⟩, ⟨0x06, 0, 0, 0⟩]
  let length := f.length % 256
  filter_adjust f (length - 2)

/-- Per-instruction part of the check that the kernel makes when a program is handed to
`SO_ATTACH_FILTER`: the instruction at index `pc` of a program of `len` instructions is one of the
five kinds that `netif_filter_setup` emits, and both targets of a conditional jump (`0x15`) are
inside the program. -/
def bpf_check_from (len : Nat) : Nat → List sock_filter → Bool
  | _, [] => true
  | pc, ins :: rest =>
    (decide (ins.code = 0x20) || decide (ins.code = 0x28) || decide (ins.code = 0x54) ||
      decide (ins.code = 0x06) ||
      (decide (ins.code = 0x15) && decide (pc + ins.jt + 1 < len) &&
        decide (pc + ins.jf + 1 < len))) &&
    bpf_check_from len (pc + 1) rest

/-- The check that the kernel makes when a program is handed to `SO_ATTACH_FILTER`: between 1 and
4096 instructions, each of them passing `bpf_check_from`, the last one a return. A program that
fails the check is refused (`setsockopt` fails with `EINVAL`, `netif_filter_setup` returns
`-errno`) and is never run. -/
def bpf_check (prog : List sock_filter) : Bool :=
  decide (0 < prog.length) && decide (prog.length ≤ 4096) &&
  bpf_check_from prog.length 0 prog &&
  decide (prog.getLast?.map sock_filter.code = some 0x06)

/-- One instruction of the kernel's interpreter of classic packet-filter programs, for the
instructions that `netif_filter_setup` emits: `0x20`/`0x28` load a big-endian word/half-word at
absolute offset `k` into `A` (the packet is rejected when the load is out of bounds), `0x15`
jumps by `jt` when `A == k` and by `jf` otherwise, `0x54` is `A &= k`, `0x06` returns `k`.
`next pc A` runs the program on from `pc` with accumulator `A`. An instruction of another kind
has no verdict (`none`): `bpf_check` refuses it. -/
def bpf_step (pkt : List Nat) (ins : sock_filter) (pc A : Nat)
    (next : Nat → Nat → Option Nat) : Option Nat :=
  if ins.code = 0x20 then
    if ins.k + 4 ≤ pkt.length then next (pc + 1) (netif_get_u32 (pkt.drop ins.k)) else some 0
  else if ins.code = 0x28 then
    if ins.k + 2 ≤ pkt.length then next (pc + 1) (netif_get_u16 (pkt.drop ins.k)) else some 0
  else if ins.code = 0x15 then
    next (pc + 1 + (if A = ins.k then ins.jt else ins.jf)) A
  else if ins.code = 0x54 then
    next (pc + 1) (A &&& ins.k)
  else if ins.code = 0x06 then some ins.k
  else none

/-- The interpreter: fetch the instruction at `pc` and run it. The result `some n` is the number
of bytes of the packet to keep, `some 0` meaning that the packet is rejected. A run that leaves
the program (a jump past its last instruction) has no verdict (`none`): the kernel never starts
such a run, because `bpf_check` refuses the program. Jumps go forward, so a program runs for at
most as many steps as it has instructions. -/
def bpf_run (prog : List sock_filter) (pkt : List Nat) : Nat → Nat → Nat → Option Nat
  | 0, _, _ => none
  | fuel + 1, pc, A =>
    match prog.get? pc with
    | none => none
    | some ins => bpf_step pkt ins pc A (bpf_run prog pkt fuel)

/-- The socket delivers the packet: the program was attached and returns a non-zero length. -/
def bpf_accepts (prog : List sock_filter) (pkt : List Nat) : Prop :=
  bpf_check prog = true ∧ bpf_run prog pkt prog.length 0 0 ≠ none ∧
    bpf_run prog pkt prog.length 0 0 ≠ some 0

/-- The socket drops the packet: the program was attached and returns 0. -/
def bpf_rejects (prog : List sock_filter) (pkt : List Nat) : Prop :=
  bpf_check prog = true ∧ bpf_run prog pkt prog.length 0 0 = some 0

instance (prog : List sock_filter) (pkt : List Nat) : Decidable (bpf_accepts prog pkt) := by
  unfold bpf_accepts; infer_instance

instance (prog : List sock_filter) (pkt : List Nat) : Decidable (bpf_rejects prog pkt) := by
  unfold bpf_rejects; infer_instance

/-- Ethertype field of a MAC header: `netif_get_u16(pkt + 12)`. -/
def nbuf_ethtype (pkt : List Nat) : Nat := netif_get_u16 (pkt.drop 12)

/-- VLAN tag control field: `netif_get_u16(pkt + 14)`. -/
def nbuf_8021q_vid (pkt : List Nat) : Nat := netif_get_u16 (pkt.drop 14)

/-- Ethertype behind an 802.1Q tag: `netif_get_u16(pkt + 16)`. -/
def nbuf_8021q_ethtype (pkt : List Nat) : Nat := netif_get_u16 (pkt.drop 16)

/-- The destination MAC address of the frame (bytes 0-5) is `da`. -/
def frame_dst_is (frame da : List Nat) : Prop := frame.take 6 = da

/-- The source MAC address of the frame (bytes 6-11) is `sa`. -/
def frame_src_is (frame sa : List Nat) : Prop := (frame.drop 6).take 6 = sa

/-- The ethertype of the frame is `p`, untagged (bytes 12-13) or behind an 802.1Q tag (bytes
12-13 are 0x8100 and bytes 16-17 are `p`). -/
def frame_type_is (frame : List Nat) (p : Nat) : Prop :=
  nbuf_ethtype frame = p ∨ (nbuf_ethtype frame = 0x8100 ∧ nbuf_8021q_ethtype frame = p)

/-- The frame is 802.1Q-tagged and the low 12 bits of bytes 14-15 are `v`. -/
def frame_vlan_is (frame : List Nat) (v : Nat) : Prop :=
  nbuf_ethtype frame = 0x8100 ∧ nbuf_8021q_vid frame &&& 0xFFF = v

/-- Every given predicate holds of the frame. -/
def filter_all_given (da sa : Option (List Nat)) (proto vlan : Nat) (frame : List Nat) : Prop :=
  (∀ d, da = some d → frame_dst_is frame d) ∧ (∀ s, sa = some s → frame_src_is frame s) ∧
  (proto ≠ 0 → frame_type_is frame proto) ∧ (vlan ≠ 0 → frame_vlan_is frame vlan)

/-- What the synthesized program tests: the given MAC addresses, and for the ethertype and the
VLAN id, when both are given, either bytes 12-13 are the ethertype (the VLAN id is then not
looked at) or the frame is tagged with that VLAN id and carries the ethertype behind the tag. -/
def filter_tests (da sa : Option (List Nat)) (proto vlan : Nat) (frame : List Nat) : Prop :=
  (∀ d, da = some d → frame_dst_is frame d) ∧ (∀ s, sa = some s → frame_src_is frame s) ∧
  (if proto ≠ 0 ∧ vlan ≠ 0 then
    nbuf_ethtype frame = proto ∨
      (nbuf_ethtype frame = 0x8100 ∧ nbuf_8021q_vid frame &&& 0xFFF = vlan ∧
        nbuf_8021q_ethtype frame = proto)
  else (proto ≠ 0 → frame_type_is frame proto) ∧ (vlan ≠ 0 → frame_vlan_is frame vlan))

/-- A MAC address argument is absent or six bytes. -/
def mac_ok (m : Option (List Nat)) : Prop := ∀ d, m = some d → d.length = 6 ∧ ∀ x ∈ d, x < 256

/-- An 802.1Q-tagged frame (VLAN id 5) of ethertype 0x88B5. -/
def tagged_frame : List Nat :=
  [1, 2, 3, 4, 5, 6, 7, 8, 9, 10, 11, 12, 0x81, 0x00, 0x00, 0x05, 0x88, 0xB5, 0, 0]

/-- An untagged frame of ethertype 0x88B5. -/
def untagged_frame : List Nat :=
  [1, 2, 3, 4, 5, 6, 7, 8, 9, 10, 11, 12, 0x88, 0xB5, 0, 0, 0, 0, 0, 0]

/-! ## Packet ring (`netif.c`) -/

/-- Frame status word: the frame belongs to the kernel (`<linux/if_packet.h>`). -/
def TP_STATUS_KERNEL : Nat := 0

/-- Frame status bit: the frame belongs to user space (`<linux/if_packet.h>`). -/
def TP_STATUS_USER : Nat := 1

/-- The receive side of `netif_stream_t` together with the status words of the frames of the
memory-mapped ring: `tp_status[i]` is `stream->nbuf[i]->tp_status`. A frame (`netif_buffer_t *`)
is named by its index in the ring. -/
structure netif_stream where
  rx_read_idx : Nat
  rx_ring_mask : Nat
  tp_status : List Nat
  deriving DecidableEq

/-- Status word of an RX frame: `__nbuf_rx(stream, idx)->tp_status`. -/
def frame_tp_status (stream : netif_stream) (idx : Nat) : Nat :=
  stream.tp_status.getD idx TP_STATUS_KERNEL

/-- The frame at `idx` is owned by user space: `(tp_status & TP_STATUS_USER) != 0`. -/
def user_owned (stream : netif_stream) (idx : Nat) : Prop :=
  frame_tp_status stream idx &&& TP_STATUS_USER ≠ 0

instance (stream : netif_stream) (idx : Nat) : Decidable (user_owned stream idx) := by
  unfold user_owned
  infer_instance

/-- Test if the stream is ready for receiving. -/
def netif_stream_rx_ready (stream : netif_stream) : Bool :=
  frame_tp_status stream stream.rx_read_idx &&& TP_STATUS_USER != 0

/-- The loop of `netif_stream_rx_pending`: `count` is a `u16`, the loop runs while
`count <= mask`. `none` when the fuel is used up before the loop ends. -/
def rx_pending_loop (stream : netif_stream) : Nat → Nat → Nat → Option Nat
  | 0, _, _ => none
  | fuel + 1, read_idx, count =>
    if count ≤ stream.rx_ring_mask then
      if frame_tp_status stream read_idx &&& TP_STATUS_USER = 0 then some count
      else rx_pending_loop stream fuel ((read_idx + 1) &&& stream.rx_ring_mask)
        ((count + 1) % 65536)
    else some count

/-- Amount of the pending packets available in the receive queue. -/
def netif_stream_rx_pending (stream : netif_stream) (fuel : Nat) : Option Nat :=
  rx_pending_loop stream fuel stream.rx_read_idx 0

/-- Read next frame: the frame at the read index if it is owned by user space, with the index
advanced; `none` (NULL) otherwise. The two warnings (truncated frame, lost packets) only write
to the log. -/
def netif_stream_read (stream : netif_stream) : netif_stream × Option Nat :=
  let read_idx := stream.rx_read_idx
  if frame_tp_status stream read_idx &&& TP_STATUS_USER ≠ 0 then
    ({ stream with rx_read_idx := (read_idx + 1) &&& stream.rx_ring_mask }, some read_idx)
  else
    (stream, none)

/-- Mark the frame available for receiving: `frame->tp_status = TP_STATUS_KERNEL`. -/
def __nbuf_rx_done (tp_status : List Nat) (nbuf : Nat) : List Nat :=
  tp_status.set nbuf TP_STATUS_KERNEL

/-- Release RX-frame (return to kernel). -/
def netif_stream_rx_done (stream : netif_stream) (nbuf : Nat) : netif_stream :=
  { stream with tp_status := __nbuf_rx_done stream.tp_status nbuf }

/-- The releases a caller makes between two reads: `netif_stream_rx_done` on each frame of
`rel` that a read has returned (`got`); a frame that was not returned is not released. -/
def release_returned (stream : netif_stream) (got rel : List Nat) : netif_stream :=
  rel.foldl (fun st slot => if slot ∈ got then netif_stream_rx_done st slot else st) stream

/-- A reader of the ring with nothing written by the kernel meanwhile: one
`netif_stream_read` per element of the schedule, followed by the releases of that element.
The result is the final stream and what each read returned. -/
def ring_session : netif_stream → List Nat → List (List Nat) → netif_stream × List (Option Nat)
  | stream, _, [] => (stream, [])
  | stream, got, rel :: rest =>
    let r := netif_stream_read stream
    let got1 := got ++ r.2.toList
    let out := ring_session (release_returned r.1 got1 rel) got1 rest
    (out.1, r.2 :: out.2)

/-- A ring of two frames, both filled by the kernel, nothing read yet. -/
def full_ring : netif_stream :=
  { rx_read_idx := 0, rx_ring_mask := 1, tp_status := [TP_STATUS_USER, TP_STATUS_USER] }

/-! ## Decoder session: classes of events, stopped sessions -/

/-- The event is a call of the consumer's `process` callback. -/
def Event.isProcess : Event → Bool
  | Event.process _ _ => true
  | _ => false

/-- The event is a dequeue from the decoder device. -/
def Event.isDequeue : Event → Bool
  | Event.dequeue_output => true
  | Event.dequeue_input => true
  | _ => false

/-- The event is a call of `__submit_buffers`. -/
def Event.isSubmit : Event → Bool
  | Event.submit _ => true
  | _ => false

/-- The session of `mjpeg_runtime_init` after camera 0 has acquired input buffer 0 and the element
has entered `GST_STATE_NULL`. -/
def stopped_session : mjpeg_decoder :=
  (camera_state_changed (__camera_input_get mjpeg_runtime_init 0 true).dec true).dec

/-- A stopped session in which camera 0 has no free input buffer. -/
def stopped_session_empty : mjpeg_decoder :=
  { stopped_session with input := stopped_session.input.set 0 [] }

/-- A stopped session in which one decoded buffer is still held by the consumer. -/
def draining_session : mjpeg_decoder :=
  { stopped_session with output_pool := set_map stopped_session.output_pool 5 1, output_busy := 1 }

/-! ## Frame assembler: format checks and sample packets -/

/-- The packet passes the two format checks of `camera_pdu_rx`: subtype 0x02 and a declared
stream-data length that fits the packet length. -/
def PduIn.Accepted (p : PduIn) : Prop :=
  pdu_get_subtype p.pdu = 0x2 ∧ p.datalen + NETIF_HEADER_LENGTH ≤ p.length

instance (p : PduIn) : Decidable p.Accepted := by unfold PduIn.Accepted; infer_instance

/-- Four packets whose sequence numbers run 254, 255, 0, 1. -/
def c15_run : List PduIn :=
  [mkPduIn 254 [1, 2, 3] 100 none, mkPduIn 255 [4, 5, 6] 200 none, mkPduIn 0 [7, 8, 9] 300 none,
   mkPduIn 1 [10, 11, 12] 400 none]

/-- A packet of three payload bytes with sequence number 254, the first packet of `c15_run`. -/
def c15_gap : PduIn := mkPduIn 254 [1, 2, 3] 100 none

/-- A packet of two payload bytes with sequence number 5. -/
def c15_short_gap : PduIn := mkPduIn 5 [0xAA, 0xBB] 200 none

/-- Three packets with the sequence numbers 1, 2, 3: the run that `c3_collecting` expects. -/
def c15_in_order : List PduIn :=
  [mkPduIn 1 [1, 2, 3] 200 none, mkPduIn 2 [4, 5, 6] 300 none, mkPduIn 3 [7, 8, 9] 400 none]

/-- A packet of subtype 0x03. -/
def c16_pdu : List Nat := [0x03, 0, 0, 0, 0, 0, 0, 0, 0, 0, 0, 0, 0, 0, 0, 0, 0, 0, 0, 0, 0, 3, 0, 0,
  0xFF, 0xD8, 1]

/-- A fresh 4-byte buffer. -/
def buf4 : GstBuffer := { mem := List.replicate 4 0, size := 4, dts := 0, pts := 0 }

/-- The receiver after a first packet that fills a 4-byte buffer without ending the frame. -/
def c17_full : camera_data :=
  (camera_rx camera_init (mkPduIn 0 [0xFF, 0xD8, 1, 2] 100 (some buf4))).camera

/-- The call `camera_jpeg_parse c g ph ts data len` appends its payload to the buffer `hdr` of
capacity `cap` after the bytes `w`: the receiver is in the middle of a frame, or the payload
starts a frame in the buffer kept from an abandoned frame, or it starts a frame in the buffer
`b` that this call acquires. -/
inductive Appends (c : camera_data) (g : Option GstBuffer) (ts : Nat) (data : List Nat)
    (hdr : GstBuffer) (cap : Nat) (w : List Nat) : Prop
  | collecting : Collecting c hdr cap w → Appends c g ts data hdr cap w
  | restart : Resync c hdr → netif_get_u16 data = 0xFFD8 → w = [] → cap = hdr.size →
      Appends c g ts data hdr cap w
  | start (b : GstBuffer) : (c.flags = 0 ∨ c.flags = 3 ∨ c.flags = 17 ∨ c.flags = 19) →
      c.buffer = none → netif_get_u16 data = 0xFFD8 → g = some b →
      hdr = { b with dts := ts, pts := ts } → w = [] → cap = b.size →
      Appends c g ts data hdr cap w

/-- What `camera_jpeg_parse` does once the payload `pl` is appended after the bytes `w` of the
buffer `hdr`: the frame is completed if and only if one of the two probes finds `0xFFD9`; on
the first probe the pushed size is the number of bytes written, on the second it is one less
(the byte after the marker is left out); the buffer reference is cleared and the receiver is
searching. -/
def EoiOutcome (o : ParseOut) (w pl : List Nat) : Prop :=
  (o.pushed ≠ none ↔ eoiCheck pl) ∧
  (eoiAligned pl → ∃ f, o.pushed = some f ∧ f.size = (w ++ pl).length ∧ f.bytes = w ++ pl ∧
    o.camera.buffer = none ∧ SEARCHING o.camera ∧ o.ret = 0) ∧
  (¬ eoiAligned pl → eoiMisaligned pl →
    ∃ f, o.pushed = some f ∧ f.size = (w ++ pl).length - 1 ∧ f.bytes = (w ++ pl).dropLast ∧
      o.camera.buffer = none ∧ SEARCHING o.camera ∧ o.ret = 0)

/-! ## Packet ring: pending run -/

/-- Length of the longest run of consecutive user-owned frames that starts at the read index
and wraps modulo the ring size `size`, capped at `size`. -/
def pending_run (stream : netif_stream) (size : Nat) : Nat :=
  ((List.range size).takeWhile
    (fun i => decide (user_owned stream ((stream.rx_read_idx + i) % size)))).length

/-- A ring of four frames with the read index at 3: frames 3 and 0 are pending, frame 1 is
not, frame 2 is. -/
def wrapped_ring : netif_stream :=
  { rx_read_idx := 3, rx_ring_mask := 3, tp_status := [1, 0, 1, 1] }

/-! ## Packet ring: purge, network source -/

/-- The loop "drop all frames collected thus far" of `netif_stream_rx_purge`, entered with the
local `read_idx`: while the frame at `read_idx` is owned by user space, pass it to the kernel
and advance the index. The kernel fills nothing meanwhile. `none` when the fuel is used up
before the loop ends. -/
def rx_purge_loop : Nat → netif_stream → Nat → Option (netif_stream × Nat)
  | 0, _, _ => none
  | fuel + 1, stream, read_idx =>
    if frame_tp_status stream read_idx &&& TP_STATUS_USER ≠ 0 then
      rx_purge_loop fuel { stream with tp_status := __nbuf_rx_done stream.tp_status read_idx }
        ((read_idx + 1) &&& stream.rx_ring_mask)
    else some (stream, read_idx)

/-- Purge receiving stream queue: two cycles of the loop, then the read index is stored. The
`getsockopt` call at the head of each cycle only clears the packet statistics. -/
def netif_stream_rx_purge (stream : netif_stream) (fuel : Nat) : Option netif_stream :=
  match rx_purge_loop fuel stream stream.rx_read_idx with
  | none => none
  | some (s1, i1) =>
    match rx_purge_loop fuel s1 i1 with
    | none => none
    | some (s2, i2) => some { s2 with rx_read_idx := i2 }

/-- The data-source handle `netif_source_t`: the stream and the polling tag (`none` is `NULL`). -/
structure netif_source where
  stream : netif_stream
  tag : Option Nat
  deriving DecidableEq

/-- Prepare handle of the source: ready when the source is registered and a frame waits. -/
def netif_source_prepare (nsrc : netif_source) : Bool :=
  nsrc.tag.isSome && netif_stream_rx_ready nsrc.stream

/-- Check function called after polling returns. -/
def netif_source_check (nsrc : netif_source) : Bool :=
  nsrc.tag.isSome && netif_stream_rx_ready nsrc.stream

/-- Dispatch function: `callback` is the value the read callback returns if it is called. The
result tells whether the callback was called, and the value returned. -/
def netif_source_dispatch (nsrc : netif_source) (callback : Bool) : Bool × Bool :=
  if nsrc.tag.isSome then (true, callback) else (false, true)

/-- The source right after `netif_source_create`: the file handle is not added yet. -/
def netif_source_create (stream : netif_stream) : netif_source :=
  { stream := stream, tag := none }

/-- Suspend network source. -/
def netif_source_suspend (nsrc : netif_source) : netif_source :=
  if nsrc.tag.isSome then { nsrc with tag := none } else nsrc

/-- Resume network source. `fd_tag` is the tag that `g_source_add_unix_fd` returns (not `NULL`);
`none` when the purge runs out of fuel. -/
def netif_source_resume (nsrc : netif_source) (purge : Bool) (fd_tag : Nat) (fuel : Nat) :
    Option netif_source :=
  if nsrc.tag.isSome then some nsrc
  else if purge then
    (netif_stream_rx_purge nsrc.stream fuel).map (fun s => { stream := s, tag := some fd_tag })
  else some { nsrc with tag := some fd_tag }

/-- Check if data source is active. -/
def netif_source_is_active (nsrc : netif_source) : Bool := nsrc.tag.isSome

/-- What `netif_stream_rx_purge` leaves of the stream `s` with `k` frames pending on a ring of
`size` frames: those `k` frames belong to the kernel, the read index has advanced by `k`
modulo the ring size, nothing else has changed, nothing is pending and a read returns none. -/
structure Purged (s s1 : netif_stream) (size k : Nat) : Prop where
  index : s1.rx_read_idx = (s.rx_read_idx + k) % size
  mask : s1.rx_ring_mask = s.rx_ring_mask
  length : s1.tp_status.length = s.tp_status.length
  released : ∀ i < k, frame_tp_status s1 ((s.rx_read_idx + i) % size) = TP_STATUS_KERNEL
  others : ∀ x, (∀ i < k, x ≠ (s.rx_read_idx + i) % size) →
    frame_tp_status s1 x = frame_tp_status s x
  pending : ∀ fuel, 0 < fuel → netif_stream_rx_pending s1 fuel = some 0
  read : netif_stream_read s1 = (s1, none)

/-! ## Stream creation (`netif.c`) -/

/-- Value of `ERANGE` on Linux. -/
def ERANGE : Int := 34

/-- Value of `ENOMEM` on Linux. -/
def ENOMEM : Int := 12

/-- Check if non-zero value is a power-of-two: `(((v) & ((v) - 1)) == 0)`, on a `u16` argument
promoted to `int` (`v - 1` is `-1`, all bits set, when `v` is 0). -/
def avb_is_power_of_two (v : Nat) : Bool :=
  (v &&& ((v + 4294967295) % 4294967296)) == 0

/-- Next power-of-two calculation, on a `u32`: subtract one, smear the highest set bit to the
right, add one. -/
def avb_next_power_of_two (v : Nat) : Nat :=
  let v := (v + 4294967295) % 4294967296
  let v := v ||| (v >>> 1)
  let v := v ||| (v >>> 2)
  let v := v ||| (v >>> 4)
  let v := v ||| (v >>> 8)
  let v := v ||| (v >>> 16)
  (v + 1) % 4294967296

/-- Macro `TPACKET_ALIGN` of `<linux/if_packet.h>`: round up to a multiple of
`TPACKET_ALIGNMENT` = 16. -/
def TPACKET_ALIGN (x : Nat) : Nat := (x + 15) / 16 * 16

/-- Macro `TPACKET2_HDRLEN` of `<linux/if_packet.h>`:
`TPACKET_ALIGN(sizeof(struct tpacket2_hdr)) + sizeof(struct sockaddr_ll)` = 32 + 20. -/
def TPACKET2_HDRLEN : Nat := TPACKET_ALIGN 32 + 20

/-- The frame size that `netif_stream_setup` puts in `req.tp_frame_size`:
`f_size = avb_next_power_of_two(TPACKET_ALIGN(f_size + TPACKET2_HDRLEN))`, stored in the `u16`
parameter `f_size`. -/
def netif_stream_frame_size (f_size : Nat) : Nat :=
  avb_next_power_of_two (TPACKET_ALIGN (f_size + TPACKET2_HDRLEN)) % 65536

/-- A call that `netif_stream_create` makes. -/
inductive CreateOp
  | malloc
  | setup
  | destroy
deriving DecidableEq, Repr

/-- Outcome of `netif_stream_create`: whether a stream is returned, the value stored in `errno`
and the calls made, in order. -/
structure StreamCreate where
  created : Bool
  errno : Int
  ops : List CreateOp
deriving DecidableEq, Repr

/-- Create network stream. `malloc_ok` tells whether the allocation succeeds and `setup_ret` is
the value returned by `netif_stream_setup` (socket options and `mmap`). When the setup fails,
`errno` is set to `-setup_ret` and `netif_stream_destroy` is called before the return: its
`munmap` and `close` store their own error code in `errno` when they fail. `destroy_errno` is
that code, `none` when both succeed and leave `errno` as it is. -/
def netif_stream_create (rx_nr tx_nr : Nat) (malloc_ok : Bool) (setup_ret : Int)
    (destroy_errno : Option Int) : StreamCreate :=
  if !avb_is_power_of_two rx_nr || !avb_is_power_of_two tx_nr then
    { created := false, errno := ERANGE, ops := [] }
  else if !malloc_ok then
    { created := false, errno := ENOMEM, ops := [CreateOp.malloc] }
  else if -setup_ret ≠ 0 then
    { created := false, errno := destroy_errno.getD (-setup_ret)
      ops := [CreateOp.malloc, CreateOp.setup, CreateOp.destroy] }
  else
    { created := true, errno := 0, ops := [CreateOp.malloc, CreateOp.setup] }

/-! ## Decoder session: lock state along a trace -/

/-- The event is a device I/O call: a buffer queued to, or dequeued from, the decoder. -/
def Event.isDeviceCall : Event → Bool
  | Event.queue_input _ => true
  | Event.queue_output _ => true
  | Event.dequeue_output => true
  | Event.dequeue_input => true
  | _ => false

/-- Whether the calling thread holds `dec->lock` after the event; `pthread_cond_wait` gives the
lock up while the thread waits. -/
def held_after (held : Bool) : Event → Bool
  | Event.lock => true
  | Event.unlock => false
  | Event.cond_wait_input _ => false
  | Event.cond_wait_flush => false
  | _ => held

/-- Whether the calling thread holds the lock at the end of the trace. -/
def held_end : Bool → List Event → Bool
  | held, [] => held
  | held, e :: t => held_end (held_after held e) t

/-- Each event of the trace with the lock state at the moment of the event. -/
def lock_states : Bool → List Event → List (Event × Bool)
  | _, [] => []
  | held, e :: t => (e, held) :: lock_states (held_after held e) t

/-- The locking discipline of the code: a device I/O call is made with the lock held, the
`process` callback is invoked with the lock released. -/
def LockDiscipline (p : Event × Bool) : Prop :=
  (p.1.isDeviceCall = true → p.2 = true) ∧ (p.1.isProcess = true → p.2 = false)

/-- The session of `mjpeg_runtime_init` after camera 0 has acquired and filled input buffers 0
and 1: pairs 0 and 1 are queued to the decoder. -/
def two_queued_session : mjpeg_decoder :=
  let s := (__camera_input_get mjpeg_runtime_init 0 true).dec
  let s := (__camera_input_put s 0 0 0 0).dec
  let s := (__camera_input_get s 0 true).dec
  (__camera_input_put s 0 1 0 0).dec

/-- Pair 0 has been decoded and output buffer 0 handed to the consumer, which holds it. -/
def on_loan_session : mjpeg_decoder :=
  (__decoder_process two_queued_session 0 0 0 true 0 0).dec

/-- The element enters `GST_STATE_NULL` while output buffer 0 is on loan. -/
def stopping_session : mjpeg_decoder := (camera_state_changed on_loan_session true).dec

/-! ## Frame assembler: bounds of the write cursor -/

/-- The instructions that `netif_filter_setup` writes into `filter[]` before the loop "adjust
reject index reference": a jump offset of 255 is `(u8)-1`, the mark for "reject". -/
def netif_filter_body (da sa : Option (List Nat)) (proto vlan : Nat) : List sock_filter :=
  let f : List sock_filter := []
  let f := match da with
    | some da => f ++ [⟨0x20, 0, 0, 2⟩, ⟨0x15, 0, 255, netif_get_u32 (da.drop 2)⟩,
                       ⟨0x28, 0, 0, 0⟩, ⟨0x15, 0, 255, netif_get_u16 da⟩]
    | none => f
  let f := match sa with
    | some sa => f ++ [⟨0x20, 0, 0, 8⟩, ⟨0x15, 0, 255, netif_get_u32 (sa.drop 2)⟩,
                       ⟨0x28, 0, 0, 6⟩, ⟨0x15, 0, 255, netif_get_u16 sa⟩]
    | none => f
  let f :=
    if vlan ≠ 0 ∨ proto ≠ 0 then
      let f := f ++ [⟨0x28, 0, 0, 12⟩]
      let f := if proto ≠ 0 then f ++ [⟨0x15, if vlan ≠ 0 then 6 else 3, 0, proto⟩] else f
      let f := f ++ [⟨0x15, 0, 255, 0x8100⟩]
      let f := if vlan ≠ 0 then
          f ++ [⟨0x28, 0, 0, 14⟩, ⟨0x54, 0, 0, 0xFFF⟩, ⟨0x15, 0, 255, vlan⟩]
        else f
      let f := if proto ≠ 0 then f ++ [⟨0x28, 0, 0, 16⟩, ⟨0x15, 0, 255, proto⟩] else f
      f
    else f
  f ++ [⟨0x06, 0, 0, 0xFFFF⟩, ⟨0x06, 0, 0, 0⟩]

/-- The property `P` holds of every element of the list together with its index, counted from
`p`. -/
def forall_idx {α : Type} (P : Nat → α → Prop) : Nat → List α → Prop
  | _, [] => True
  | p, x :: xs => P p x ∧ forall_idx P (p + 1) xs

/-- The jumps of the instruction `ins` at index `p` of a program of `len` instructions: a
conditional jump stays inside the program, and a true-branch offset other than 0 leads to the
accept instruction, the last but one. -/
def JumpsInside (len : Nat) (p : Nat) (ins : sock_filter) : Prop :=
  (ins.code = 0x15 → p + 1 + ins.jt < len ∧ p + 1 + ins.jf < len) ∧
  (ins.jt ≠ 0 → ins.code = 0x15 ∧ p + 1 + ins.jt = len - 2)

/-- The instruction `x.1` of the program before the fix-up and the instruction `x.2` at the
same index `p` after it: a false-branch marked for rejection leads to the reject instruction,
the last one, and no true-branch is marked. -/
def RejectFixed (len : Nat) (p : Nat) (x : sock_filter × sock_filter) : Prop :=
  (x.1.jf = 255 → p + 1 + x.2.jf = len - 1) ∧ x.1.jt ≠ 255 ∧
  (x.1.jf ≠ 255 → x.2.jf = x.1.jf) ∧ x.2.jt = x.1.jt

/-! ## Theorems -/

/-! ### Frame assembler -/

/-- Values of the bit tests on the flags words that occur. -/
theorem flag_bits :
    (0 &&& 1 : Nat) = 0 ∧ (1 &&& 1 : Nat) = 1 ∧ (3 &&& 1 : Nat) = 1 ∧ (17 &&& 1 : Nat) = 1 ∧
    (19 &&& 1 : Nat) = 1 ∧
    (0 &&& 2 : Nat) = 0 ∧ (1 &&& 2 : Nat) = 0 ∧ (3 &&& 2 : Nat) = 2 ∧ (17 &&& 2 : Nat) = 0 ∧
    (19 &&& 2 : Nat) = 2 ∧
    (0 &&& 16 : Nat) = 0 ∧ (1 &&& 16 : Nat) = 0 ∧ (3 &&& 16 : Nat) = 0 ∧
    (17 &&& 16 : Nat) = 16 ∧ (19 &&& 16 : Nat) = 16 := by decide

theorem parse_short (c : camera_data) (g : Option GstBuffer) (ph ts : Nat) (data : List Nat)
    (len : Nat) (h : len ≤ 2) :
    camera_jpeg_parse c g ph ts data len = ⟨c, 0, none, false⟩ := by
  unfold camera_jpeg_parse
  rw [if_pos (by omega)]

theorem parse_collect (c : camera_data) (g : Option GstBuffer) (ph ts : Nat) (data : List Nat)
    (len : Nat) (h : 2 < len) (hf : c.flags = 1) :
    camera_jpeg_parse c g ph ts data len
      = camera_jpeg_copy c 1 c.remaining c.input data len false := by
  unfold camera_jpeg_parse
  rw [if_neg (by omega)]
  simp [hf, CAMERA_FLAG_INIT_DONE, CAMERA_FLAG_SYNC, CAMERA_EVENT_AVBTP_DISC, flag_bits]

theorem parse_sync_nosoi (c : camera_data) (g : Option GstBuffer) (ph ts : Nat) (data : List Nat)
    (len : Nat) (h : 2 < len) (hf : c.flags = 0 ∨ c.flags = 3 ∨ c.flags = 17 ∨ c.flags = 19)
    (hsoi : netif_get_u16 data ≠ 0xFFD8) :
    camera_jpeg_parse c g ph ts data len = camera_jpeg_drop c 3 false := by
  unfold camera_jpeg_parse
  rw [if_neg (by omega)]
  rcases hf with hf | hf | hf | hf <;>
    simp [hf, hsoi, CAMERA_FLAG_INIT_DONE, CAMERA_FLAG_SYNC, CAMERA_EVENT_AVBTP_DISC, flag_bits]

theorem parse_sync_held (c : camera_data) (g : Option GstBuffer) (ph ts : Nat) (data : List Nat)
    (len : Nat) (h : 2 < len) (hf : c.flags = 0 ∨ c.flags = 3 ∨ c.flags = 17 ∨ c.flags = 19)
    (hsoi : netif_get_u16 data = 0xFFD8) (hdr : GstBuffer) (hb : c.buffer = some hdr) :
    camera_jpeg_parse c g ph ts data len = camera_jpeg_copy c 1 c.map.size 0 data len false := by
  unfold camera_jpeg_parse
  rw [if_neg (by omega)]
  rcases hf with hf | hf | hf | hf <;>
    simp [hf, hsoi, hb, CAMERA_FLAG_INIT_DONE, CAMERA_FLAG_SYNC, CAMERA_EVENT_AVBTP_DISC,
      flag_bits]

theorem parse_sync_acq (c : camera_data) (ph ts : Nat) (data : List Nat)
    (len : Nat) (h : 2 < len) (hf : c.flags = 0 ∨ c.flags = 3 ∨ c.flags = 17 ∨ c.flags = 19)
    (hsoi : netif_get_u16 data = 0xFFD8) (hb : c.buffer = none) (b : GstBuffer) :
    camera_jpeg_parse c (some b) ph ts data len =
      camera_jpeg_copy
        { c with map := { data := b.mem, size := b.size }
                 buffer := some { b with dts := ts, pts := ts } }
        1 b.size 0 data len true := by
  unfold camera_jpeg_parse
  rw [if_neg (by omega)]
  rcases hf with hf | hf | hf | hf <;>
    simp [hf, hsoi, hb, CAMERA_FLAG_INIT_DONE, CAMERA_FLAG_SYNC, CAMERA_EVENT_AVBTP_DISC,
      flag_bits]

theorem parse_sync_noacq (c : camera_data) (ph ts : Nat) (data : List Nat)
    (len : Nat) (h : 2 < len) (hf : c.flags = 0 ∨ c.flags = 3 ∨ c.flags = 17 ∨ c.flags = 19)
    (hsoi : netif_get_u16 data = 0xFFD8) (hb : c.buffer = none) :
    camera_jpeg_parse c none ph ts data len = camera_jpeg_drop c 3 true := by
  unfold camera_jpeg_parse
  rw [if_neg (by omega)]
  rcases hf with hf | hf | hf | hf <;>
    simp [hf, hsoi, hb, CAMERA_FLAG_INIT_DONE, CAMERA_FLAG_SYNC, CAMERA_EVENT_AVBTP_DISC,
      flag_bits]

theorem copy_ret_nonneg (c : camera_data) (f r i : Nat) (data : List Nat) (len : Nat)
    (a : Bool) : 0 ≤ (camera_jpeg_copy c f r i data len a).ret := by
  unfold camera_jpeg_copy camera_jpeg_drop camera_jpeg_complete
  dsimp only
  split_ifs <;> simp

theorem parse_ret_nonneg (c : camera_data) (g : Option GstBuffer) (ph ts : Nat) (data : List Nat)
    (len : Nat) : 0 ≤ (camera_jpeg_parse c g ph ts data len).ret := by
  unfold camera_jpeg_parse
  dsimp only
  repeat' split
  all_goals first
    | exact copy_ret_nonneg _ _ _ _ _ _ _
    | simp [camera_jpeg_drop]

theorem u16_append (x y : List Nat) (h : 2 ≤ x.length) :
    netif_get_u16 (x ++ y) = netif_get_u16 x := by
  match x, h with
  | a :: b :: t, _ => simp [netif_get_u16, byteAt]

theorem drop_memcpy (mem pl : List Nat) (inp k : Nat) (hin : inp ≤ mem.length)
    (hk : k ≤ pl.length) :
    (memcpy mem inp pl).drop (inp + pl.length - k)
      = pl.drop (pl.length - k) ++ mem.drop (inp + pl.length) := by
  unfold memcpy
  have h1 : (mem.take inp).length = inp := by simp [hin]
  rw [List.append_assoc, List.drop_append_eq_append_drop, h1,
    List.drop_eq_nil_of_le (by rw [h1]; omega), List.nil_append,
    List.drop_append_eq_append_drop]
  have h2 : inp + pl.length - k - inp = pl.length - k := by omega
  have h3 : pl.length - k - pl.length = 0 := by omega
  rw [h2, h3, List.drop_zero]

theorem take_memcpy (mem pl : List Nat) (inp : Nat) (hin : inp ≤ mem.length) :
    (memcpy mem inp pl).take (inp + pl.length) = mem.take inp ++ pl := by
  unfold memcpy
  have h1 : (mem.take inp ++ pl).length = inp + pl.length := by simp [hin]
  rw [← h1, List.take_left]

theorem payload_length (p : PduIn) (h : p.WellFormed) : p.payload.length = p.datalen := by
  have h1 := h.declared
  have h2 := h.present
  unfold PduIn.payload get_pdu
  simp only [List.length_take, List.length_drop]
  unfold NETIF_HEADER_LENGTH at *
  omega

/-- The end-of-image probes read the payload just copied. -/
theorem probe_memcpy (mem pl : List Nat) (inp k : Nat) (hin : inp ≤ mem.length)
    (hk : k ≤ pl.length) (h2 : 2 ≤ k) :
    netif_get_u16 ((memcpy mem inp pl).drop (inp + pl.length - k))
      = netif_get_u16 (pl.drop (pl.length - k)) := by
  rw [drop_memcpy mem pl inp k hin hk, u16_append]
  simp only [List.length_drop]
  omega

/-- `camera_jpeg_copy` when the payload fits and the end-of-image check fails: the payload is
appended and nothing is pushed. -/
theorem copy_append (c : camera_data) (rem inp : Nat) (data : List Nat) (len : Nat) (a : Bool)
    (hin : inp ≤ c.map.data.length) (hlen : (data.take len).length = len) (h3 : 2 < len)
    (hfit : len ≤ rem) (hno : ¬ eoiCheck (data.take len)) :
    camera_jpeg_copy c 1 rem inp data len a =
      { camera := { c with
          map := { c.map with data := memcpy c.map.data inp (data.take len) }
          remaining := rem - len
          input := inp + len
          flags := 1 }
        ret := 1, pushed := none, acquired := a } := by
  unfold eoiCheck eoiAligned eoiMisaligned at hno
  rw [hlen] at hno
  push_neg at hno
  have p2 := probe_memcpy c.map.data (data.take len) inp 2 hin (by omega) (by omega)
  have p3 := probe_memcpy c.map.data (data.take len) inp 3 hin (by omega) (by omega)
  rw [hlen] at p2 p3
  unfold camera_jpeg_copy
  dsimp only
  rw [if_neg (by omega), if_neg (by rw [p2]; exact hno.1), if_neg (by rw [p3]; exact hno.2)]

/-- `camera_jpeg_copy` when the payload fits and ends with the EOI marker: the buffer is pushed
with the write offset as its size. -/
theorem copy_complete (c : camera_data) (rem inp : Nat) (data : List Nat) (len : Nat) (a : Bool)
    (hin : inp ≤ c.map.data.length) (hlen : (data.take len).length = len) (h3 : 2 < len)
    (hfit : len ≤ rem) (heoi : eoiAligned (data.take len)) :
    camera_jpeg_copy c 1 rem inp data len a =
      camera_jpeg_complete c 1 (memcpy c.map.data inp (data.take len)) (inp + len) a := by
  unfold eoiAligned at heoi
  rw [hlen] at heoi
  have p2 := probe_memcpy c.map.data (data.take len) inp 2 hin (by omega) (by omega)
  rw [hlen] at p2
  unfold camera_jpeg_copy
  dsimp only
  rw [if_neg (by omega), if_pos (by rw [p2]; exact heoi)]

/-- `camera_pdu_rx` on a packet that passes the format checks and carries the expected
sequence number. -/
theorem rx_in_order (c : camera_data) (p : PduIn) (hwf : p.WellFormed)
    (hseq : p.seq = c.sequence_num) :
    camera_rx c p =
      let r := camera_jpeg_parse c p.get_buffer (pdu_get_protocol_header p.pdu) p.tstamp
        (get_pdu p.pdu) p.datalen
      { camera := { r.camera with sequence_num := (p.seq + 1) % 256 }
        ret := 0, pushed := r.pushed, acquired := r.acquired, disc := false } := by
  have h1 := hwf.subtype
  have h2 := hwf.declared
  unfold PduIn.seq at hseq
  unfold PduIn.datalen at h2
  unfold camera_rx camera_pdu_rx
  dsimp only
  rw [if_neg (by rw [h1]; simp), if_neg (by omega)]
  simp only [hseq, ne_eq, not_true_eq_false, decide_False, Bool.false_and, Bool.false_eq_true, ↓reduceIte]
  rw [if_neg (by
    have := parse_ret_nonneg c p.get_buffer (pdu_get_protocol_header p.pdu) p.tstamp
      (get_pdu p.pdu) (pdu_get_stream_data_length p.pdu)
    omega)]
  simp only [PduIn.seq, PduIn.datalen, hseq]

/-- `camera_pdu_rx` on a packet that passes the format checks and does not carry the expected
sequence number, once the receiver is initialised: the discontinuity flag is raised first. -/
theorem rx_gap (c : camera_data) (p : PduIn) (hwf : p.WellFormed)
    (hseq : p.seq ≠ c.sequence_num) (hf : c.flags = 1 ∨ c.flags = 3 ∨ c.flags = 17 ∨ c.flags = 19) :
    camera_rx c p =
      let r := camera_jpeg_parse { c with flags := c.flags ||| 16 } p.get_buffer
        (pdu_get_protocol_header p.pdu) p.tstamp (get_pdu p.pdu) p.datalen
      { camera := { r.camera with sequence_num := (p.seq + 1) % 256 }
        ret := 0, pushed := r.pushed, acquired := r.acquired, disc := true } := by
  have h1 := hwf.subtype
  have h2 := hwf.declared
  unfold PduIn.seq at hseq
  unfold PduIn.datalen at h2
  have hi : c.flags &&& CAMERA_FLAG_INIT_DONE ≠ 0 := by
    rcases hf with hf | hf | hf | hf <;> simp [hf, CAMERA_FLAG_INIT_DONE, flag_bits]
  have hm : (c.flags ||| CAMERA_EVENT_AVBTP_DISC) % 256 = c.flags ||| 16 := by
    rcases hf with hf | hf | hf | hf <;> simp [hf, CAMERA_EVENT_AVBTP_DISC]
  unfold camera_rx camera_pdu_rx
  dsimp only
  rw [if_neg (by rw [h1]; simp), if_neg (by omega)]
  simp only [hseq, hi, hm, ne_eq, not_false_eq_true, decide_True, Bool.and_self, ↓reduceIte]
  rw [if_neg (by
    have := parse_ret_nonneg { c with flags := c.flags ||| 16 } p.get_buffer
      (pdu_get_protocol_header p.pdu) p.tstamp (get_pdu p.pdu) (pdu_get_stream_data_length p.pdu)
    omega)]
  simp only [PduIn.seq, PduIn.datalen]

theorem copy_inv (c : camera_data) (rem inp : Nat) (data : List Nat) (len : Nat) (a : Bool)
    (hb : c.buffer ≠ none) (hs : ∀ hdr, c.buffer = some hdr → c.map.size = hdr.size) :
    CameraInv (camera_jpeg_copy c 1 rem inp data len a).camera := by
  unfold camera_jpeg_copy camera_jpeg_drop camera_jpeg_complete CameraInv
  dsimp only
  split_ifs <;> simp [CAMERA_FLAG_SYNC, hb] <;> exact hs

theorem drop_inv (c : camera_data) (a : Bool)
    (hs : ∀ hdr, c.buffer = some hdr → c.map.size = hdr.size) :
    CameraInv (camera_jpeg_drop c 3 a).camera := by
  unfold camera_jpeg_drop CameraInv
  simp
  exact hs

theorem parse_inv (c : camera_data) (g : Option GstBuffer) (ph ts : Nat) (data : List Nat)
    (len : Nat) (h : CameraInv c) : CameraInv (camera_jpeg_parse c g ph ts data len).camera := by
  obtain ⟨hf, hb, hs⟩ := h
  by_cases hlen : len ≤ 2
  · rw [parse_short c g ph ts data len hlen]; exact ⟨hf, hb, hs⟩
  have hlen : 2 < len := by omega
  by_cases h1 : c.flags = 1
  · rw [parse_collect c g ph ts data len hlen h1]
    exact copy_inv c _ _ _ _ _ (hb (Or.inl h1)) hs
  have hf : c.flags = 0 ∨ c.flags = 3 ∨ c.flags = 17 ∨ c.flags = 19 := by tauto
  by_cases hsoi : netif_get_u16 data = 0xFFD8
  · cases hbuf : c.buffer with
    | some hdr =>
      rw [parse_sync_held c g ph ts data len hlen hf hsoi hdr hbuf]
      exact copy_inv c _ _ _ _ _ (by simp [hbuf]) hs
    | none =>
      cases g with
      | none =>
        rw [parse_sync_noacq c ph ts data len hlen hf hsoi hbuf]
        exact drop_inv c _ hs
      | some b =>
        rw [parse_sync_acq c ph ts data len hlen hf hsoi hbuf b]
        apply copy_inv
        · simp
        · intro hdr hh
          simp at hh
          simp [← hh]
  · rw [parse_sync_nosoi c g ph ts data len hlen hf hsoi]
    exact drop_inv c _ hs

theorem mark_inv (c : camera_data) (h : CameraInv c)
    (hi : c.flags &&& CAMERA_FLAG_INIT_DONE ≠ 0) :
    CameraInv { c with flags := (c.flags ||| CAMERA_EVENT_AVBTP_DISC) % 256 } := by
  obtain ⟨hf, hb, hs⟩ := h
  refine ⟨?_, ?_, hs⟩
  · rcases hf with hf | hf | hf | hf | hf <;>
      simp [hf, CAMERA_EVENT_AVBTP_DISC, CAMERA_FLAG_INIT_DONE, flag_bits] at hi ⊢
  · intro h
    apply hb
    rcases hf with hf | hf | hf | hf | hf <;> simp [hf, CAMERA_EVENT_AVBTP_DISC] at h <;>
      simp [hf]

theorem rx_inv (c : camera_data) (p : PduIn) (h : CameraInv c) :
    CameraInv (camera_rx c p).camera := by
  unfold camera_rx camera_pdu_rx
  dsimp only
  by_cases h1 : pdu_get_subtype p.pdu ≠ 2
  · rw [if_pos h1]; exact h
  rw [if_neg h1]
  by_cases h2 : ¬ (p.length ≥ pdu_get_stream_data_length p.pdu + NETIF_HEADER_LENGTH)
  · rw [if_pos h2]; exact h
  rw [if_neg h2]
  by_cases h3 : (decide (pdu_get_sequence_number p.pdu ≠ c.sequence_num) &&
        decide (c.flags &&& CAMERA_FLAG_INIT_DONE ≠ 0)) = true
  · rw [if_pos h3]
    have hi : c.flags &&& CAMERA_FLAG_INIT_DONE ≠ 0 := by
      simp only [Bool.and_eq_true, decide_eq_true_eq] at h3
      exact h3.2
    have := parse_inv _ p.get_buffer (pdu_get_protocol_header p.pdu) p.tstamp
      (get_pdu p.pdu) (pdu_get_stream_data_length p.pdu) (mark_inv c h hi)
    split_ifs <;> exact this
  · rw [if_neg h3]
    have := parse_inv _ p.get_buffer (pdu_get_protocol_header p.pdu) p.tstamp
      (get_pdu p.pdu) (pdu_get_stream_data_length p.pdu) h
    split_ifs <;> exact this

theorem reachable_inv (c : camera_data) (h : CameraReachable c) : CameraInv c := by
  induction h with
  | created c hf hb => exact ⟨Or.inl hf, fun _ => by simp [hf] at *, by simp [hb]⟩
  | rx c p _ ih => exact rx_inv c p ih

theorem u16_cons (a b : Nat) (t : List Nat) :
    netif_get_u16 (a :: b :: t) = ((a <<< 8) ||| b) % 65536 := by
  simp [netif_get_u16, byteAt]

theorem soi_of_payload (data : List Nat) (n : Nat) (h : startsWithSOI (data.take n)) :
    netif_get_u16 data = 0xFFD8 := by
  unfold startsWithSOI at h
  rw [List.take_take] at h
  match data, h with
  | a :: b :: t, h =>
    have hl := congrArg List.length h
    simp only [List.length_take, List.length_cons, List.length_nil] at hl
    have h2 : min 2 n = 2 := by omega
    rw [h2] at h
    simp only [List.take_succ_cons, List.take_zero, List.cons.injEq, and_true] at h
    rw [u16_cons, h.1, h.2]
    decide
  | [_], h =>
    have hl := congrArg List.length h
    simp only [List.length_take, List.length_cons, List.length_nil] at hl
    omega
  | [], h =>
    have hl := congrArg List.length h
    simp at hl
theorem eoi_of_payload (pl : List Nat) (h : endsWithEOI pl) : eoiAligned pl := by
  unfold endsWithEOI at h
  unfold eoiAligned
  rw [h]
  decide

theorem copy_step_append (c : camera_data) (hdr : GstBuffer) (cap rem : Nat) (w data : List Nat)
    (len : Nat) (a : Bool)
    (hb : c.buffer = some hdr) (hw : c.map.data.take w.length = w)
    (hin : w.length ≤ c.map.data.length) (hrem : rem + w.length = cap)
    (hlen : (data.take len).length = len) (h3 : 2 < len)
    (hfit : len ≤ rem) (hno : ¬ eoiCheck (data.take len)) :
    (camera_jpeg_copy c 1 rem w.length data len a).pushed = none ∧
    (camera_jpeg_copy c 1 rem w.length data len a).acquired = a ∧
    Collecting (camera_jpeg_copy c 1 rem w.length data len a).camera hdr cap
      (w ++ data.take len) := by
  rw [copy_append c rem w.length data len a hin hlen h3 hfit hno]
  refine ⟨rfl, rfl, ⟨rfl, hb, ?_, ?_, ?_, ?_⟩⟩
  · simp [hlen]
  · have := take_memcpy c.map.data (data.take len) w.length hin
    rw [hw] at this
    simpa [hlen] using this
  · simp only [memcpy, List.length_append, List.length_take, List.length_drop] at *
    omega
  · simp only [List.length_append, hlen]
    omega

theorem copy_step_complete (c : camera_data) (hdr : GstBuffer) (rem : Nat) (w data : List Nat)
    (len : Nat) (a : Bool)
    (hb : c.buffer = some hdr) (hw : c.map.data.take w.length = w)
    (hin : w.length ≤ c.map.data.length)
    (hlen : (data.take len).length = len) (h3 : 2 < len)
    (hfit : len ≤ rem) (heoi : eoiAligned (data.take len)) :
    ∃ f, (camera_jpeg_copy c 1 rem w.length data len a).pushed = some f ∧
      f.bytes = w ++ data.take len ∧ f.dts = hdr.dts ∧ f.pts = hdr.pts ∧
      (camera_jpeg_copy c 1 rem w.length data len a).camera.buffer = none ∧
      (camera_jpeg_copy c 1 rem w.length data len a).camera.flags = 3 := by
  rw [copy_complete c rem w.length data len a hin hlen h3 hfit heoi]
  refine ⟨{ hdr with mem := memcpy c.map.data w.length (data.take len), size := w.length + len },
    by simp [camera_jpeg_complete, hb], ?_, rfl, rfl, rfl, rfl⟩
  have := take_memcpy c.map.data (data.take len) w.length hin
  rw [hw, hlen] at this
  simpa [GstBuffer.bytes] using this

/-- `camera_pdu_rx` on a packet that passes the format checks, before the receiver is
initialised: the sequence number is not compared. -/
theorem rx_uninit (c : camera_data) (p : PduIn) (hwf : p.WellFormed) (hf : c.flags = 0) :
    camera_rx c p =
      let r := camera_jpeg_parse c p.get_buffer (pdu_get_protocol_header p.pdu) p.tstamp
        (get_pdu p.pdu) p.datalen
      { camera := { r.camera with sequence_num := (p.seq + 1) % 256 }
        ret := 0, pushed := r.pushed, acquired := r.acquired, disc := false } := by
  have h1 := hwf.subtype
  have h2 := hwf.declared
  unfold PduIn.datalen at h2
  unfold camera_rx camera_pdu_rx
  dsimp only
  rw [if_neg (by rw [h1]; simp), if_neg (by omega)]
  simp only [hf, CAMERA_FLAG_INIT_DONE, flag_bits, ne_eq, not_true_eq_false, decide_False,
    Bool.and_false, Bool.false_eq_true, ↓reduceIte]
  rw [if_neg (by
    have := parse_ret_nonneg c p.get_buffer (pdu_get_protocol_header p.pdu) p.tstamp
      (get_pdu p.pdu) (pdu_get_stream_data_length p.pdu)
    omega)]
  simp only [PduIn.seq, PduIn.datalen]

/-- A packet with a start of image, received while no buffer is held and acquisition succeeds:
the call is the copy phase into the new buffer, from offset 0 with its full size remaining. -/
theorem rx_start (c : camera_data) (p : PduIn) (b : GstBuffer) (hinv : CameraInv c)
    (hb : c.buffer = none) (hwf : p.WellFormed) (hsoi : startsWithSOI p.payload)
    (h3 : 2 < p.datalen) (hg : p.get_buffer = some b) :
    ∃ c' : camera_data, c'.buffer = some { b with dts := p.tstamp, pts := p.tstamp } ∧
      c'.map = { data := b.mem, size := b.size } ∧
      (camera_rx c p).camera =
        { (camera_jpeg_copy c' 1 b.size 0 (get_pdu p.pdu) p.datalen true).camera with
          sequence_num := (p.seq + 1) % 256 } ∧
      (camera_rx c p).pushed =
        (camera_jpeg_copy c' 1 b.size 0 (get_pdu p.pdu) p.datalen true).pushed := by
  obtain ⟨hf, hbuf, _⟩ := hinv
  have hf : c.flags = 0 ∨ c.flags = 3 ∨ c.flags = 19 := by
    rcases hf with hf | hf | hf | hf | hf
    · exact Or.inl hf
    · exact absurd hb (hbuf (Or.inl hf))
    · exact Or.inr (Or.inl hf)
    · exact absurd hb (hbuf (Or.inr hf))
    · exact Or.inr (Or.inr hf)
  have hs := soi_of_payload _ _ hsoi
  by_cases hseq : p.seq = c.sequence_num ∨ c.flags = 0
  · have hrx := rx_in_order c p hwf
    have hrx' := rx_uninit c p hwf
    have hrx : camera_rx c p = _ := hseq.elim hrx hrx'
    rw [hrx, hg]
    dsimp only
    rw [parse_sync_acq c _ p.tstamp _ _ h3 (by tauto) hs hb b]
    exact ⟨_, rfl, rfl, rfl, rfl⟩
  · push_neg at hseq
    rw [rx_gap c p hwf hseq.1 (by tauto), hg]
    dsimp only
    have hf' : (c.flags ||| 16) = 19 := by
      rcases hf with hf | hf | hf <;> simp [hf] at hseq ⊢
    rw [parse_sync_acq _ _ p.tstamp _ _ h3 (by simp [hf']) hs (by simpa using hb) b]
    exact ⟨_, rfl, rfl, rfl, rfl⟩

theorem camera_feed_cons (c : camera_data) (p : PduIn) (ps : List PduIn) :
    camera_feed c (p :: ps) =
      ((camera_feed (camera_rx c p).camera ps).1,
        camera_rx c p :: (camera_feed (camera_rx c p).camera ps).2) := rfl

theorem rx_step_append (c : camera_data) (p : PduIn) (hdr : GstBuffer) (cap : Nat)
    (w : List Nat) (hc : Collecting c hdr cap w) (hwf : p.WellFormed)
    (hseq : p.seq = c.sequence_num) (h3 : 2 < p.payload.length)
    (hfit : w.length + p.payload.length ≤ cap) (hno : ¬ eoiCheck p.payload) :
    (camera_rx c p).pushed = none ∧ (camera_rx c p).disc = false ∧
    (camera_rx c p).camera.sequence_num = (p.seq + 1) % 256 ∧
    Collecting (camera_rx c p).camera hdr cap (w ++ p.payload) := by
  have hl := payload_length p hwf
  rw [hl] at h3 hfit
  have hr := hc.remaining
  rw [rx_in_order c p hwf hseq]
  dsimp only
  rw [parse_collect c _ _ _ _ _ h3 hc.flags, hc.input]
  obtain ⟨h1, _, h2⟩ := copy_step_append c hdr cap c.remaining w (get_pdu p.pdu) p.datalen false
    hc.buffer hc.written hc.inside hr hl h3 (by omega) hno
  exact ⟨h1, rfl, rfl, ⟨h2.flags, h2.buffer, h2.input, h2.written, h2.inside, h2.remaining⟩⟩

theorem rx_step_complete (c : camera_data) (p : PduIn) (hdr : GstBuffer) (cap : Nat)
    (w : List Nat) (hc : Collecting c hdr cap w) (hwf : p.WellFormed)
    (hseq : p.seq = c.sequence_num) (h3 : 2 < p.payload.length)
    (hfit : w.length + p.payload.length ≤ cap) (heoi : endsWithEOI p.payload) :
    ∃ f, (camera_rx c p).pushed = some f ∧ f.bytes = w ++ p.payload ∧ f.dts = hdr.dts ∧
      f.pts = hdr.pts := by
  have hl := payload_length p hwf
  rw [hl] at h3 hfit
  have hr := hc.remaining
  rw [rx_in_order c p hwf hseq]
  dsimp only
  rw [parse_collect c _ _ _ _ _ h3 hc.flags, hc.input]
  obtain ⟨f, h1, h2, h4, h5, _⟩ := copy_step_complete c hdr c.remaining w (get_pdu p.pdu)
    p.datalen false hc.buffer hc.written hc.inside hl h3 (by omega) (eoi_of_payload _ heoi)
  exact ⟨f, h1, h2, h4, h5⟩

/-- From a collecting receiver, in-order packets that fit and end with the only end of image
are appended one after the other, and the last one pushes the frame. -/
theorem feed_collect (hdr : GstBuffer) (cap : Nat) :
    ∀ (ps : List PduIn) (c : camera_data) (w : List Nat), ps ≠ [] →
      Collecting c hdr cap w →
      (∀ p ∈ ps, p.WellFormed) → (∀ p ∈ ps, 2 < p.payload.length) →
      (∀ p ∈ ps.head?, p.seq = c.sequence_num) → seqInOrder ps →
      (∀ p ∈ ps.getLast?, endsWithEOI p.payload) →
      (∀ p ∈ ps.dropLast, ¬ eoiCheck p.payload) →
      w.length + (ps.map PduIn.payload).flatten.length ≤ cap →
      ∃ f : GstBuffer,
        (camera_feed c ps).2.map (fun r => r.pushed)
          = List.replicate (ps.length - 1) none ++ [some f]
        ∧ f.bytes = w ++ (ps.map PduIn.payload).flatten ∧ f.dts = hdr.dts ∧ f.pts = hdr.pts := by
  intro ps
  induction ps with
  | nil => intro c w h; exact absurd rfl h
  | cons p rest ih =>
    intro c w _ hc hwf hlong hhead hord hlast hno hfit
    have hseq : p.seq = c.sequence_num := hhead p (by simp)
    have hwfp := hwf p (by simp)
    have hlp := hlong p (by simp)
    simp only [List.map_cons, List.flatten_cons, List.length_append] at hfit
    cases rest with
    | nil =>
      obtain ⟨f, h1, h2, h3, h4⟩ := rx_step_complete c p hdr cap w hc hwfp hseq hlp
        (by simpa using hfit) (hlast p (by simp))
      exact ⟨f, by simp [camera_feed, h1], by simpa using h2, h3, h4⟩
    | cons q rest' =>
      obtain ⟨h1, _, h2, h3⟩ := rx_step_append c p hdr cap w hc hwfp hseq hlp (by omega)
        (hno p (by simp))
      obtain ⟨f, g1, g2, g3, g4⟩ := ih (camera_rx c p).camera (w ++ p.payload) (by simp) h3
        (fun x hx => hwf x (by simp [hx])) (fun x hx => hlong x (by simp [hx]))
        (by intro x hx; simp at hx; subst hx; rw [h2]; exact hord.1) hord.2
        (by intro x hx; apply hlast; simpa using hx)
        (by intro x hx; apply hno; simp at hx ⊢; exact Or.inr hx)
        (by simp only [List.length_append]; omega)
      refine ⟨f, ?_, by simpa using g2, g3, g4⟩
      rw [camera_feed_cons]
      simp only [List.map_cons, h1, g1, List.length_cons, Nat.add_sub_cancel]
      rfl

/-- C1 (amended): from a reachable receiver that holds no buffer, an in-order sequence of packets
delimited by SOI and EOI, each payload longer than 2 bytes, pushes exactly one frame, on the last
packet, and its bytes are the concatenation of the payloads. -/
theorem camera_frame_reassembled (c : camera_data) (ps : List PduIn) (b : GstBuffer)
    (hreach : CameraReachable c) (hbuf : c.buffer = none) (hs : FrameSequence ps b)
    (hlong : ∀ p ∈ ps, 2 < p.payload.length) : ReassembledOnce c ps := by
  obtain ⟨hne, hwf, hord, hsoi, heoi, hno, hacq, _, hfit⟩ := hs
  cases ps with
  | nil => exact absurd rfl hne
  | cons p rest =>
    have hwfp := hwf p (by simp)
    have hl := payload_length p hwfp
    have h3 : 2 < p.datalen := by rw [← hl]; exact hlong p (by simp)
    obtain ⟨c', hb', hm', hcam, hpush⟩ := rx_start c p b (reachable_inv c hreach) hbuf hwfp
      (hsoi p (by simp)) h3 (hacq p (by simp))
    have hdata : c'.map.data.take ([] : List Nat).length = [] := by simp
    simp only [List.map_cons, List.flatten_cons, List.length_append] at hfit
    cases rest with
    | nil =>
      obtain ⟨f, h1, h2, _⟩ := copy_step_complete c' _ b.size [] (get_pdu p.pdu) p.datalen true
        hb' hdata (by simp) hl h3 (by rw [hl] at hfit; simpa using hfit)
        (eoi_of_payload _ (heoi p (by simp)))
      refine ⟨f, ?_, by simpa [PduIn.payload] using h2⟩
      rw [camera_feed_cons]
      simp only [camera_feed, List.map_cons, List.map_nil, hpush]
      simpa using h1
    | cons q rest' =>
      obtain ⟨h1, _, h2⟩ := copy_step_append c' _ b.size b.size [] (get_pdu p.pdu) p.datalen true
        hb' hdata (by simp) (by simp) hl h3 (by rw [hl] at hfit; omega) (hno p (by simp))
      have hcol : Collecting (camera_rx c p).camera
          { b with dts := p.tstamp, pts := p.tstamp } b.size p.payload := by
        rw [hcam]
        have h2' : Collecting (camera_jpeg_copy c' 1 b.size 0 (get_pdu p.pdu) p.datalen true).camera
            { b with dts := p.tstamp, pts := p.tstamp } b.size p.payload := by
          simpa [PduIn.payload] using h2
        exact ⟨h2'.flags, h2'.buffer, h2'.input, h2'.written, h2'.inside, h2'.remaining⟩
      obtain ⟨f, g1, g2, _⟩ := feed_collect _ b.size (q :: rest') (camera_rx c p).camera
        p.payload (by simp) hcol (fun x hx => hwf x (by simp [hx]))
        (fun x hx => hlong x (by simp [hx]))
        (by intro x hx; simp at hx; subst hx; rw [hcam]; exact hord.1) hord.2
        (by intro x hx; apply heoi; simpa using hx)
        (by intro x hx; apply hno; simp at hx ⊢; exact Or.inr hx)
        (by omega)
      refine ⟨f, ?_, by simpa using g2⟩
      rw [camera_feed_cons]
      simp only [List.map_cons, hpush, g1, List.length_cons, Nat.add_sub_cancel]
      simp only [List.length_nil, Nat.zero_add] at h1
      rw [h1]
      rfl

theorem mkPduIn_wellFormed (seq : Nat) (pl : List Nat) (ts : Nat) (g : Option GstBuffer)
    (h : pl.length < 65536) (hb : ∀ x ∈ pl, x < 256) : (mkPduIn seq pl ts g).WellFormed := by
  have hd : (mkPduIn seq pl ts g).datalen = pl.length := by
    simp only [PduIn.datalen, mkPduIn, mkPdu, pdu_get_stream_data_length]
    rw [show ∀ (l : List Nat) (a b : Nat), List.drop 20 ([2, 0, seq % 256, 0, 0, 0, 0, 0, 0, 0, 0, 0, 0, 0, 0, 0, 0, 0, 0, 0, a, b, 0, 0] ++ l) = a :: b :: 0 :: 0 :: l from fun _ _ _ => rfl, u16_cons]
    rw [Nat.shiftLeft_eq, Nat.mul_comm, ← Nat.mul_add_lt_is_or (Nat.mod_lt _ (by norm_num))]
    omega
  refine ⟨by show (2 &&& 0x7F : Nat) = 2; decide, ?_, ?_, ?_⟩
  · rw [hd]; simp [mkPduIn, NETIF_HEADER_LENGTH]; omega
  · simp [mkPduIn, mkPdu, NETIF_HEADER_LENGTH]; omega
  · intro x hx
    simp only [mkPduIn, mkPdu, List.mem_append, List.mem_cons, List.mem_singleton,
      List.not_mem_nil, or_false] at hx
    rcases hx with hx | hx
    · rcases hx with h | h | h | h | h | h | h | h | h | h | h | h | h | h | h | h | h | h | h
        | h | h | h | h | h <;> omega
    · exact hb x hx

theorem c1_frame_sequence : FrameSequence c1_frame buf16 := by
  refine ⟨by decide, ?_, by decide, by decide, by decide, by decide, by decide, by decide, by decide⟩
  intro p hp
  simp only [c1_frame, List.mem_cons, List.mem_singleton, List.not_mem_nil, or_false] at hp
  rcases hp with rfl | rfl | rfl <;> exact mkPduIn_wellFormed _ _ _ _ (by decide) (by decide)

theorem camera_frame_reassembled_witness : ReassembledOnce camera_init c1_frame :=
  camera_frame_reassembled camera_init c1_frame buf16 (CameraReachable.created _ rfl rfl) rfl
    c1_frame_sequence (by decide)

/-- C1 as stated fails: in an in-order sequence delimited by SOI and EOI whose middle payload is
two bytes long, the frame pushed on the last packet lacks the bytes of that payload. -/
theorem camera_short_payload_not_reassembled :
    CameraReachable camera_init ∧ camera_init.buffer = none ∧ FrameSequence c1_short buf16 ∧
    ¬ ReassembledOnce camera_init c1_short := by
  refine ⟨CameraReachable.created _ rfl rfl, rfl, ?_, ?_⟩
  · refine ⟨by decide, ?_, by decide, by decide, by decide, by decide, by decide, by decide,
      by decide⟩
    intro p hp
    simp only [c1_short, List.mem_cons, List.mem_singleton, List.not_mem_nil, or_false] at hp
    rcases hp with rfl | rfl | rfl <;> exact mkPduIn_wellFormed _ _ _ _ (by decide) (by decide)
  · rintro ⟨f, h1, h2⟩
    have hp : (camera_feed camera_init c1_short).2.map (fun r => r.pushed) =
        [none, none, some { mem := [0xFF, 0xD8, 1, 2, 0xFF, 0xD9, 0, 0, 0, 0, 0, 0, 0, 0, 0, 0],
                            size := 6, dts := 100, pts := 100 }] := by decide
    rw [hp] at h1
    simp [c1_short] at h1
    subst h1
    revert h2
    decide

/-- C2 at the failing input: the frame carried by the packet received at time 300 is pushed
with DTS and PTS 100, the reception time of the start of the frame abandoned before it. -/
theorem camera_reused_buffer_keeps_old_timestamp :
    (camera_feed camera_init c2_history).2.map (fun r => (r.disc, r.acquired, r.pushed)) =
      [(false, true, none), (true, false, none),
       (false, false, some { mem := [0xFF, 0xD8, 0xFF, 0xD9, 0, 0, 0, 0, 0, 0, 0, 0, 0, 0, 0, 0],
                             size := 4, dts := 100, pts := 100 })] := by
  decide

theorem parse_resync_start (c : camera_data) (hdr : GstBuffer) (p : PduIn) (hc : Resync c hdr)
    (hwf : p.WellFormed) (hs : startsFrame p) (g : Option GstBuffer) (ph ts : Nat) :
    camera_jpeg_parse c g ph ts (get_pdu p.pdu) p.datalen
      = camera_jpeg_copy c 1 hdr.size 0 (get_pdu p.pdu) p.datalen false := by
  have h3 : 2 < p.datalen := by rw [← payload_length p hwf]; exact hs.1
  have hf : c.flags = 0 ∨ c.flags = 3 ∨ c.flags = 17 ∨ c.flags = 19 := by
    rcases hc.flags with h | h
    · exact Or.inr (Or.inl h)
    · exact Or.inr (Or.inr (Or.inl h))
  rw [parse_sync_held c g ph ts _ _ h3 hf (soi_of_payload _ _ hs.2) hdr hc.buffer, hc.size]

/-- The copy phase entered at offset 0 with the full size of the held buffer. -/
theorem copy_restart (c : camera_data) (hdr : GstBuffer) (data : List Nat) (len : Nat)
    (a : Bool) (hb : c.buffer = some hdr) (hlen : (data.take len).length = len)
    (h3 : 2 < len) :
    (len ≤ hdr.size → ¬ eoiCheck (data.take len) →
      Collecting (camera_jpeg_copy c 1 hdr.size 0 data len a).camera hdr hdr.size
        (data.take len)) ∧
    (∀ f, (camera_jpeg_copy c 1 hdr.size 0 data len a).pushed = some f →
      f.bytes <+: data.take len) := by
  have hmem : ∀ n, n ≤ len →
      (memcpy c.map.data 0 (data.take len)).take n = (data.take len).take n := by
    intro n hn
    simp only [memcpy, List.take_zero, List.nil_append, Nat.zero_add]
    rw [List.take_append_of_le_length (by omega)]
  constructor
  · intro hfit hno
    have := (copy_step_append c hdr hdr.size hdr.size [] data len a hb (by simp) (by simp)
      (by simp) hlen h3 hfit hno).2.2
    simpa using this
  · intro f hf
    unfold camera_jpeg_copy camera_jpeg_drop camera_jpeg_complete at hf
    dsimp only at hf
    split_ifs at hf <;> simp only [hb, Option.map_some', Option.some.injEq] at hf <;>
      subst hf <;> simp only [GstBuffer.bytes, Nat.zero_add]
    · rw [hmem len (le_refl _)]
      exact List.take_prefix _ _
    · rw [hmem (len - 1) (by omega)]
      exact List.take_prefix _ _

theorem seqInOrder_cons (p : PduIn) (l : List PduIn) (h : seqInOrder (p :: l)) :
    (∀ x ∈ l.head?, x.seq = (p.seq + 1) % 256) ∧ seqInOrder l := by
  cases l with
  | nil => exact ⟨by simp, trivial⟩
  | cons q rest => exact ⟨by intro x hx; simp at hx; subst hx; exact h.1, h.2⟩

theorem set_map_length (pool : List jpu_buffer) (j v : Nat) :
    (set_map pool j v).length = pool.length := by simp [set_map]

theorem set_priv_length (pool : List jpu_buffer) (j : Nat) (v : Option Nat) :
    (set_priv pool j v).length = pool.length := by simp [set_priv]

theorem buffer_ref_length (pool : List jpu_buffer) (j : Nat) :
    (buffer_ref pool j).length = pool.length := by simp [buffer_ref, set_priv]

theorem set_map_getD (pool : List jpu_buffer) (j v : Nat) (h : j < pool.length) :
    ((set_map pool j v).getD j default).map = v := by
  simp [set_map, List.getD_eq_getElem?_getD, List.getElem?_set, h]

theorem set_priv_getD_map (pool : List jpu_buffer) (j : Nat) (v : Option Nat) (k : Nat) :
    ((set_priv pool j v).getD k default).map = (pool.getD k default).map := by
  simp only [set_priv, List.getD_eq_getElem?_getD, List.getElem?_set]
  by_cases h : j = k
  · subst h
    by_cases hl : j < pool.length
    · simp [hl]
    · simp [hl, List.getElem?_eq_none (Nat.le_of_not_lt hl)]
  · simp [h]

theorem buffer_ref_getD_map (pool : List jpu_buffer) (j k : Nat) :
    ((buffer_ref pool j).getD k default).map = (pool.getD k default).map := by
  unfold buffer_ref
  exact set_priv_getD_map _ _ _ _

theorem submit_trace (dec : mjpeg_decoder) (j : Nat) (qin qout : Int) :
    submissions j (__submit_buffers dec j qin qout).trace = 1 := by
  unfold __submit_buffers submissions
  split_ifs <;> simp [List.count_cons]

theorem submit_pools (dec : mjpeg_decoder) (j : Nat) (qin qout : Int) :
    (__submit_buffers dec j qin qout).dec.input_pool = dec.input_pool ∧
    (__submit_buffers dec j qin qout).dec.output_pool = dec.output_pool ∧
    (__submit_buffers dec j qin qout).dec.active = dec.active ∧
    (__submit_buffers dec j qin qout).dec.input = dec.input ∧
    (__submit_buffers dec j qin qout).dec.output_busy = dec.output_busy := by
  unfold __submit_buffers
  split_ifs <;> simp

/-- `__camera_input_put` on a valid buffer of entry `j`: the entry is marked filled, the output
pool and the activity flag are untouched, and the pair is submitted if and only if the output
entry is free. -/
theorem input_put_valid (dec : mjpeg_decoder) (i j : Nat) (qin qout : Int)
    (hj : j < MJPEG_INPUT_BUFFERS_NUM)
    (hpriv : (dec.input_pool.getD j default).priv ≠ none) :
    (__camera_input_put dec i j qin qout).dec.input_pool
      = set_map (buffer_ref dec.input_pool j) j 1 ∧
    (__camera_input_put dec i j qin qout).dec.output_pool = dec.output_pool ∧
    (__camera_input_put dec i j qin qout).dec.active = dec.active ∧
    submissions j (__camera_input_put dec i j qin qout).trace
      = if (dec.output_pool.getD j default).map = 0 then 1 else 0 := by
  have hj' : ¬ ¬ ((j : Int) ≥ 0 ∧ (j : Int) < MJPEG_INPUT_BUFFERS_NUM) := by
    simp only [not_not]; exact ⟨by omega, by exact_mod_cast hj⟩
  unfold __camera_input_put
  rw [if_neg hj', if_neg (by simpa using hpriv)]
  simp only [mutex_lock, mutex_unlock, Int.toNat_ofNat]
  by_cases hfree : (dec.output_pool.getD j default).map = 0
  · simp only [hfree, if_true]
    have h := submit_pools
      { input_pool := set_map (buffer_ref dec.input_pool j) j 1, output_pool := dec.output_pool,
        input := dec.input, output_count := dec.output_count, output_busy := dec.output_busy,
        active := dec.active, locked := true } j qin qout
    have ht := submit_trace
      { input_pool := set_map (buffer_ref dec.input_pool j) j 1, output_pool := dec.output_pool,
        input := dec.input, output_count := dec.output_count, output_busy := dec.output_busy,
        active := dec.active, locked := true } j qin qout
    refine ⟨h.1, h.2.1, h.2.2.1, ?_⟩
    simp only [submissions, List.count_append, List.count_cons, List.count_nil] at ht ⊢
    simp [ht]
  · simp only [hfree, if_false]
    simp [submissions, List.count_cons]

/-- `__jpu_output_buffer_dispose` on entry `k` of an active session: the output entry is marked
free, the input pool and the activity flag are untouched, and the pair is submitted if and only
if the input entry is filled. -/
theorem output_dispose_active (dec : mjpeg_decoder) (k : Nat) (qin qout : Int)
    (hk : k < MJPEG_OUTPUT_BUFFERS_NUM) (hact : dec.active = true) :
    (__jpu_output_buffer_dispose dec k qin qout).dec.input_pool = dec.input_pool ∧
    (__jpu_output_buffer_dispose dec k qin qout).dec.output_pool
      = buffer_ref (set_map dec.output_pool k 0) k ∧
    (__jpu_output_buffer_dispose dec k qin qout).dec.active = true ∧
    submissions k (__jpu_output_buffer_dispose dec k qin qout).trace
      = if (dec.input_pool.getD k default).map ≠ 0 then 1 else 0 := by
  unfold __jpu_output_buffer_dispose
  rw [if_neg (by omega)]
  simp only [mutex_lock, mutex_unlock, hact, if_true]
  by_cases hfill : (dec.input_pool.getD k default).map ≠ 0
  · simp only [if_pos hfill]
    have h := submit_pools
      { input_pool := dec.input_pool, output_pool := buffer_ref (set_map dec.output_pool k 0) k,
        input := dec.input, output_count := dec.output_count,
        output_busy := dec.output_busy - 1, active := true, locked := true } k qin qout
    have ht := submit_trace
      { input_pool := dec.input_pool, output_pool := buffer_ref (set_map dec.output_pool k 0) k,
        input := dec.input, output_count := dec.output_count,
        output_busy := dec.output_busy - 1, active := true, locked := true } k qin qout
    refine ⟨h.1, h.2.1, h.2.2.1, ?_⟩
    simp only [submissions, List.count_append, List.count_cons, List.count_nil] at ht ⊢
    simp [ht]
  · simp only [if_neg hfill]
    simp [submissions, List.count_cons]

/-- C4: in an active session, for a pool index `j` whose input is not filled, filling the input
when the output is free submits the pair once; when the output is busy, of the two events
"input filled" and "output disposed" the first submits nothing and the second submits the pair
once, in either order. -/
theorem pair_submitted_exactly_once (dec : mjpeg_decoder) (i j : Nat) (q1 q2 q3 q4 : Int)
    (hact : dec.active = true) (hj : j < MJPEG_INPUT_BUFFERS_NUM)
    (hin : dec.input_pool.length = MJPEG_INPUT_BUFFERS_NUM)
    (hout : dec.output_pool.length = MJPEG_OUTPUT_BUFFERS_NUM)
    (hpriv : (dec.input_pool.getD j default).priv ≠ none)
    (hempty : (dec.input_pool.getD j default).map = 0) :
    ((dec.output_pool.getD j default).map = 0 →
      submissions j (__camera_input_put dec i j q1 q2).trace = 1) ∧
    ((dec.output_pool.getD j default).map ≠ 0 →
      submissions j (__camera_input_put dec i j q1 q2).trace = 0 ∧
      submissions j (__jpu_output_buffer_dispose (__camera_input_put dec i j q1 q2).dec j
        q3 q4).trace = 1 ∧
      submissions j (__jpu_output_buffer_dispose dec j q1 q2).trace = 0 ∧
      submissions j (__camera_input_put (__jpu_output_buffer_dispose dec j q1 q2).dec i j
        q3 q4).trace = 1) := by
  have hjl : j < dec.input_pool.length := by omega
  have hjlo : j < dec.output_pool.length := by rw [hout]; exact hj
  obtain ⟨p1, p2, p3, p4⟩ := input_put_valid dec i j q1 q2 hj hpriv
  obtain ⟨d1, d2, d3, d4⟩ := output_dispose_active dec j q1 q2 hj hact
  constructor
  · intro hfree
    rw [p4, if_pos hfree]
  · intro hbusy
    refine ⟨by rw [p4, if_neg hbusy], ?_, by rw [d4, hempty]; simp, ?_⟩
    · rw [(output_dispose_active _ j q3 q4 hj (by rw [p3]; exact hact)).2.2.2, p1,
        set_map_getD _ _ _ (by rw [buffer_ref_length]; exact hjl)]
      simp
    · have hpriv' : ((__jpu_output_buffer_dispose dec j q1 q2).dec.input_pool.getD j
          default).priv ≠ none := by rw [d1]; exact hpriv
      rw [(input_put_valid _ i j q3 q4 hj hpriv').2.2.2, d2, buffer_ref_getD_map,
        set_map_getD _ _ _ hjlo]
      simp

theorem pair_submitted_exactly_once_witness :
    submissions 5 (__camera_input_put c4_session 1 5 0 0).trace = 0 ∧
    submissions 5 (__jpu_output_buffer_dispose (__camera_input_put c4_session 1 5 0 0).dec 5
      0 0).trace = 1 ∧
    submissions 5 (__jpu_output_buffer_dispose c4_session 5 0 0).trace = 0 ∧
    submissions 5 (__camera_input_put (__jpu_output_buffer_dispose c4_session 5 0 0).dec 1 5
      0 0).trace = 1 :=
  (pair_submitted_exactly_once c4_session 1 5 0 0 0 0 (by decide) (by decide) (by decide)
    (by decide) (by decide) (by decide)).2 (by decide)

theorem input_get_fields (dec : mjpeg_decoder) (i : Nat) (drop : Bool) :
    (__camera_input_get dec i drop).dec.active = dec.active ∧
    (__camera_input_get dec i drop).dec.output_busy = dec.output_busy := by
  unfold __camera_input_get
  simp only [mutex_lock, mutex_unlock]
  split
  · split_ifs <;> simp
  · simp

theorem input_put_fields (dec : mjpeg_decoder) (i : Nat) (j : Int) (qin qout : Int) :
    (__camera_input_put dec i j qin qout).dec.active = dec.active ∧
    (__camera_input_put dec i j qin qout).dec.output_busy = dec.output_busy := by
  unfold __camera_input_put
  simp only [mutex_lock, mutex_unlock]
  split_ifs
  all_goals first
    | exact ⟨(submit_pools _ _ _ _).2.2.1, (submit_pools _ _ _ _).2.2.2.2⟩
    | simp

theorem input_dispose_fields (dec : mjpeg_decoder) (j : Nat) :
    (__jpu_input_buffer_dispose dec j).dec.active = dec.active ∧
    (__jpu_input_buffer_dispose dec j).dec.output_busy = dec.output_busy := by
  unfold __jpu_input_buffer_dispose
  simp only [mutex_lock, mutex_unlock]
  split_ifs with h
  · simp [h]
  · simp

theorem output_dispose_fields (dec : mjpeg_decoder) (k : Nat) (qin qout : Int) :
    (__jpu_output_buffer_dispose dec k qin qout).dec.active = dec.active ∧
    (__jpu_output_buffer_dispose dec k qin qout).dec.output_busy ≤ dec.output_busy := by
  unfold __jpu_output_buffer_dispose
  simp only [mutex_lock, mutex_unlock]
  split_ifs with h1 h2 h3
  all_goals first
    | (refine ⟨?_, ?_⟩
       · rw [(submit_pools _ _ _ _).2.2.1]
       · rw [(submit_pools _ _ _ _).2.2.2.2]; simp)
    | (simp [*]; omega)
    | simp [*]

theorem unref_input_fields (dec : mjpeg_decoder) (j : Nat) :
    (gst_buffer_unref_input dec j).dec.active = dec.active ∧
    (gst_buffer_unref_input dec j).dec.output_busy = dec.output_busy := by
  unfold gst_buffer_unref_input
  split
  · simp
  · split_ifs
    · exact input_dispose_fields _ _
    · simp

theorem unref_output_fields (dec : mjpeg_decoder) (k : Nat) (qin qout : Int) :
    (gst_buffer_unref_output dec k qin qout).dec.active = dec.active ∧
    (gst_buffer_unref_output dec k qin qout).dec.output_busy ≤ dec.output_busy := by
  unfold gst_buffer_unref_output
  split
  · simp
  · split_ifs
    · exact output_dispose_fields _ _ _ _
    · simp

theorem decoder_process_fields (dec : mjpeg_decoder) (k j : Int) (proc : Int) (keep : Bool)
    (qin qout : Int) :
    (__decoder_process dec k j proc keep qin qout).dec.active = dec.active ∧
    (dec.active = false →
      (__decoder_process dec k j proc keep qin qout).dec.output_busy ≤ dec.output_busy) := by
  unfold __decoder_process
  simp only [mutex_lock, mutex_unlock]
  by_cases hk : k < 0
  · rw [if_pos hk]; exact ⟨rfl, fun _ => le_refl _⟩
  rw [if_neg hk]
  by_cases hj : j < 0
  · rw [if_pos hj]; exact ⟨rfl, fun _ => le_refl _⟩
  rw [if_neg hj]
  by_cases hkj : k ≠ j
  · rw [if_pos hkj]; exact ⟨rfl, fun _ => le_refl _⟩
  rw [if_neg hkj]
  by_cases hact : dec.active = true
  · rw [if_pos hact]
    refine ⟨?_, fun h => by simp [hact] at h⟩
    by_cases hp : proc < 0
    · rw [if_pos hp]
      split_ifs <;> rfl
    · rw [if_neg hp]
      rw [(unref_output_fields _ _ _ _).1, (unref_input_fields _ _).1]
      split_ifs <;> rfl
  · rw [if_neg hact]
    refine ⟨?_, fun _ => ?_⟩
    · rw [(unref_output_fields _ _ _ _).1, (unref_input_fields _ _).1]
    · refine le_trans (unref_output_fields _ _ _ _).2 ?_
      rw [(unref_input_fields _ _).2]

theorem session_step_stopped (s : mjpeg_decoder) (op : SessionOp) (h : s.active = false) :
    (session_step s op).active = false ∧ (session_step s op).output_busy ≤ s.output_busy := by
  cases op with
  | input_get i drop =>
    exact ⟨by rw [session_step, (input_get_fields _ _ _).1, h],
      le_of_eq (input_get_fields _ _ _).2⟩
  | input_put i j qin qout =>
    exact ⟨by rw [session_step, (input_put_fields _ _ _ _ _).1, h],
      le_of_eq (input_put_fields _ _ _ _ _).2⟩
  | decoder_process k j proc keep qin qout =>
    exact ⟨by rw [session_step, (decoder_process_fields _ _ _ _ _ _ _).1, h],
      (decoder_process_fields _ _ _ _ _ _ _).2 h⟩
  | input_dispose j =>
    exact ⟨by rw [session_step, (input_dispose_fields _ _).1, h],
      le_of_eq (input_dispose_fields _ _).2⟩
  | output_dispose k qin qout =>
    exact ⟨by rw [session_step, (output_dispose_fields _ _ _ _).1, h],
      (output_dispose_fields _ _ _ _).2⟩

theorem session_run_stopped (ops : List SessionOp) :
    ∀ s : mjpeg_decoder, s.active = false →
      (session_run s ops).map (fun x => x.active) = List.replicate (ops.length + 1) false ∧
      List.Chain' (fun a b : mjpeg_decoder => b.output_busy ≤ a.output_busy)
        (session_run s ops) := by
  induction ops with
  | nil => intro s h; simp [session_run, h]
  | cons op ops ih =>
    intro s h
    obtain ⟨h1, h2⟩ := session_step_stopped s op h
    obtain ⟨g1, g2⟩ := ih (session_step s op) h1
    refine ⟨?_, ?_⟩
    · simp only [session_run, List.map_cons, g1, h, List.length_cons]
      rfl
    · rw [session_run, List.chain'_cons']
      refine ⟨?_, g2⟩
      intro y hy
      cases ops with
      | nil => simp [session_run] at hy; subst hy; exact h2
      | cons op' ops' => simp [session_run] at hy; subst hy; exact h2

theorem state_changed_stops (dec : mjpeg_decoder) :
    (camera_state_changed dec true).dec.active = false := by
  unfold camera_state_changed
  simp only [mutex_lock, mutex_unlock]
  split_ifs with h <;> simp_all

/-- C9: the stop transition clears the activity flag, and from then on every step of the
session (input acquisition, input-filled notification, completion processing, input or output
buffer disposal) leaves the flag cleared and does not increase `output_busy`. -/
theorem stopped_session_stays_stopped (dec : mjpeg_decoder) (ops : List SessionOp) :
    (camera_state_changed dec true).dec.active = false ∧
    (session_run (camera_state_changed dec true).dec ops).map (fun s => s.active)
      = List.replicate (ops.length + 1) false ∧
    List.Chain' (fun a b : mjpeg_decoder => b.output_busy ≤ a.output_busy)
      (session_run (camera_state_changed dec true).dec ops) :=
  ⟨state_changed_stops dec, session_run_stopped ops _ (state_changed_stops dec)⟩

theorem queue_length_le (q : List Nat) (i : Nat) (hn : q.Nodup)
    (ho : ∀ j ∈ q, j / MJPEG_INPUT_POOL_SIZE = i) : q.length ≤ MJPEG_INPUT_POOL_SIZE := by
  have hsub : q ⊆ List.range' (MJPEG_INPUT_POOL_SIZE * i) MJPEG_INPUT_POOL_SIZE := by
    intro j hj
    have := ho j hj
    unfold MJPEG_INPUT_POOL_SIZE at *
    rw [List.mem_range'_1]
    omega
  have := (List.Nodup.subperm hn hsub).length_le
  simpa using this

theorem getD_set_ne (l : List (List Nat)) (a b : Nat) (x : List Nat) (h : a ≠ b) :
    (l.set a x).getD b [] = l.getD b [] := by
  simp [List.getD_eq_getElem?_getD, List.getElem?_set, h]

theorem getD_set_self (l : List (List Nat)) (a : Nat) (x : List Nat) (h : a < l.length) :
    (l.set a x).getD a [] = x := by
  simp [List.getD_eq_getElem?_getD, List.getElem?_set, h]

/-- `__camera_input_get` on a camera whose queue is not empty pops the head of the queue. -/
theorem input_get_pop (dec : mjpeg_decoder) (i : Nat) (drop : Bool) (j : Nat) (rest : List Nat)
    (h : dec.input.getD i [] = j :: rest) :
    (__camera_input_get dec i drop).ret = InputGet.buffer j (dec.input_pool.getD j default).priv ∧
    (__camera_input_get dec i drop).dec.input = dec.input.set i rest ∧
    (__camera_input_get dec i drop).dec.active = dec.active := by
  unfold __camera_input_get
  simp only [mutex_lock, mutex_unlock, h, and_self]

/-- `__camera_input_get` on a camera whose queue is empty: the caller waits under the blocking
policy while the session is active, and gets `NULL` otherwise; the session is unchanged. -/
theorem input_get_empty (dec : mjpeg_decoder) (i : Nat) (drop : Bool)
    (h : dec.input.getD i [] = []) :
    (__camera_input_get dec i drop).ret
      = (if ¬ drop ∧ dec.active then InputGet.waiting else InputGet.null) ∧
    (__camera_input_get dec i drop).dec.input = dec.input ∧
    (__camera_input_get dec i drop).dec.active = dec.active := by
  unfold __camera_input_get
  simp only [mutex_lock, mutex_unlock, h]
  split_ifs <;> simp

theorem acquire_many_spec (i : Nat) (drop : Bool) :
    ∀ (n : Nat) (dec : mjpeg_decoder), i < dec.input.length →
      (∀ g ∈ (acquire_many dec i drop n).2, g.isBuffer = true) →
      (acquire_many dec i drop n).1.input = dec.input.set i ((dec.input.getD i []).drop n) ∧
      (acquire_many dec i drop n).1.active = dec.active ∧
      n ≤ (dec.input.getD i []).length := by
  intro n
  induction n with
  | zero =>
    intro dec hi _
    refine ⟨?_, rfl, Nat.zero_le _⟩
    simp only [acquire_many, List.drop_zero]
    apply List.ext_getElem?
    intro m
    by_cases hm : i = m
    · subst hm; simp [List.getElem?_set, hi, List.getD_eq_getElem?_getD]
    · simp [List.getElem?_set, hm]
  | succ n ih =>
    intro dec hi hall
    cases hq : dec.input.getD i [] with
    | nil =>
      have h1 := (input_get_empty dec i drop hq).1
      have := hall (__camera_input_get dec i drop).ret (by simp [acquire_many])
      rw [h1] at this
      split_ifs at this <;> simp [InputGet.isBuffer] at this
    | cons j rest =>
      obtain ⟨_, h2, h3⟩ := input_get_pop dec i drop j rest hq
      have hi' : i < (__camera_input_get dec i drop).dec.input.length := by
        rw [h2]; simpa using hi
      obtain ⟨g1, g2, g3⟩ := ih (__camera_input_get dec i drop).dec hi'
        (fun g hg => hall g (by simp [acquire_many, hg]))
      rw [h2, getD_set_self _ _ _ hi] at g1 g3
      refine ⟨?_, by rw [← h3]; exact g2, by simpa using g3⟩
      simp only [acquire_many]
      rw [g1]
      simp [List.set_set]

theorem runtime_init_input :
    mjpeg_runtime_init.input = [[0, 1, 2, 3], [4, 5, 6, 7], [8, 9, 10, 11], [12, 13, 14, 15]] := by
  decide

theorem runtime_init_queues : QueuesOk mjpeg_runtime_init := by
  refine ⟨by decide, ?_, ?_⟩
  · intro i j h
    rw [runtime_init_input] at h
    unfold MJPEG_INPUT_POOL_SIZE
    match i with
    | 0 | 1 | 2 | 3 =>
      simp only [List.getD_cons_zero, List.getD_cons_succ, List.mem_cons, List.mem_singleton,
        List.not_mem_nil, or_false] at h
      omega
    | n + 4 => simp at h
  · intro i
    rw [runtime_init_input]
    match i with
    | 0 | 1 | 2 | 3 => decide
    | n + 4 => simp

/-- C10: in an active session, after camera `A` has acquired `MJPEG_INPUT_POOL_SIZE` input
buffers in a row, its next acquisition obtains no buffer (`NULL` under the drop policy, the
caller waits under the blocking policy), the queue of another camera `B` is unchanged, and an
acquisition for `B` returns the head `j` of the queue of `B`, with `j / 4 = B`. -/
theorem exhausted_camera_leaves_others (dec : mjpeg_decoder) (A B : Nat) (drop : Bool)
    (hq : QueuesOk dec) (hact : dec.active = true) (hA : A < CAMERAS_NUMBER)
    (hAB : A ≠ B)
    (h4 : ∀ g ∈ (acquire_many dec A drop MJPEG_INPUT_POOL_SIZE).2, g.isBuffer = true) :
    (__camera_input_get (acquire_many dec A drop MJPEG_INPUT_POOL_SIZE).1 A drop).ret
      = (if drop then InputGet.null else InputGet.waiting) ∧
    (acquire_many dec A drop MJPEG_INPUT_POOL_SIZE).1.input.getD B [] = dec.input.getD B [] ∧
    (∀ j rest, dec.input.getD B [] = j :: rest →
      j / MJPEG_INPUT_POOL_SIZE = B ∧
      ∃ priv, (__camera_input_get (acquire_many dec A drop MJPEG_INPUT_POOL_SIZE).1 B drop).ret
        = InputGet.buffer j priv) := by
  have hAl : A < dec.input.length := by rw [hq.cameras]; exact hA
  obtain ⟨h1, h2, h3⟩ := acquire_many_spec A drop MJPEG_INPUT_POOL_SIZE dec hAl h4
  have hle := queue_length_le (dec.input.getD A []) A (hq.nodup A) (hq.owner A)
  have hempty : (acquire_many dec A drop MJPEG_INPUT_POOL_SIZE).1.input.getD A [] = [] := by
    rw [h1, getD_set_self _ _ _ hAl]
    exact List.drop_eq_nil_of_le hle
  have hB : (acquire_many dec A drop MJPEG_INPUT_POOL_SIZE).1.input.getD B []
      = dec.input.getD B [] := by
    rw [h1, getD_set_ne _ _ _ _ hAB]
  refine ⟨?_, hB, ?_⟩
  · rw [(input_get_empty _ A drop hempty).1, h2, hact]
    cases drop <;> simp
  · intro j rest hj
    exact ⟨hq.owner B j (by rw [hj]; simp), _,
      (input_get_pop _ B drop j rest (by rw [hB, hj])).1⟩

theorem exhausted_camera_leaves_others_witness :
    (__camera_input_get (acquire_many mjpeg_runtime_init 0 true MJPEG_INPUT_POOL_SIZE).1 0
        true).ret = InputGet.null ∧
    (acquire_many mjpeg_runtime_init 0 true MJPEG_INPUT_POOL_SIZE).1.input.getD 1 []
      = mjpeg_runtime_init.input.getD 1 [] ∧
    (∀ j rest, mjpeg_runtime_init.input.getD 1 [] = j :: rest →
      j / MJPEG_INPUT_POOL_SIZE = 1 ∧
      ∃ priv,
        (__camera_input_get (acquire_many mjpeg_runtime_init 0 true MJPEG_INPUT_POOL_SIZE).1 1
          true).ret = InputGet.buffer j priv) :=
  exhausted_camera_leaves_others mjpeg_runtime_init 0 1 true runtime_init_queues rfl
    (by decide) (by decide) (by decide)

theorem bpf_run_succ (prog : List sock_filter) (pkt : List Nat) (fuel pc A : Nat) :
    bpf_run prog pkt (fuel + 1) pc A =
    match prog.get? pc with
    | none => none
    | some ins => bpf_step pkt ins pc A (bpf_run prog pkt fuel) := rfl

theorem bpf_step_ld (pkt : List Nat) (jt jf k pc A : Nat) (next : Nat → Nat → Option Nat) :
    bpf_step pkt ⟨0x20, jt, jf, k⟩ pc A next =
      if k + 4 ≤ pkt.length then next (pc + 1) (netif_get_u32 (pkt.drop k)) else some 0 := by
  simp [bpf_step]

theorem bpf_step_ldh (pkt : List Nat) (jt jf k pc A : Nat) (next : Nat → Nat → Option Nat) :
    bpf_step pkt ⟨0x28, jt, jf, k⟩ pc A next =
      if k + 2 ≤ pkt.length then next (pc + 1) (netif_get_u16 (pkt.drop k)) else some 0 := by
  simp [bpf_step]

theorem bpf_step_jeq (pkt : List Nat) (jt jf k pc A : Nat) (next : Nat → Nat → Option Nat) :
    bpf_step pkt ⟨0x15, jt, jf, k⟩ pc A next =
      if A = k then next (pc + 1 + jt) A else next (pc + 1 + jf) A := by
  simp only [bpf_step]
  split_ifs <;> simp_all

theorem bpf_step_and (pkt : List Nat) (jt jf k pc A : Nat) (next : Nat → Nat → Option Nat) :
    bpf_step pkt ⟨0x54, jt, jf, k⟩ pc A next = next (pc + 1) (A &&& k) := by
  simp [bpf_step]

theorem bpf_step_ret (pkt : List Nat) (jt jf k pc A : Nat) (next : Nat → Nat → Option Nat) :
    bpf_step pkt ⟨0x06, jt, jf, k⟩ pc A next = some k := by
  simp [bpf_step]

theorem u32_cons (a b c d : Nat) (t : List Nat) (hb : b < 256)
    (hc : c < 256) (hd : d < 256) :
    netif_get_u32 (a :: b :: c :: d :: t) = (a * 16777216 + b * 65536 + c * 256 + d) % 4294967296 := by
  simp only [netif_get_u32, byteAt, List.getD_cons_zero, List.getD_cons_succ, Nat.shiftLeft_eq]
  have h1 : a * 2 ^ 24 ||| b * 2 ^ 16 = a * 2 ^ 24 + b * 2 ^ 16 := by
    rw [Nat.mul_comm a, ← Nat.mul_add_lt_is_or (by omega)]
  have h2 : (a * 2 ^ 24 + b * 2 ^ 16) ||| c * 2 ^ 8 = a * 2 ^ 24 + b * 2 ^ 16 + c * 2 ^ 8 := by
    have : a * 2 ^ 24 + b * 2 ^ 16 = 2 ^ 16 * (a * 2 ^ 8 + b) := by ring
    rw [this, ← Nat.mul_add_lt_is_or (by omega)]
  have h3 : (a * 2 ^ 24 + b * 2 ^ 16 + c * 2 ^ 8) ||| d
      = a * 2 ^ 24 + b * 2 ^ 16 + c * 2 ^ 8 + d := by
    have : a * 2 ^ 24 + b * 2 ^ 16 + c * 2 ^ 8 = 2 ^ 8 * (a * 2 ^ 16 + b * 2 ^ 8 + c) := by ring
    rw [this, ← Nat.mul_add_lt_is_or (by omega)]
  rw [h1, h2, h3]
  norm_num

theorem u16_cons_add (a b : Nat) (t : List Nat) (hb : b < 256) :
    netif_get_u16 (a :: b :: t) = (a * 256 + b) % 65536 := by
  rw [u16_cons, Nat.shiftLeft_eq, Nat.mul_comm, ← Nat.mul_add_lt_is_or (by omega)]

/-- The two comparisons that the filter makes for a MAC address hold exactly when the six bytes
are equal. -/
theorem mac_match (pkt mac : List Nat) (hp : ∀ x ∈ pkt, x < 256) (hm : ∀ x ∈ mac, x < 256)
    (hl : 6 ≤ pkt.length) (hml : mac.length = 6) :
    (netif_get_u32 (pkt.drop 2) = netif_get_u32 (mac.drop 2) ∧
      netif_get_u16 pkt = netif_get_u16 mac) ↔ pkt.take 6 = mac := by
  match pkt, mac, hl, hml with
  | a0 :: a1 :: a2 :: a3 :: a4 :: a5 :: t, [d0, d1, d2, d3, d4, d5], _, _ =>
    have ha : a0 < 256 ∧ a1 < 256 ∧ a2 < 256 ∧ a3 < 256 ∧ a4 < 256 ∧ a5 < 256 :=
      ⟨hp _ (by simp), hp _ (by simp), hp _ (by simp), hp _ (by simp), hp _ (by simp),
        hp _ (by simp)⟩
    have hd : d0 < 256 ∧ d1 < 256 ∧ d2 < 256 ∧ d3 < 256 ∧ d4 < 256 ∧ d5 < 256 :=
      ⟨hm _ (by simp), hm _ (by simp), hm _ (by simp), hm _ (by simp), hm _ (by simp),
        hm _ (by simp)⟩
    simp only [List.drop_succ_cons, List.drop_zero, List.take_succ_cons, List.take_zero,
      List.cons.injEq, and_true]
    rw [u32_cons _ _ _ _ _ ha.2.2.2.1 ha.2.2.2.2.1 ha.2.2.2.2.2,
      u32_cons _ _ _ _ _ hd.2.2.2.1 hd.2.2.2.2.1 hd.2.2.2.2.2,
      u16_cons_add _ _ _ ha.2.1, u16_cons_add _ _ _ hd.2.1]
    omega

theorem src_match (pkt mac : List Nat) (hp : ∀ x ∈ pkt, x < 256) (hm : ∀ x ∈ mac, x < 256)
    (hl : 12 ≤ pkt.length) (hml : mac.length = 6) :
    (netif_get_u32 (pkt.drop 8) = netif_get_u32 (mac.drop 2) ∧
      netif_get_u16 (pkt.drop 6) = netif_get_u16 mac) ↔ frame_src_is pkt mac := by
  have := mac_match (pkt.drop 6) mac (fun x hx => hp x (List.mem_of_mem_drop hx)) hm
    (by simp; omega) hml
  simpa [frame_src_is] using this

theorem ite_reject (c : Prop) [Decidable c] (a : Nat) :
    (¬ (if c then a else 0) = 0) ↔ (c ∧ ¬ a = 0) := by
  split_ifs <;> simp [*]

theorem ite_accept (c : Prop) [Decidable c] (b : Nat) :
    (¬ (if c then 65535 else b) = 0) ↔ (c ∨ ¬ b = 0) := by
  split_ifs <;> simp [*]

theorem getD_ite (c : Prop) [Decidable c] (a b : Option Nat) :
    (if c then a else b).getD 0 = if c then a.getD 0 else b.getD 0 := by
  split_ifs <;> rfl

theorem isSome_ite (c : Prop) [Decidable c] (a b : Option Nat) :
    (if c then a else b).isSome = if c then a.isSome else b.isSome := by
  split_ifs <;> rfl

/-- On a frame of at least 18 bytes the program of `netif_filter_setup` runs to a return, and
the value returned is non-zero exactly when the tests of the program hold. -/
theorem filter_verdict (da sa : Option (List Nat)) (proto vlan : Nat) (frame : List Nat)
    (hb : ∀ x ∈ frame, x < 256) (hlen : 18 ≤ frame.length)
    (hda : mac_ok da) (hsa : mac_ok sa) :
    (bpf_run (netif_filter_setup da sa proto vlan) frame
      (netif_filter_setup da sa proto vlan).length 0 0).isSome = true ∧
    ((bpf_run (netif_filter_setup da sa proto vlan) frame
      (netif_filter_setup da sa proto vlan).length 0 0).getD 0 ≠ 0 ↔
      filter_tests da sa proto vlan frame) := by
  have h6 : 2 + 4 ≤ frame.length := by omega
  have h2 : 0 + 2 ≤ frame.length := by omega
  have h12 : 8 + 4 ≤ frame.length := by omega
  have h8 : 6 + 2 ≤ frame.length := by omega
  have h14 : 12 + 2 ≤ frame.length := by omega
  have h16 : 14 + 2 ≤ frame.length := by omega
  have h18 : 16 + 2 ≤ frame.length := by omega
  have hmd : ∀ d, da = some d → (frame_dst_is frame d ↔
      (netif_get_u32 (frame.drop 2) = netif_get_u32 (d.drop 2) ∧
        netif_get_u16 frame = netif_get_u16 d)) :=
    fun d h => (mac_match frame d hb (hda d h).2 (by omega) (hda d h).1).symm
  have hms : ∀ s, sa = some s → (frame_src_is frame s ↔
      (netif_get_u32 (frame.drop 8) = netif_get_u32 (s.drop 2) ∧
        netif_get_u16 (frame.drop 6) = netif_get_u16 s)) :=
    fun s h => (src_match frame s hb (hsa s h).2 (by omega) (hsa s h).1).symm
  clear hda hsa hb hlen
  unfold filter_tests frame_type_is frame_vlan_is nbuf_ethtype nbuf_8021q_ethtype
    nbuf_8021q_vid
  rcases da with _ | d <;> rcases sa with _ | s <;>
    by_cases hp : proto = 0 <;> by_cases hv : vlan = 0 <;>
    simp only [netif_filter_setup, hmd, hms, ne_eq, not_true_eq_false, not_false_eq_true, or_self,
      or_true, true_or, or_false, false_or, and_self, and_true, true_and, and_false, false_and,
      ↓reduceIte, List.nil_append, List.cons_append, List.length_cons, List.length_nil,
      Nat.reduceAdd, Nat.reduceMod, Nat.reduceSub, filter_adjust, Nat.reduceEqDiff,
      Option.some.injEq, forall_eq', reduceCtorEq, false_implies, implies_true, true_implies,
      Nat.zero_add, List.drop_zero, hp, hv,
      bpf_run_succ, bpf_step_ld, bpf_step_ldh, bpf_step_jeq, bpf_step_and, bpf_step_ret,
      List.get?_cons_zero, List.get?_cons_succ, h6, h2, h12, h8, h14, h16, h18,
      getD_ite, isSome_ite, Option.getD_some, Option.isSome_some, ite_self,
      ite_reject, ite_accept, and_assoc]

theorem accepts_iff_verdict (prog : List sock_filter) (pkt : List Nat)
    (hc : bpf_check prog = true) (hs : (bpf_run prog pkt prog.length 0 0).isSome = true) :
    (bpf_accepts prog pkt ↔ (bpf_run prog pkt prog.length 0 0).getD 0 ≠ 0) ∧
    (bpf_rejects prog pkt ↔ ¬ (bpf_run prog pkt prog.length 0 0).getD 0 ≠ 0) := by
  unfold bpf_accepts bpf_rejects
  cases h : bpf_run prog pkt prog.length 0 0 with
  | none => rw [h] at hs; cases hs
  | some v => simp [hc]


theorem ethertype_verdict (p : Nat) (hp : p ≠ 0) (f : List Nat) (hf : 18 ≤ f.length) :
    (bpf_run (netif_filter_setup none none p 0) f
      (netif_filter_setup none none p 0).length 0 0).isSome = true ∧
    ((bpf_run (netif_filter_setup none none p 0) f
      (netif_filter_setup none none p 0).length 0 0).getD 0 ≠ 0 ↔ frame_type_is f p) := by
  have h14 : 12 + 2 ≤ f.length := by omega
  have h18 : 16 + 2 ≤ f.length := by omega
  unfold frame_type_is nbuf_ethtype nbuf_8021q_ethtype
  simp only [netif_filter_setup, ne_eq, not_true_eq_false, not_false_eq_true, false_or,
    ↓reduceIte, List.nil_append, List.cons_append, List.length_cons, List.length_nil,
    Nat.reduceAdd, Nat.reduceMod, Nat.reduceSub, filter_adjust, Nat.reduceEqDiff,
    Nat.zero_add, hp, bpf_run_succ, bpf_step_ldh, bpf_step_jeq, bpf_step_ret,
    List.get?_cons_zero, List.get?_cons_succ, h14, h18,
    getD_ite, isSome_ite, Option.getD_some, Option.isSome_some, ite_self,
    ite_reject, ite_accept, and_true, and_self]

/-- Without the loop "adjust reject index reference" the program is refused when it is attached,
as soon as one predicate is given: the reject jumps still hold `(u8)-1`. -/
theorem filter_body_refused (da sa : Option (List Nat)) (proto vlan : Nat)
    (h : da ≠ none ∨ sa ≠ none ∨ proto ≠ 0 ∨ vlan ≠ 0) :
    bpf_check (netif_filter_body da sa proto vlan) = false := by
  rcases da with _ | d <;> rcases sa with _ | s <;>
    by_cases hp : proto = 0 <;> by_cases hv : vlan = 0 <;>
    simp [netif_filter_body, bpf_check, bpf_check_from, hp, hv] at h ⊢

/-- C6 (amended): for every subset of the four predicates the synthesized program is accepted by
the check made when it is attached, and on a frame of at least 18 bytes it returns a verdict:
it accepts exactly when the given MAC addresses match and the ethertype/VLAN test holds, and
rejects otherwise. Alone, each test is the predicate of the claim; when both an ethertype and a
VLAN id are given, bytes 12-13 equal to the ethertype are accepted without a look at the VLAN id,
and a tagged frame needs both the VLAN id and the ethertype behind the tag. -/
theorem filter_accepts_iff (da sa : Option (List Nat)) (proto vlan : Nat) (frame : List Nat)
    (hb : ∀ x ∈ frame, x < 256) (hlen : 18 ≤ frame.length)
    (hda : mac_ok da) (hsa : mac_ok sa) :
    bpf_check (netif_filter_setup da sa proto vlan) = true ∧
    (bpf_accepts (netif_filter_setup da sa proto vlan) frame ↔
      filter_tests da sa proto vlan frame) ∧
    (bpf_rejects (netif_filter_setup da sa proto vlan) frame ↔
      ¬ filter_tests da sa proto vlan frame) := by
  have hc : bpf_check (netif_filter_setup da sa proto vlan) = true := by
    rcases da with _ | d <;> rcases sa with _ | s <;>
      by_cases hp : proto = 0 <;> by_cases hv : vlan = 0 <;>
      simp [netif_filter_setup, filter_adjust, bpf_check, bpf_check_from, hp, hv]
  obtain ⟨hs, hv⟩ := filter_verdict da sa proto vlan frame hb hlen hda hsa
  obtain ⟨ha, hr⟩ := accepts_iff_verdict _ frame hc hs
  exact ⟨hc, ha.trans hv, hr.trans (not_congr hv)⟩

/-- C5: for a non-zero ethertype `p`, the program synthesized from the ethertype alone is
accepted by the check made when it is attached, and on a frame of at least 18 bytes it accepts
if the ethertype of the frame is `p`, untagged or behind an 802.1Q tag, and rejects if not; the
verdict is the same for two frames that agree on bytes 12-13 and 16-17, whatever their MAC
addresses and VLAN id. -/
theorem ethertype_filter_accepts_iff (p : Nat) (hp : p ≠ 0) (frame : List Nat)
    (hlen : 18 ≤ frame.length) :
    bpf_check (netif_filter_setup none none p 0) = true ∧
    (bpf_accepts (netif_filter_setup none none p 0) frame ↔ frame_type_is frame p) ∧
    (bpf_rejects (netif_filter_setup none none p 0) frame ↔ ¬ frame_type_is frame p) ∧
    (∀ other : List Nat, 18 ≤ other.length → nbuf_ethtype other = nbuf_ethtype frame →
      nbuf_8021q_ethtype other = nbuf_8021q_ethtype frame →
      (bpf_accepts (netif_filter_setup none none p 0) other ↔
        bpf_accepts (netif_filter_setup none none p 0) frame)) := by
  have hc : bpf_check (netif_filter_setup none none p 0) = true := by
    simp [netif_filter_setup, filter_adjust, bpf_check, bpf_check_from, hp]
  have key : ∀ f : List Nat, 18 ≤ f.length →
      (bpf_accepts (netif_filter_setup none none p 0) f ↔ frame_type_is f p) ∧
      (bpf_rejects (netif_filter_setup none none p 0) f ↔ ¬ frame_type_is f p) := by
    intro f hf
    obtain ⟨hs, hv⟩ := ethertype_verdict p hp f hf
    obtain ⟨ha, hr⟩ := accepts_iff_verdict _ f hc hs
    exact ⟨ha.trans hv, hr.trans (not_congr hv)⟩
  refine ⟨hc, (key frame hlen).1, (key frame hlen).2, ?_⟩
  intro other ho h1 h2
  rw [(key other ho).1, (key frame hlen).1]
  unfold frame_type_is
  rw [h1, h2]

theorem mac_ok_some (d : List Nat) (h : d.length = 6) (hb : ∀ x ∈ d, x < 256) :
    mac_ok (some d) := by
  intro d' hd
  cases hd
  exact ⟨h, hb⟩

theorem mac_ok_none : mac_ok none := by
  intro d hd
  cases hd

theorem ethertype_filter_accepts_iff_witness :
    bpf_check (netif_filter_setup none none 0x88B5 0) = true ∧
    (bpf_accepts (netif_filter_setup none none 0x88B5 0) tagged_frame
      ↔ frame_type_is tagged_frame 0x88B5) ∧
    (bpf_rejects (netif_filter_setup none none 0x88B5 0) tagged_frame
      ↔ ¬ frame_type_is tagged_frame 0x88B5) ∧
    (∀ other : List Nat, 18 ≤ other.length → nbuf_ethtype other = nbuf_ethtype tagged_frame →
      nbuf_8021q_ethtype other = nbuf_8021q_ethtype tagged_frame →
      (bpf_accepts (netif_filter_setup none none 0x88B5 0) other ↔
        bpf_accepts (netif_filter_setup none none 0x88B5 0) tagged_frame)) :=
  ethertype_filter_accepts_iff 0x88B5 (by decide) tagged_frame (by decide)

theorem filter_accepts_iff_witness :
    bpf_check (netif_filter_setup (some [1, 2, 3, 4, 5, 6]) (some [7, 8, 9, 10, 11, 12])
        0x88B5 5) = true ∧
    (bpf_accepts (netif_filter_setup (some [1, 2, 3, 4, 5, 6]) (some [7, 8, 9, 10, 11, 12])
        0x88B5 5) tagged_frame ↔
      filter_tests (some [1, 2, 3, 4, 5, 6]) (some [7, 8, 9, 10, 11, 12]) 0x88B5 5
        tagged_frame) ∧
    (bpf_rejects (netif_filter_setup (some [1, 2, 3, 4, 5, 6]) (some [7, 8, 9, 10, 11, 12])
        0x88B5 5) tagged_frame ↔
      ¬ filter_tests (some [1, 2, 3, 4, 5, 6]) (some [7, 8, 9, 10, 11, 12]) 0x88B5 5
        tagged_frame) :=
  filter_accepts_iff (some [1, 2, 3, 4, 5, 6]) (some [7, 8, 9, 10, 11, 12]) 0x88B5 5
    tagged_frame (by decide) (by decide) (mac_ok_some _ rfl (by decide))
    (mac_ok_some _ rfl (by decide))

/-- C6 as stated fails: with an ethertype and a VLAN id given, the program accepts an untagged
frame of that ethertype, for which the VLAN predicate does not hold. -/
theorem filter_accepts_untagged_despite_vlan :
    (∀ x ∈ untagged_frame, x < 256) ∧ 18 ≤ untagged_frame.length ∧
    bpf_accepts (netif_filter_setup none none 0x88B5 5) untagged_frame ∧
    ¬ frame_vlan_is untagged_frame 5 ∧
    ¬ (bpf_accepts (netif_filter_setup none none 0x88B5 5) untagged_frame ↔
        filter_all_given none none 0x88B5 5 untagged_frame) := by
  have hacc : bpf_accepts (netif_filter_setup none none 0x88B5 5) untagged_frame := by decide
  have hvl : ¬ frame_vlan_is untagged_frame 5 := by
    unfold frame_vlan_is
    decide
  refine ⟨by decide, by decide, hacc, hvl, ?_⟩
  intro h
  exact hvl ((h.mp hacc).2.2.2 (by decide))

/-! ### Packet ring -/

theorem rx_done_fields (s : netif_stream) (x : Nat) :
    (netif_stream_rx_done s x).rx_read_idx = s.rx_read_idx ∧
    (netif_stream_rx_done s x).rx_ring_mask = s.rx_ring_mask ∧
    (netif_stream_rx_done s x).tp_status.length = s.tp_status.length := by
  simp [netif_stream_rx_done, __nbuf_rx_done]

theorem rx_done_status_self (s : netif_stream) (x : Nat) (hx : x < s.tp_status.length) :
    frame_tp_status (netif_stream_rx_done s x) x = TP_STATUS_KERNEL := by
  simp [netif_stream_rx_done, __nbuf_rx_done, frame_tp_status, List.getD_eq_getElem?_getD, hx]

theorem rx_done_status_ne (s : netif_stream) (x y : Nat) (hxy : x ≠ y) :
    frame_tp_status (netif_stream_rx_done s x) y = frame_tp_status s y := by
  simp [netif_stream_rx_done, __nbuf_rx_done, frame_tp_status, List.getD_eq_getElem?_getD,
    List.getElem?_set_ne hxy]

theorem rx_done_not_user (s : netif_stream) (x y : Nat) (h : ¬ user_owned s y) :
    ¬ user_owned (netif_stream_rx_done s x) y := by
  by_cases hxy : x = y
  · subst hxy
    by_cases hx : x < s.tp_status.length
    · simp [user_owned, rx_done_status_self s x hx, TP_STATUS_KERNEL]
    · have : netif_stream_rx_done s x = s := by
        simp only [netif_stream_rx_done, __nbuf_rx_done]
        rw [List.set_eq_of_length_le (by omega)]
      rw [this]
      exact h
  · simpa [user_owned, rx_done_status_ne s x y hxy] using h

theorem release_returned_nil (s : netif_stream) (got : List Nat) :
    release_returned s got [] = s := rfl

theorem release_returned_cons (s : netif_stream) (got : List Nat) (x : Nat) (rel : List Nat) :
    release_returned s got (x :: rel) =
      release_returned (if x ∈ got then netif_stream_rx_done s x else s) got rel := rfl

theorem release_returned_fields (got rel : List Nat) : ∀ s : netif_stream,
    (release_returned s got rel).rx_read_idx = s.rx_read_idx ∧
    (release_returned s got rel).rx_ring_mask = s.rx_ring_mask ∧
    (release_returned s got rel).tp_status.length = s.tp_status.length ∧
    (∀ y, y ∉ got → frame_tp_status (release_returned s got rel) y = frame_tp_status s y) ∧
    (∀ y, ¬ user_owned s y → ¬ user_owned (release_returned s got rel) y) ∧
    (∀ y ∈ rel, y ∈ got → y < s.tp_status.length →
      ¬ user_owned (release_returned s got rel) y) := by
  induction rel with
  | nil =>
    intro s
    simp [release_returned_nil]
  | cons x rel ih =>
    intro s
    rw [release_returned_cons]
    obtain ⟨h1, h2, h3, h4, h5, h6⟩ := ih (if x ∈ got then netif_stream_rx_done s x else s)
    have hf := rx_done_fields s x
    by_cases hx : x ∈ got
    · simp only [hx, ↓reduceIte] at h1 h2 h3 h4 h5 h6 ⊢
      refine ⟨by rw [h1, hf.1], by rw [h2, hf.2.1], by rw [h3, hf.2.2], ?_, ?_, ?_⟩
      · intro y hy
        rw [h4 y hy]
        exact rx_done_status_ne s x y (fun h => hy (h ▸ hx))
      · intro y hy
        exact h5 y (rx_done_not_user s x y hy)
      · intro y hy hyg hyl
        rcases List.mem_cons.1 hy with rfl | hy
        · apply h5
          simp [user_owned, rx_done_status_self s y hyl, TP_STATUS_KERNEL]
        · exact h6 y hy hyg (by rw [hf.2.2]; exact hyl)
    · simp only [hx, ↓reduceIte] at h1 h2 h3 h4 h5 h6 ⊢
      refine ⟨h1, h2, h3, h4, h5, ?_⟩
      intro y hy hyg hyl
      rcases List.mem_cons.1 hy with rfl | hy
      · exact absurd hyg hx
      · exact h6 y hy hyg hyl

theorem mod_ne_of_lt (N a b : Nat) (hab : a < b) (hb : b < a + N) : a % N ≠ b % N := by
  intro h
  have h1 : (b - a) % N = 0 := Nat.sub_mod_eq_zero_of_mod_eq h.symm
  have h2 : (b - a) % N = b - a := Nat.mod_eq_of_lt (by omega)
  omega

theorem read_user (s : netif_stream) (h : user_owned s s.rx_read_idx) :
    netif_stream_read s =
      ({ s with rx_read_idx := (s.rx_read_idx + 1) &&& s.rx_ring_mask }, some s.rx_read_idx) := by
  unfold user_owned at h
  simp only [netif_stream_read]
  rw [if_pos h]

theorem read_not_user (s : netif_stream) (h : ¬ user_owned s s.rx_read_idx) :
    netif_stream_read s = (s, none) := by
  unfold user_owned at h
  simp only [netif_stream_read]
  rw [if_neg h]

theorem ring_session_cons (s : netif_stream) (got rel : List Nat) (rest : List (List Nat)) :
    ring_session s got (rel :: rest) =
      ((ring_session (release_returned (netif_stream_read s).1
          (got ++ (netif_stream_read s).2.toList) rel)
          (got ++ (netif_stream_read s).2.toList) rest).1,
        (netif_stream_read s).2 ::
        (ring_session (release_returned (netif_stream_read s).1
          (got ++ (netif_stream_read s).2.toList) rel)
          (got ++ (netif_stream_read s).2.toList) rest).2) := rfl

theorem ring_session_spec (n r0 k : Nat) (hk : k ≤ 2 ^ n) : ∀ (sched : List (List Nat))
    (s : netif_stream) (got : List Nat) (i : Nat),
    s.rx_ring_mask = 2 ^ n - 1 → s.tp_status.length = 2 ^ n →
    s.rx_read_idx = (r0 + i) % 2 ^ n →
    (∀ x ∈ got, ∃ j < i, x = (r0 + j) % 2 ^ n) →
    i + sched.length = k →
    (∀ j, i ≤ j → j < k → user_owned s ((r0 + j) % 2 ^ n)) →
    (ring_session s got sched).2 =
      (List.range sched.length).map (fun j => some ((r0 + (i + j)) % 2 ^ n)) ∧
    (ring_session s got sched).1.rx_read_idx = (r0 + k) % 2 ^ n ∧
    (ring_session s got sched).1.rx_ring_mask = 2 ^ n - 1 ∧
    (∀ y, ¬ user_owned s y → ¬ user_owned (ring_session s got sched).1 y) ∧
    (∀ y, (y ∈ got ∨ y = (r0 + i) % 2 ^ n) → (∃ rel ∈ sched, y ∈ rel) →
      ¬ user_owned (ring_session s got sched).1 y) := by
  have hN : 0 < 2 ^ n := Nat.pow_pos (by decide)
  intro sched
  induction sched with
  | nil =>
    intro s got i hm hl hc hg hik hu
    simp only [List.length_nil, Nat.add_zero] at hik
    subst hik
    simp [ring_session, hc, hm]
  | cons rel rest ih =>
    intro s got i hm hl hc hg hik hu
    simp only [List.length_cons] at hik
    have hcu : user_owned s s.rx_read_idx := by
      rw [hc]
      exact hu i (Nat.le_refl _) (by omega)
    rw [ring_session_cons, read_user s hcu]
    simp only [Option.toList]
    set s1 : netif_stream := { s with rx_read_idx := (s.rx_read_idx + 1) &&& s.rx_ring_mask }
      with hs1
    set got1 := got ++ [s.rx_read_idx] with hgot1
    obtain ⟨r1, r2, r3, r4, r5, r6⟩ := release_returned_fields got1 rel s1
    have hg1 : ∀ x ∈ got1, ∃ j < i + 1, x = (r0 + j) % 2 ^ n := by
      intro x hx
      rcases List.mem_append.1 hx with hx | hx
      · obtain ⟨j, hj, e⟩ := hg x hx
        exact ⟨j, by omega, e⟩
      · simp only [List.mem_singleton] at hx
        exact ⟨i, by omega, by rw [hx, hc]⟩
    have hc1 : (release_returned s1 got1 rel).rx_read_idx = (r0 + (i + 1)) % 2 ^ n := by
      rw [r1, hs1]
      simp only
      rw [hm, Nat.and_pow_two_sub_one_eq_mod, hc, Nat.mod_add_mod, Nat.add_assoc]
    have hu1 : ∀ j, i + 1 ≤ j → j < k →
        user_owned (release_returned s1 got1 rel) ((r0 + j) % 2 ^ n) := by
      intro j hj hjk
      have hng : (r0 + j) % 2 ^ n ∉ got1 := by
        intro hin
        obtain ⟨j', hj', e⟩ := hg1 _ hin
        exact mod_ne_of_lt (2 ^ n) (r0 + j') (r0 + j) (by omega) (by omega) e.symm
      have := hu j (by omega) hjk
      unfold user_owned at this ⊢
      rw [r4 _ hng]
      exact this
    obtain ⟨c1, c2, c3, c4, c5⟩ := ih (release_returned s1 got1 rel) got1 (i + 1)
      (by rw [r2]; exact hm) (by rw [r3]; exact hl) hc1 hg1 (by omega) hu1
    refine ⟨?_, c2, c3, ?_, ?_⟩
    · simp only [List.length_cons]
      rw [c1, List.range_succ_eq_map]
      simp only [List.map_cons, List.map_map, Nat.add_zero, hc]
      congr 1
      apply List.map_congr_left
      intro j _
      simp only [Function.comp, Nat.succ_eq_add_one]
      congr 2
      omega
    · intro y hy
      exact c4 y (r5 y hy)
    · intro y hy hrel
      have hyg : y ∈ got1 := by
        rcases hy with hy | hy
        · exact List.mem_append_left _ hy
        · exact List.mem_append_right _ (by simp [hy, hc])
      obtain ⟨rl, hrl, hyrl⟩ := hrel
      rcases List.mem_cons.1 hrl with rfl | hrl
      · apply c4
        apply r6 y hyrl hyg
        obtain ⟨j, _, e⟩ := hg1 y hyg
        show y < s.tp_status.length
        rw [hl, e]
        exact Nat.mod_lt _ hN
      · exact c5 y (Or.inl hyg) ⟨rl, hrl, hyrl⟩

theorem rx_pending_loop_spec (s : netif_stream) (n : Nat) (hm : s.rx_ring_mask = 2 ^ n - 1) :
    ∀ (m fuel idx c : Nat), m < fuel → c + m < 65536 → c + m ≤ 2 ^ n → idx < 2 ^ n →
      (∀ i < m, user_owned s ((idx + i) % 2 ^ n)) →
      (c + m < 2 ^ n → ¬ user_owned s ((idx + m) % 2 ^ n)) →
      rx_pending_loop s fuel idx c = some (c + m) := by
  have hN : 0 < 2 ^ n := Nat.pow_pos (by decide)
  intro m
  induction m with
  | zero =>
    intro fuel idx c hf hc hcn hi hu hs
    obtain ⟨f, rfl⟩ : ∃ f, fuel = f + 1 := ⟨fuel - 1, by omega⟩
    simp only [rx_pending_loop, Nat.add_zero]
    split_ifs with h1 h2
    · rfl
    · exfalso
      have := hs (by omega)
      rw [Nat.add_zero, Nat.mod_eq_of_lt hi] at this
      exact this h2
    · rfl
  | succ m ih =>
    intro fuel idx c hf hc hcn hi hu hs
    obtain ⟨f, rfl⟩ : ∃ f, fuel = f + 1 := ⟨fuel - 1, by omega⟩
    have h0 := hu 0 (by omega)
    rw [Nat.add_zero, Nat.mod_eq_of_lt hi] at h0
    unfold user_owned at h0
    simp only [rx_pending_loop]
    rw [if_pos (by omega), if_neg h0, hm, Nat.and_pow_two_sub_one_eq_mod,
      Nat.mod_eq_of_lt (show c + 1 < 65536 by omega)]
    rw [ih f ((idx + 1) % 2 ^ n) (c + 1) (by omega) (by omega) (by omega) (Nat.mod_lt _ hN)]
    · congr 1
      omega
    · intro i hi'
      rw [Nat.mod_add_mod]
      have := hu (i + 1) (by omega)
      rwa [show idx + (i + 1) = idx + 1 + i by omega] at this
    · intro hlt
      rw [Nat.mod_add_mod]
      have := hs (by omega)
      rwa [show idx + (m + 1) = idx + 1 + m by omega] at this

theorem ring_slots_nodup (N r0 k : Nat) (hk : k ≤ N) :
    ((List.range k).map (fun i => some ((r0 + i) % N))).Nodup := by
  apply List.Nodup.map_on _ (List.nodup_range k)
  intro a ha b hb hab
  simp only [List.mem_range] at ha hb
  simp only [Option.some.injEq] at hab
  by_contra hne
  rcases Nat.lt_or_gt_of_ne hne with h | h
  · exact mod_ne_of_lt N (r0 + a) (r0 + b) (by omega) (by omega) hab
  · exact mod_ne_of_lt N (r0 + b) (r0 + a) (by omega) (by omega) hab.symm

/-- C7 (amended): on a ring of `2 ^ n` frames of which exactly the `k` consecutive ones from the
read cursor are owned by user space (the count that `netif_stream_rx_pending` reports), with
nothing written by the kernel meanwhile, `k` calls of `netif_stream_read`, interleaved with any
releases of returned frames, return `k` pairwise different frames, and the next call returns
none and changes nothing, provided that `k < 2 ^ n` or, when the whole ring was pending, that
the frame returned first has been released. -/
theorem read_beyond_pending_returns_none (s : netif_stream) (n k : Nat) (sched : List (List Nat))
    (hmask : s.rx_ring_mask = 2 ^ n - 1) (hlen : s.tp_status.length = 2 ^ n)
    (hidx : s.rx_read_idx < 2 ^ n) (hk : sched.length = k) (hkn : k ≤ 2 ^ n)
    (huser : ∀ i < k, user_owned s ((s.rx_read_idx + i) % 2 ^ n))
    (hstop : k < 2 ^ n → ¬ user_owned s ((s.rx_read_idx + k) % 2 ^ n))
    (hrel : k = 2 ^ n → ∃ rel ∈ sched, s.rx_read_idx ∈ rel) :
    (k < 65536 → ∀ fuel, k < fuel → netif_stream_rx_pending s fuel = some k) ∧
    (ring_session s [] sched).2 =
      (List.range k).map (fun i => some ((s.rx_read_idx + i) % 2 ^ n)) ∧
    (ring_session s [] sched).2.Nodup ∧
    netif_stream_read (ring_session s [] sched).1 = ((ring_session s [] sched).1, none) := by
  obtain ⟨c1, c2, _, c4, c5⟩ := ring_session_spec n s.rx_read_idx k hkn sched s [] 0 hmask hlen
    (by rw [Nat.add_zero, Nat.mod_eq_of_lt hidx]) (by simp) (by omega)
    (fun j _ hj => huser j hj)
  have hout : (ring_session s [] sched).2 =
      (List.range k).map (fun i => some ((s.rx_read_idx + i) % 2 ^ n)) := by
    rw [c1, hk]
    apply List.map_congr_left
    intro j _
    rw [Nat.zero_add]
  refine ⟨?_, hout, ?_, ?_⟩
  · intro h16 fuel hf
    have := rx_pending_loop_spec s n hmask k fuel s.rx_read_idx 0 hf (by omega) (by omega) hidx
      huser (by rw [Nat.zero_add]; exact hstop)
    rw [Nat.zero_add] at this
    exact this
  · rw [hout]
    exact ring_slots_nodup _ _ _ hkn
  · apply read_not_user
    rw [c2]
    rcases Nat.lt_or_ge k (2 ^ n) with h | h
    · exact c4 _ (hstop h)
    · have hkN : k = 2 ^ n := by omega
      have e : (s.rx_read_idx + k) % 2 ^ n = s.rx_read_idx := by
        rw [hkN, Nat.add_mod_right, Nat.mod_eq_of_lt hidx]
      rw [e]
      exact c5 _ (Or.inr (by rw [Nat.add_zero, Nat.mod_eq_of_lt hidx])) (hrel hkN)

theorem read_beyond_pending_returns_none_witness :
    (2 < 65536 → ∀ fuel, 2 < fuel → netif_stream_rx_pending full_ring fuel = some 2) ∧
    (ring_session full_ring [] [[0], [1]]).2 =
      (List.range 2).map (fun i => some ((full_ring.rx_read_idx + i) % 2 ^ 1)) ∧
    (ring_session full_ring [] [[0], [1]]).2.Nodup ∧
    netif_stream_read (ring_session full_ring [] [[0], [1]]).1 =
      ((ring_session full_ring [] [[0], [1]]).1, none) :=
  read_beyond_pending_returns_none full_ring 1 2 [[0], [1]] rfl rfl (by decide) rfl (by decide)
    (by decide) (by decide) (fun _ => ⟨[0], by decide, by decide⟩)

/-- C7 as stated fails: on a ring of two frames, both pending, two reads without a release
return frames 0 and 1, and the third read returns frame 0 again. -/
theorem full_ring_read_returns_stale :
    full_ring.rx_ring_mask = 2 ^ 1 - 1 ∧ full_ring.tp_status.length = 2 ^ 1 ∧
    (∀ i < 2, user_owned full_ring ((full_ring.rx_read_idx + i) % 2 ^ 1)) ∧
    netif_stream_rx_pending full_ring 3 = some 2 ∧
    (ring_session full_ring [] [[], []]).2 = [some 0, some 1] ∧
    (netif_stream_read (ring_session full_ring [] [[], []]).1).2 = some 0 := by
  decide

/-- C8 (amended): `netif_stream_rx_done` writes `TP_STATUS_KERNEL` to the status word of the
frame and touches nothing else: the read cursor, the mask and the other frames are unchanged.
It leaves the stream unchanged exactly when the status word was `TP_STATUS_KERNEL` already, so
a second release of the same frame is a no-op, and the next `netif_stream_read` is what it
would have been unless the released frame is the pending one at the read cursor. -/
theorem rx_done_effect (s : netif_stream) (nbuf : Nat) (h : nbuf < s.tp_status.length) :
    (netif_stream_rx_done s nbuf).rx_read_idx = s.rx_read_idx ∧
    (netif_stream_rx_done s nbuf).rx_ring_mask = s.rx_ring_mask ∧
    frame_tp_status (netif_stream_rx_done s nbuf) nbuf = TP_STATUS_KERNEL ∧
    (∀ y, y ≠ nbuf → frame_tp_status (netif_stream_rx_done s nbuf) y = frame_tp_status s y) ∧
    (netif_stream_rx_done s nbuf = s ↔ frame_tp_status s nbuf = TP_STATUS_KERNEL) ∧
    netif_stream_rx_done (netif_stream_rx_done s nbuf) nbuf = netif_stream_rx_done s nbuf ∧
    ((nbuf ≠ s.rx_read_idx ∨ ¬ user_owned s nbuf) →
      (netif_stream_read (netif_stream_rx_done s nbuf)).2 = (netif_stream_read s).2 ∧
      (netif_stream_read (netif_stream_rx_done s nbuf)).1.rx_read_idx =
        (netif_stream_read s).1.rx_read_idx) := by
  have hf := rx_done_fields s nbuf
  have hself := rx_done_status_self s nbuf h
  have hiff : netif_stream_rx_done s nbuf = s ↔ frame_tp_status s nbuf = TP_STATUS_KERNEL := by
    constructor
    · intro e
      rw [← e]
      exact hself
    · intro e
      simp only [netif_stream_rx_done, __nbuf_rx_done]
      have : s.tp_status.set nbuf TP_STATUS_KERNEL = s.tp_status := by
        apply List.ext_getElem (by simp)
        intro i h1 h2
        by_cases hi : nbuf = i
        · subst hi
          simp only [List.getElem_set_self]
          simp only [frame_tp_status, List.getD_eq_getElem?_getD, List.getElem?_eq_getElem h,
            Option.getD_some] at e
          exact e.symm
        · simp [List.getElem_set_ne hi]
      rw [this]
  refine ⟨hf.1, hf.2.1, hself, fun y hy => rx_done_status_ne s nbuf y (Ne.symm hy), hiff, ?_, ?_⟩
  · simp [netif_stream_rx_done, __nbuf_rx_done]
  · intro hc
    by_cases hu : user_owned s s.rx_read_idx
    · have hne : nbuf ≠ s.rx_read_idx := by
        rcases hc with hc | hc
        · exact hc
        · intro e
          exact hc (e ▸ hu)
      have hu2 : user_owned (netif_stream_rx_done s nbuf) (netif_stream_rx_done s nbuf).rx_read_idx := by
        rw [hf.1]
        unfold user_owned at hu ⊢
        rw [rx_done_status_ne s nbuf _ hne]
        exact hu
      rw [read_user _ hu2, read_user _ hu]
      simp only [hf.1, hf.2.1, and_self]
    · have hu2 : ¬ user_owned (netif_stream_rx_done s nbuf)
          (netif_stream_rx_done s nbuf).rx_read_idx := by
        rw [hf.1]
        exact rx_done_not_user s nbuf _ hu
      rw [read_not_user _ hu2, read_not_user _ hu]
      exact ⟨rfl, hf.1⟩

theorem rx_done_effect_witness :
    (netif_stream_rx_done full_ring 1).rx_read_idx = full_ring.rx_read_idx ∧
    (netif_stream_rx_done full_ring 1).rx_ring_mask = full_ring.rx_ring_mask ∧
    frame_tp_status (netif_stream_rx_done full_ring 1) 1 = TP_STATUS_KERNEL ∧
    (∀ y, y ≠ 1 → frame_tp_status (netif_stream_rx_done full_ring 1) y =
      frame_tp_status full_ring y) ∧
    (netif_stream_rx_done full_ring 1 = full_ring ↔
      frame_tp_status full_ring 1 = TP_STATUS_KERNEL) ∧
    netif_stream_rx_done (netif_stream_rx_done full_ring 1) 1 =
      netif_stream_rx_done full_ring 1 ∧
    ((1 ≠ full_ring.rx_read_idx ∨ ¬ user_owned full_ring 1) →
      (netif_stream_read (netif_stream_rx_done full_ring 1)).2 = (netif_stream_read full_ring).2 ∧
      (netif_stream_read (netif_stream_rx_done full_ring 1)).1.rx_read_idx =
        (netif_stream_read full_ring).1.rx_read_idx) :=
  rx_done_effect full_ring 1 (by decide)

/-- C8 as stated fails: on a ring of two pending frames of which none has been read, the
release of frame 0 changes its status word and the stream, and the read that follows returns
none where it would have returned frame 0; the release of frame 1 makes the second read return
none where it would have returned frame 1. -/
theorem release_unread_changes_ring :
    netif_stream_rx_done full_ring 0 ≠ full_ring ∧
    frame_tp_status (netif_stream_rx_done full_ring 0) 0 ≠ frame_tp_status full_ring 0 ∧
    (netif_stream_read full_ring).2 = some 0 ∧
    (netif_stream_read (netif_stream_rx_done full_ring 0)).2 = none ∧
    (ring_session full_ring [] [[], []]).2 = [some 0, some 1] ∧
    (ring_session (netif_stream_rx_done full_ring 1) [] [[], []]).2 = [some 0, none] := by
  decide

/-! ### Decoder session after the stop -/

theorem input_dispose_inactive (dec : mjpeg_decoder) (j : Nat) (h : dec.active = false) :
    __jpu_input_buffer_dispose dec j =
      { dec := { dec with input_pool := set_priv dec.input_pool j none, locked := false }
        trace := [Event.lock, Event.unlock], ret := true } := by
  simp [__jpu_input_buffer_dispose, mutex_lock, mutex_unlock, h]

theorem output_dispose_inactive (dec : mjpeg_decoder) (k : Nat) (qin qout : Int)
    (hk : k < MJPEG_OUTPUT_BUFFERS_NUM) (h : dec.active = false) :
    __jpu_output_buffer_dispose dec k qin qout =
      { dec := { dec with output_busy := dec.output_busy - 1
                          output_pool := set_priv dec.output_pool k none, locked := false }
        trace := [Event.lock] ++
          (if dec.output_busy - 1 = 0 then [Event.signal_flush_wait] else []) ++ [Event.unlock]
        ret := true } := by
  unfold __jpu_output_buffer_dispose
  rw [if_neg (by omega)]
  simp [mutex_lock, mutex_unlock, h]

theorem submit_events (dec : mjpeg_decoder) (j : Nat) (qin qout : Int) :
    ∀ e ∈ (__submit_buffers dec j qin qout).trace, e.isProcess = false ∧ e.isDequeue = false := by
  unfold __submit_buffers
  split_ifs <;> simp [Event.isProcess, Event.isDequeue]

theorem input_dispose_events (dec : mjpeg_decoder) (j : Nat) :
    ∀ e ∈ (__jpu_input_buffer_dispose dec j).trace,
      e.isProcess = false ∧ e.isDequeue = false ∧ e.isSubmit = false := by
  unfold __jpu_input_buffer_dispose
  dsimp only
  split_ifs <;> simp [Event.isProcess, Event.isDequeue, Event.isSubmit]

theorem output_dispose_events (dec : mjpeg_decoder) (k : Nat) (qin qout : Int) :
    ∀ e ∈ (__jpu_output_buffer_dispose dec k qin qout).trace,
      e.isProcess = false ∧ e.isDequeue = false := by
  intro e he
  unfold __jpu_output_buffer_dispose at he
  dsimp only at he
  split_ifs at he
  · simp only [List.mem_singleton] at he
    subst he
    exact ⟨rfl, rfl⟩
  · simp only [List.mem_append, List.mem_singleton] at he
    rcases he with (he | he) | he
    · subst he; exact ⟨rfl, rfl⟩
    · exact submit_events _ _ _ _ e he
    · subst he; exact ⟨rfl, rfl⟩
  · simp only [List.mem_append, List.mem_singleton, List.not_mem_nil, or_false] at he
    rcases he with he | he <;> (subst he; exact ⟨rfl, rfl⟩)
  · simp only [List.mem_append, List.mem_singleton] at he
    rcases he with (he | he) | he <;> (subst he; exact ⟨rfl, rfl⟩)
  · simp only [List.mem_append, List.mem_singleton, List.not_mem_nil, or_false] at he
    rcases he with he | he <;> (subst he; exact ⟨rfl, rfl⟩)

theorem unref_input_events (dec : mjpeg_decoder) (j : Nat) :
    ∀ e ∈ (gst_buffer_unref_input dec j).trace,
      e.isProcess = false ∧ e.isDequeue = false ∧ e.isSubmit = false := by
  intro e he
  unfold gst_buffer_unref_input at he
  split at he
  · simp at he
  · split_ifs at he
    · exact input_dispose_events _ _ e he
    · simp at he

theorem unref_output_events (dec : mjpeg_decoder) (k : Nat) (qin qout : Int) :
    ∀ e ∈ (gst_buffer_unref_output dec k qin qout).trace,
      e.isProcess = false ∧ e.isDequeue = false := by
  intro e he
  unfold gst_buffer_unref_output at he
  split at he
  · simp at he
  · split_ifs at he
    · exact output_dispose_events _ _ _ _ e he
    · simp at he

theorem output_dispose_inactive_events (dec : mjpeg_decoder) (k : Nat) (qin qout : Int)
    (h : dec.active = false) :
    ∀ e ∈ (__jpu_output_buffer_dispose dec k qin qout).trace, e.isSubmit = false := by
  intro e he
  by_cases hk : k < MJPEG_OUTPUT_BUFFERS_NUM
  · rw [output_dispose_inactive dec k qin qout hk h] at he
    simp only [List.mem_append, List.mem_singleton] at he
    rcases he with (he | he) | he
    · subst he; rfl
    · split_ifs at he
      · simp only [List.mem_singleton] at he
        subst he; rfl
      · simp at he
    · subst he; rfl
  · unfold __jpu_output_buffer_dispose at he
    rw [if_pos (by omega)] at he
    simp only [List.mem_singleton] at he
    subst he; rfl

theorem unref_input_active (dec : mjpeg_decoder) (j : Nat) :
    (gst_buffer_unref_input dec j).dec.active = dec.active :=
  (unref_input_fields dec j).1

theorem input_get_events (dec : mjpeg_decoder) (i : Nat) (drop : Bool) :
    ∀ e ∈ (__camera_input_get dec i drop).trace, e.isSubmit = false := by
  intro e he
  unfold __camera_input_get at he
  dsimp only at he
  split at he
  · split_ifs at he <;>
      (simp only [List.mem_cons, List.mem_singleton, List.not_mem_nil, or_false] at he
       rcases he with he | he <;> (subst he; rfl))
  · simp only [List.mem_cons, List.mem_singleton, List.not_mem_nil, or_false] at he
    rcases he with he | he <;> (subst he; rfl)

theorem decoder_process_mismatch (dec : mjpeg_decoder) (k j : Int) (proc : Int) (keep : Bool)
    (qin qout : Int) (hk : 0 ≤ k) (hj : 0 ≤ j) (hkj : k ≠ j) :
    __decoder_process dec k j proc keep qin qout =
      { dec := { dec with output_count := dec.output_count - 1, locked := true }
        trace := [Event.lock, Event.dequeue_output, Event.dequeue_input], ret := -EBADFD } := by
  unfold __decoder_process
  simp only [mutex_lock, mutex_unlock]
  rw [if_neg (by omega), if_neg (by omega), if_pos hkj]

theorem decoder_process_inactive (dec : mjpeg_decoder) (k j : Int) (proc : Int) (keep : Bool)
    (qin qout : Int) (hk : 0 ≤ k) (hkj : k = j) (h : dec.active = false) :
    __decoder_process dec k j proc keep qin qout =
      { dec := (gst_buffer_unref_output (gst_buffer_unref_input
          { dec with output_count := dec.output_count - 1, locked := false } j.toNat).dec
          k.toNat qin qout).dec
        trace := [Event.lock, Event.dequeue_output, Event.dequeue_input, Event.unlock] ++
          (gst_buffer_unref_input
            { dec with output_count := dec.output_count - 1, locked := false } j.toNat).trace ++
          (gst_buffer_unref_output (gst_buffer_unref_input
            { dec with output_count := dec.output_count - 1, locked := false } j.toNat).dec
            k.toNat qin qout).trace
        ret := 0 } := by
  unfold __decoder_process
  simp only [mutex_lock, mutex_unlock]
  rw [if_neg (by omega), if_neg (by omega), if_neg (by simpa using hkj),
    if_neg (by simp [h])]

/-- The session when the `process` callback returns, in `__decoder_process` on an active
session with `k = j`: output entry marked, in-flight count advanced, lock released, and the
reference the consumer has taken, if any. -/
theorem decoder_process_active (dec : mjpeg_decoder) (k j : Int) (proc : Int) (keep : Bool)
    (qin qout : Int) (hk : 0 ≤ k) (hkj : k = j) (h : dec.active = true)
    (mid : mjpeg_decoder)
    (hmid : mid = { dec with
      output_pool := if keep then buffer_ref (set_map dec.output_pool k.toNat 1) k.toNat
        else set_map dec.output_pool k.toNat 1
      output_count := dec.output_count - 1
      output_busy := dec.output_busy + 1
      locked := false }) :
    __decoder_process dec k j proc keep qin qout =
      if proc < 0 then
        { dec := mid
          trace := [Event.lock, Event.dequeue_output, Event.dequeue_input, Event.unlock,
            Event.process (j.toNat / CAMERAS_NUMBER) k.toNat]
          ret := proc }
      else
        { dec := (gst_buffer_unref_output (gst_buffer_unref_input mid j.toNat).dec
            k.toNat qin qout).dec
          trace := [Event.lock, Event.dequeue_output, Event.dequeue_input, Event.unlock,
            Event.process (j.toNat / CAMERAS_NUMBER) k.toNat] ++
            (gst_buffer_unref_input mid j.toNat).trace ++
            (gst_buffer_unref_output (gst_buffer_unref_input mid j.toNat).dec
              k.toNat qin qout).trace
          ret := 0 } := by
  subst hmid
  unfold __decoder_process
  simp only [mutex_lock, mutex_unlock]
  rw [if_neg (by omega), if_neg (by omega), if_neg (by simpa using hkj), if_pos h]
  cases keep <;> simp

theorem decoder_process_inactive_events (dec : mjpeg_decoder) (k j : Int) (proc : Int)
    (keep : Bool) (qin qout : Int) (h : dec.active = false) :
    ∀ e ∈ (__decoder_process dec k j proc keep qin qout).trace,
      e.isSubmit = false ∧ e.isProcess = false := by
  intro e he
  by_cases hk : k < 0
  · unfold __decoder_process at he
    rw [if_pos hk] at he
    simp only [List.mem_cons, List.mem_singleton, List.not_mem_nil, or_false] at he
    rcases he with he | he <;> (subst he; exact ⟨rfl, rfl⟩)
  by_cases hj : j < 0
  · unfold __decoder_process at he
    rw [if_neg hk, if_pos hj] at he
    simp only [List.mem_cons, List.mem_singleton, List.not_mem_nil, or_false] at he
    rcases he with he | he | he <;> (subst he; exact ⟨rfl, rfl⟩)
  by_cases hkj : k ≠ j
  · rw [decoder_process_mismatch dec k j proc keep qin qout (by omega) (by omega) hkj] at he
    simp only [List.mem_cons, List.mem_singleton, List.not_mem_nil, or_false] at he
    rcases he with he | he | he <;> (subst he; exact ⟨rfl, rfl⟩)
  rw [decoder_process_inactive dec k j proc keep qin qout (by omega)
    (by simpa using hkj) h] at he
  simp only [List.mem_append, List.mem_cons, List.mem_singleton, List.not_mem_nil,
    or_false] at he
  rcases he with ((he | he | he | he) | he) | he
  · subst he; exact ⟨rfl, rfl⟩
  · subst he; exact ⟨rfl, rfl⟩
  · subst he; exact ⟨rfl, rfl⟩
  · subst he; exact ⟨rfl, rfl⟩
  · have := unref_input_events _ _ e he
    exact ⟨this.2.2, this.1⟩
  · refine ⟨?_, (unref_output_events _ _ _ _ e he).1⟩
    unfold gst_buffer_unref_output at he
    split at he
    · simp at he
    · split_ifs at he
      · refine output_dispose_inactive_events _ _ _ _ ?_ e he
        simp only
        rw [(unref_input_fields _ _).1]
        exact h
      · simp at he

theorem count_submit_zero (t : List Event) (h : ∀ e ∈ t, e.isSubmit = false) (j : Nat) :
    submissions j t = 0 := by
  unfold submissions
  rw [List.count_eq_zero]
  intro hm
  have := h _ hm
  simp [Event.isSubmit] at this

/-- C11 (amended): a call of `__camera_input_get` that finds the free-input queue of the camera
not empty pops the head of the queue and returns it, whatever the activity flag; with the flag
cleared, a call never waits, and on an empty queue it returns `NULL` and leaves the session as
it was; a caller that waited inside the function and is woken up with the flag cleared returns
`NULL` whatever the queue holds, and leaves the queue as it was. -/
theorem inactive_input_get_returns_queue_head (dec : mjpeg_decoder) (i : Nat)
    (drop : Bool) :
    (∀ j rest, dec.input.getD i [] = j :: rest →
      __camera_input_get dec i drop =
        { dec := { dec with input := dec.input.set i rest, locked := false }
          trace := [Event.lock, Event.unlock]
          ret := InputGet.buffer j (dec.input_pool.getD j default).priv }) ∧
    (dec.active = false →
      (__camera_input_get dec i drop).ret ≠ InputGet.waiting ∧
      ((__camera_input_get dec i drop).ret = InputGet.null ↔ dec.input.getD i [] = []) ∧
      (dec.input.getD i [] = [] →
        __camera_input_get dec i drop =
          { dec := { dec with locked := false }, trace := [Event.lock, Event.unlock],
            ret := InputGet.null }) ∧
      __camera_input_get_woken dec i =
        { dec := { dec with locked := false }, trace := [Event.unlock],
          ret := InputGet.null }) := by
  constructor
  · intro j rest hq
    unfold __camera_input_get
    simp only [mutex_lock, mutex_unlock, hq]
  · intro h
    refine ⟨?_, ?_, ?_, ?_⟩
    · unfold __camera_input_get
      simp only [mutex_lock, mutex_unlock, h]
      rcases hq : dec.input.getD i [] with _ | ⟨j, rest⟩ <;> simp
    · unfold __camera_input_get
      simp only [mutex_lock, mutex_unlock, h]
      rcases hq : dec.input.getD i [] with _ | ⟨j, rest⟩ <;> simp
    · intro hq
      unfold __camera_input_get
      simp only [mutex_lock, mutex_unlock, hq, h]
      simp
    · unfold __camera_input_get_woken
      simp [mutex_lock, mutex_unlock, h]

theorem inactive_input_get_returns_queue_head_witness :
    (__camera_input_get stopped_session 1 false =
        { dec := { stopped_session with
            input := stopped_session.input.set 1 [5, 6, 7], locked := false }
          trace := [Event.lock, Event.unlock]
          ret := InputGet.buffer 4 (stopped_session.input_pool.getD 4 default).priv }) ∧
    (__camera_input_get stopped_session_empty 0 false =
        { dec := { stopped_session_empty with locked := false }
          trace := [Event.lock, Event.unlock], ret := InputGet.null }) ∧
    (__camera_input_get_woken stopped_session 1 =
        { dec := { stopped_session with locked := false }, trace := [Event.unlock],
          ret := InputGet.null }) :=
  ⟨(inactive_input_get_returns_queue_head stopped_session 1 false).1 4 [5, 6, 7]
      (by decide),
    ((inactive_input_get_returns_queue_head stopped_session_empty 0 false).2
      (by decide)).2.2.1 (by decide),
    ((inactive_input_get_returns_queue_head stopped_session 1 false).2
      (by decide)).2.2.2⟩

/-- C11 as stated fails: in a stopped session whose queue for camera 1 is not empty,
`__camera_input_get` returns input buffer 4, under either policy. -/
theorem inactive_input_get_returns_buffer :
    stopped_session.active = false ∧
    (__camera_input_get stopped_session 1 true).ret = InputGet.buffer 4 (some 1) ∧
    (__camera_input_get stopped_session 1 false).ret = InputGet.buffer 4 (some 1) := by
  decide

/-- C12 (amended): with the activity flag cleared, `__camera_input_get`, `__decoder_process`
and the two dispose functions never call `__submit_buffers`, and `__decoder_process` does not
invoke the consumer; `__camera_input_put` does not test the flag and submits the pair of a
valid buffer exactly when the output entry is free. -/
theorem inactive_submissions (dec : mjpeg_decoder) (i j : Nat) (k1 j1 : Int) (drop keep : Bool)
    (proc qin qout : Int) (h : dec.active = false) (hj : j < MJPEG_INPUT_BUFFERS_NUM)
    (hpriv : (dec.input_pool.getD j default).priv ≠ none) :
    (∀ n, submissions n (__camera_input_get dec i drop).trace = 0) ∧
    (∀ n, submissions n (__jpu_input_buffer_dispose dec j).trace = 0) ∧
    (∀ n, submissions n (__jpu_output_buffer_dispose dec j qin qout).trace = 0) ∧
    (∀ n, submissions n (__decoder_process dec k1 j1 proc keep qin qout).trace = 0) ∧
    (∀ e ∈ (__decoder_process dec k1 j1 proc keep qin qout).trace, e.isProcess = false) ∧
    submissions j (__camera_input_put dec i j qin qout).trace
      = (if (dec.output_pool.getD j default).map = 0 then 1 else 0) ∧
    (__camera_input_put dec i j qin qout).dec.active = false := by
  refine ⟨?_, ?_, ?_, ?_, ?_, ?_, ?_⟩
  · exact count_submit_zero _ (input_get_events dec i drop)
  · exact count_submit_zero _ (fun e he => (input_dispose_events dec j e he).2.2)
  · exact count_submit_zero _ (output_dispose_inactive_events dec j qin qout h)
  · exact count_submit_zero _
      (fun e he => (decoder_process_inactive_events dec k1 j1 proc keep qin qout h e he).1)
  · exact fun e he => (decoder_process_inactive_events dec k1 j1 proc keep qin qout h e he).2
  · exact (input_put_valid dec i j qin qout hj hpriv).2.2.2
  · rw [(input_put_valid dec i j qin qout hj hpriv).2.2.1, h]

theorem inactive_submissions_witness :
    (∀ n, submissions n (__camera_input_get stopped_session 1 true).trace = 0) ∧
    (∀ n, submissions n (__jpu_input_buffer_dispose stopped_session 0).trace = 0) ∧
    (∀ n, submissions n (__jpu_output_buffer_dispose stopped_session 0 0 0).trace = 0) ∧
    (∀ n, submissions n (__decoder_process stopped_session 0 0 0 true 0 0).trace = 0) ∧
    (∀ e ∈ (__decoder_process stopped_session 0 0 0 true 0 0).trace, e.isProcess = false) ∧
    submissions 0 (__camera_input_put stopped_session 1 0 0 0).trace
      = (if (stopped_session.output_pool.getD 0 default).map = 0 then 1 else 0) ∧
    (__camera_input_put stopped_session 1 0 0 0).dec.active = false :=
  inactive_submissions stopped_session 1 0 0 0 true true 0 0 0 (by decide) (by decide)
    (by decide)

/-- C12 as stated fails: camera 0 acquires input buffer 0, the session is stopped, and the frame
completed afterwards is submitted to the decoder by `__camera_input_put` with the activity flag
cleared. -/
theorem input_put_submits_after_stop :
    (__camera_input_get mjpeg_runtime_init 0 true).ret = InputGet.buffer 0 (some 1) ∧
    stopped_session.active = false ∧
    (__camera_input_put stopped_session 0 0 0 0).trace =
      [Event.lock, Event.submit 0, Event.queue_input 0, Event.queue_output 0, Event.signal_wait,
        Event.unlock] ∧
    submissions 0 (__camera_input_put stopped_session 0 0 0 0).trace = 1 := by
  decide

theorem filter_nil_of_events (p : Event → Bool) (t : List Event) (h : ∀ e ∈ t, p e = false) :
    t.filter p = [] := by
  rw [List.filter_eq_nil_iff]
  intro e he
  simp [h e he]

theorem unref_input_output_count (dec : mjpeg_decoder) (j : Nat) :
    (gst_buffer_unref_input dec j).dec.output_count = dec.output_count := by
  unfold gst_buffer_unref_input
  split
  · rfl
  · split_ifs
    · unfold __jpu_input_buffer_dispose
      simp only [mutex_lock, mutex_unlock]
      split_ifs <;> rfl
    · rfl

theorem unref_output_inactive_count (dec : mjpeg_decoder) (k : Nat) (qin qout : Int)
    (h : dec.active = false) :
    (gst_buffer_unref_output dec k qin qout).dec.output_count = dec.output_count := by
  unfold gst_buffer_unref_output
  split
  · rfl
  · split_ifs
    · by_cases hk : k < MJPEG_OUTPUT_BUFFERS_NUM
      · dsimp only
        rw [output_dispose_inactive _ k qin qout hk (by exact h)]
      · dsimp only
        unfold __jpu_output_buffer_dispose
        rw [if_pos (by omega)]
    · rfl

/-- C13: with an output index `k` and an input index `j` dequeued, `__decoder_process`
decrements the queued count; if `k = j` and the session is active, then at the return of the
`process` callback output `k` is marked, the in-flight count is one higher, and the callback
has been invoked exactly once, for camera `j / 4` and output buffer `k` (the function then
returns the callback's error, or releases its references to the two buffers); if `k` differs
from `j` it returns `-EBADFD`, the consumer is not invoked and the in-flight count is unchanged.
On an inactive session with `k = j` the consumer is not invoked either. -/
theorem decoder_process_hands_over_pair (dec : mjpeg_decoder) (k j : Int) (proc : Int)
    (keep : Bool) (qin qout : Int) (hk : 0 ≤ k) (hj : 0 ≤ j) :
    ((__decoder_process dec k j proc keep qin qout).trace.filter Event.isDequeue =
      [Event.dequeue_output, Event.dequeue_input]) ∧
    (k ≠ j →
      (__decoder_process dec k j proc keep qin qout).ret = -EBADFD ∧
      (__decoder_process dec k j proc keep qin qout).trace.filter Event.isProcess = [] ∧
      (__decoder_process dec k j proc keep qin qout).dec.output_busy = dec.output_busy ∧
      (__decoder_process dec k j proc keep qin qout).dec.output_count = dec.output_count - 1) ∧
    (k = j → dec.active = true →
      (__decoder_process dec k j proc keep qin qout).trace.filter Event.isProcess =
        [Event.process (j.toNat / 4) k.toNat] ∧
      ∃ mid : mjpeg_decoder,
        mid.output_count = dec.output_count - 1 ∧
        mid.output_busy = dec.output_busy + 1 ∧
        (k.toNat < dec.output_pool.length → (mid.output_pool.getD k.toNat default).map = 1) ∧
        (proc < 0 → (__decoder_process dec k j proc keep qin qout).dec = mid ∧
          (__decoder_process dec k j proc keep qin qout).ret = proc) ∧
        (0 ≤ proc →
          (__decoder_process dec k j proc keep qin qout).dec =
            (gst_buffer_unref_output (gst_buffer_unref_input mid j.toNat).dec
              k.toNat qin qout).dec ∧
          (__decoder_process dec k j proc keep qin qout).ret = 0)) ∧
    (k = j → dec.active = false →
      (__decoder_process dec k j proc keep qin qout).trace.filter Event.isProcess = [] ∧
      (__decoder_process dec k j proc keep qin qout).dec.output_count
        = dec.output_count - 1) := by
  refine ⟨?_, ?_, ?_, ?_⟩
  · by_cases hkj : k ≠ j
    · rw [decoder_process_mismatch dec k j proc keep qin qout hk hj hkj]
      rfl
    · have hkj' : k = j := by simpa using hkj
      by_cases hact : dec.active = true
      · rw [decoder_process_active dec k j proc keep qin qout hk hkj' hact _ rfl]
        by_cases hp : proc < 0
        · rw [if_pos hp]
          rfl
        · rw [if_neg hp]
          simp only [List.filter_append]
          rw [filter_nil_of_events _ _ (fun e he => (unref_input_events _ _ e he).2.1),
            filter_nil_of_events _ _ (fun e he => (unref_output_events _ _ _ _ e he).2)]
          rfl
      · rw [decoder_process_inactive dec k j proc keep qin qout hk hkj' (by simpa using hact)]
        simp only [List.filter_append]
        rw [filter_nil_of_events _ _ (fun e he => (unref_input_events _ _ e he).2.1),
          filter_nil_of_events _ _ (fun e he => (unref_output_events _ _ _ _ e he).2)]
        rfl
  · intro hkj
    rw [decoder_process_mismatch dec k j proc keep qin qout hk hj hkj]
    exact ⟨rfl, rfl, rfl, rfl⟩
  · intro hkj hact
    rw [decoder_process_active dec k j proc keep qin qout hk hkj hact _ rfl]
    refine ⟨?_, { dec with
      output_pool := if keep then buffer_ref (set_map dec.output_pool k.toNat 1) k.toNat
        else set_map dec.output_pool k.toNat 1
      output_count := dec.output_count - 1
      output_busy := dec.output_busy + 1
      locked := false }, rfl, rfl, ?_, ?_, ?_⟩
    · by_cases hp : proc < 0
      · rw [if_pos hp]
        rfl
      · rw [if_neg hp]
        simp only [List.filter_append]
        rw [filter_nil_of_events _ _ (fun e he => (unref_input_events _ _ e he).1),
          filter_nil_of_events _ _ (fun e he => (unref_output_events _ _ _ _ e he).1)]
        rfl
    · intro hl
      cases keep
      · simp only [Bool.false_eq_true, ↓reduceIte]
        exact set_map_getD _ _ _ hl
      · simp only [↓reduceIte]
        rw [buffer_ref_getD_map]
        exact set_map_getD _ _ _ hl
    · intro hp
      rw [if_pos hp]
      exact ⟨rfl, rfl⟩
    · intro hp
      rw [if_neg (by omega)]
      exact ⟨rfl, rfl⟩
  · intro hkj hact
    rw [decoder_process_inactive dec k j proc keep qin qout hk hkj hact]
    constructor
    · simp only [List.filter_append]
      rw [filter_nil_of_events _ _ (fun e he => (unref_input_events _ _ e he).1),
        filter_nil_of_events _ _ (fun e he => (unref_output_events _ _ _ _ e he).1)]
      rfl
    · simp only
      rw [unref_output_inactive_count _ _ _ _ (by rw [(unref_input_fields _ _).1]; exact hact),
        unref_input_output_count]

theorem decoder_process_hands_over_pair_witness :
    ((__decoder_process c4_session 5 5 0 true 0 0).trace.filter Event.isDequeue =
      [Event.dequeue_output, Event.dequeue_input]) ∧
    ((5 : Int) ≠ 5 →
      (__decoder_process c4_session 5 5 0 true 0 0).ret = -EBADFD ∧
      (__decoder_process c4_session 5 5 0 true 0 0).trace.filter Event.isProcess = [] ∧
      (__decoder_process c4_session 5 5 0 true 0 0).dec.output_busy = c4_session.output_busy ∧
      (__decoder_process c4_session 5 5 0 true 0 0).dec.output_count
        = c4_session.output_count - 1) ∧
    ((5 : Int) = 5 → c4_session.active = true →
      (__decoder_process c4_session 5 5 0 true 0 0).trace.filter Event.isProcess =
        [Event.process ((5 : Int).toNat / 4) (5 : Int).toNat] ∧
      ∃ mid : mjpeg_decoder,
        mid.output_count = c4_session.output_count - 1 ∧
        mid.output_busy = c4_session.output_busy + 1 ∧
        ((5 : Int).toNat < c4_session.output_pool.length →
          (mid.output_pool.getD (5 : Int).toNat default).map = 1) ∧
        ((0 : Int) < 0 → (__decoder_process c4_session 5 5 0 true 0 0).dec = mid ∧
          (__decoder_process c4_session 5 5 0 true 0 0).ret = 0) ∧
        ((0 : Int) ≤ 0 →
          (__decoder_process c4_session 5 5 0 true 0 0).dec =
            (gst_buffer_unref_output (gst_buffer_unref_input mid (5 : Int).toNat).dec
              (5 : Int).toNat 0 0).dec ∧
          (__decoder_process c4_session 5 5 0 true 0 0).ret = 0)) ∧
    ((5 : Int) = 5 → c4_session.active = false →
      (__decoder_process c4_session 5 5 0 true 0 0).trace.filter Event.isProcess = [] ∧
      (__decoder_process c4_session 5 5 0 true 0 0).dec.output_count
        = c4_session.output_count - 1) :=
  decoder_process_hands_over_pair c4_session 5 5 0 true 0 0 (by decide) (by decide)

theorem set_priv_getD_self (pool : List jpu_buffer) (j : Nat) (v : Option Nat)
    (h : j < pool.length) : ((set_priv pool j v).getD j default).priv = v := by
  simp [set_priv, List.getD_eq_getElem?_getD, List.getElem?_set, h]

/-- C14: in an inactive session the disposal of an input or output buffer lets the buffer be
destroyed and clears its pool entry; no free queue, no queued count and nothing submitted
changes. The input disposal leaves the in-flight count alone and never signals drain
completion; the output disposal decrements the in-flight count and signals drain completion
exactly when the count has reached 0. -/
theorem inactive_dispose_releases (dec : mjpeg_decoder) (j k : Nat) (qin qout : Int)
    (h : dec.active = false) (hj : j < dec.input_pool.length)
    (hk : k < MJPEG_OUTPUT_BUFFERS_NUM) (hkl : k < dec.output_pool.length) :
    ((__jpu_input_buffer_dispose dec j).ret = true ∧
      ((__jpu_input_buffer_dispose dec j).dec.input_pool.getD j default).priv = none ∧
      (__jpu_input_buffer_dispose dec j).dec.input = dec.input ∧
      (__jpu_input_buffer_dispose dec j).dec.output_count = dec.output_count ∧
      (__jpu_input_buffer_dispose dec j).dec.output_busy = dec.output_busy ∧
      (∀ n, submissions n (__jpu_input_buffer_dispose dec j).trace = 0) ∧
      Event.signal_flush_wait ∉ (__jpu_input_buffer_dispose dec j).trace) ∧
    ((__jpu_output_buffer_dispose dec k qin qout).ret = true ∧
      ((__jpu_output_buffer_dispose dec k qin qout).dec.output_pool.getD k default).priv = none ∧
      (__jpu_output_buffer_dispose dec k qin qout).dec.input = dec.input ∧
      (__jpu_output_buffer_dispose dec k qin qout).dec.output_count = dec.output_count ∧
      (__jpu_output_buffer_dispose dec k qin qout).dec.output_busy = dec.output_busy - 1 ∧
      (∀ n, submissions n (__jpu_output_buffer_dispose dec k qin qout).trace = 0) ∧
      (Event.signal_flush_wait ∈ (__jpu_output_buffer_dispose dec k qin qout).trace ↔
        (__jpu_output_buffer_dispose dec k qin qout).dec.output_busy = 0)) := by
  constructor
  · refine ⟨?_, ?_, ?_, ?_, ?_, ?_, ?_⟩
    · rw [input_dispose_inactive dec j h]
    · rw [input_dispose_inactive dec j h]
      exact set_priv_getD_self _ _ _ hj
    · rw [input_dispose_inactive dec j h]
    · rw [input_dispose_inactive dec j h]
    · rw [input_dispose_inactive dec j h]
    · exact count_submit_zero _ (fun e he => (input_dispose_events dec j e he).2.2)
    · rw [input_dispose_inactive dec j h]
      simp
  · refine ⟨?_, ?_, ?_, ?_, ?_, ?_, ?_⟩
    · rw [output_dispose_inactive dec k qin qout hk h]
    · rw [output_dispose_inactive dec k qin qout hk h]
      exact set_priv_getD_self _ _ _ hkl
    · rw [output_dispose_inactive dec k qin qout hk h]
    · rw [output_dispose_inactive dec k qin qout hk h]
    · rw [output_dispose_inactive dec k qin qout hk h]
    · exact count_submit_zero _ (output_dispose_inactive_events dec k qin qout h)
    · rw [output_dispose_inactive dec k qin qout hk h]
      by_cases hz : dec.output_busy - 1 = 0
      · simp [hz]
      · simp [hz]

theorem inactive_dispose_releases_witness :
    ((__jpu_input_buffer_dispose draining_session 0).ret = true ∧
      ((__jpu_input_buffer_dispose draining_session 0).dec.input_pool.getD 0 default).priv
        = none ∧
      (__jpu_input_buffer_dispose draining_session 0).dec.input = draining_session.input ∧
      (__jpu_input_buffer_dispose draining_session 0).dec.output_count
        = draining_session.output_count ∧
      (__jpu_input_buffer_dispose draining_session 0).dec.output_busy
        = draining_session.output_busy ∧
      (∀ n, submissions n (__jpu_input_buffer_dispose draining_session 0).trace = 0) ∧
      Event.signal_flush_wait ∉ (__jpu_input_buffer_dispose draining_session 0).trace) ∧
    ((__jpu_output_buffer_dispose draining_session 5 0 0).ret = true ∧
      ((__jpu_output_buffer_dispose draining_session 5 0 0).dec.output_pool.getD 5 default).priv
        = none ∧
      (__jpu_output_buffer_dispose draining_session 5 0 0).dec.input = draining_session.input ∧
      (__jpu_output_buffer_dispose draining_session 5 0 0).dec.output_count
        = draining_session.output_count ∧
      (__jpu_output_buffer_dispose draining_session 5 0 0).dec.output_busy
        = draining_session.output_busy - 1 ∧
      (∀ n, submissions n (__jpu_output_buffer_dispose draining_session 5 0 0).trace = 0) ∧
      (Event.signal_flush_wait ∈ (__jpu_output_buffer_dispose draining_session 5 0 0).trace ↔
        (__jpu_output_buffer_dispose draining_session 5 0 0).dec.output_busy = 0)) :=
  inactive_dispose_releases draining_session 0 5 0 0 (by decide) (by decide) (by decide)
    (by decide)

/-! ### Frame assembler: sequence counter and format checks -/

theorem disc_bit_kept (x : Nat) : ((x ||| 16) % 256) &&& 16 ≠ 0 := by
  intro h
  have h4 := congrArg (fun z => z.testBit 4) h
  have e : (256 : Nat) = 2 ^ 8 := by decide
  simp only [e, Nat.testBit_and, Nat.testBit_mod_two_pow, Nat.testBit_or] at h4
  have h16 : Nat.testBit 16 4 = true := by decide
  simp [h16] at h4

theorem rx_accepted (c : camera_data) (p : PduIn) (h : p.Accepted) :
    (camera_rx c p).camera.sequence_num = (p.seq + 1) % 256 ∧
    (camera_rx c p).ret = 0 ∧
    (camera_rx c p).disc = (decide (p.seq ≠ c.sequence_num) &&
      decide (c.flags &&& CAMERA_FLAG_INIT_DONE ≠ 0)) := by
  obtain ⟨h1, h2⟩ := h
  unfold PduIn.datalen at h2
  unfold camera_rx camera_pdu_rx
  dsimp only
  rw [if_neg (by rw [h1]; simp), if_neg (by omega)]
  have hret : ∀ c' : camera_data, ¬ (camera_jpeg_parse c' p.get_buffer
      (pdu_get_protocol_header p.pdu) p.tstamp (get_pdu p.pdu)
      (pdu_get_stream_data_length p.pdu)).ret < 0 := by
    intro c'
    have := parse_ret_nonneg c' p.get_buffer (pdu_get_protocol_header p.pdu) p.tstamp
      (get_pdu p.pdu) (pdu_get_stream_data_length p.pdu)
    omega
  rw [if_neg (hret _)]
  exact ⟨rfl, rfl, rfl⟩

theorem feed_in_order_no_disc : ∀ (ps : List PduIn) (c : camera_data),
    (∀ q ∈ ps, q.Accepted) → seqInOrder ps → (∀ q ∈ ps.head?, q.seq = c.sequence_num) →
    ∀ o ∈ (camera_feed c ps).2, o.disc = false := by
  intro ps
  induction ps with
  | nil =>
    intro c _ _ _ o ho
    simp [camera_feed] at ho
  | cons p rest ih =>
    intro c hacc hord hhead o ho
    rw [camera_feed_cons] at ho
    simp only [List.mem_cons] at ho
    obtain ⟨h1, _, h3⟩ := rx_accepted c p (hacc p (List.mem_cons_self _ _))
    rcases ho with ho | ho
    · subst ho
      rw [h3]
      have : p.seq = c.sequence_num := hhead p (by simp)
      simp [this]
    · obtain ⟨g1, g2⟩ := seqInOrder_cons p rest hord
      refine ih (camera_rx c p).camera (fun q hq => hacc q (List.mem_cons_of_mem _ hq)) g2 ?_ o ho
      intro q hq
      rw [h1]
      exact g1 q hq

theorem bit4_clear_iff (x : Nat) : x &&& 16 = 0 ↔ x.testBit 4 = false := by
  have e : (16 : Nat) = 2 ^ 4 := by decide
  constructor
  · intro h
    have h4 := congrArg (fun z => z.testBit 4) h
    have h16 : Nat.testBit 16 4 = true := by decide
    simpa [Nat.testBit_and, h16] using h4
  · intro h
    apply Nat.eq_of_testBit_eq
    intro i
    rw [Nat.testBit_and, e, Nat.testBit_two_pow]
    by_cases hi : 4 = i
    · subst hi
      simp [h]
    · simp [hi]

theorem disc_clear_kept (x : Nat) (h : x &&& 16 = 0) :
    (x % 256) &&& 16 = 0 ∧ ((x ^^^ 2) % 256) &&& 16 = 0 := by
  have e : (256 : Nat) = 2 ^ 8 := by decide
  have h2 : Nat.testBit 2 4 = false := by decide
  rw [bit4_clear_iff] at h
  constructor
  · rw [bit4_clear_iff, e, Nat.testBit_mod_two_pow]
    simp [h]
  · rw [bit4_clear_iff, e, Nat.testBit_mod_two_pow, Nat.testBit_xor]
    simp [h, h2]

theorem copy_disc_clear (c : camera_data) (fl rem inp : Nat) (data : List Nat) (len : Nat)
    (a : Bool) (h : fl &&& 16 = 0) :
    (camera_jpeg_copy c fl rem inp data len a).camera.flags &&& 16 = 0 := by
  unfold camera_jpeg_copy camera_jpeg_drop camera_jpeg_complete
  dsimp only
  split_ifs
  · exact (disc_clear_kept fl h).2
  · exact (disc_clear_kept fl h).2
  · exact (disc_clear_kept fl h).2
  · exact (disc_clear_kept fl h).1

/-- The parser never raises the discontinuity flag. -/
theorem parse_disc_clear (c : camera_data) (g : Option GstBuffer) (ph ts : Nat) (data : List Nat)
    (len : Nat) (h : ¬ DISC_PENDING c) :
    ¬ DISC_PENDING (camera_jpeg_parse c g ph ts data len).camera := by
  unfold DISC_PENDING CAMERA_EVENT_AVBTP_DISC at h ⊢
  have h : c.flags &&& 16 = 0 := by simpa using h
  have hx : ∀ x : Nat, x &&& 16 = 0 → (x ^^^ 2) &&& 16 = 0 := by
    intro x hx
    have h2 : Nat.testBit 2 4 = false := by decide
    rw [bit4_clear_iff] at hx ⊢
    rw [Nat.testBit_xor]
    simp [hx, h2]
  have h3 : (3 : Nat) &&& 16 = 0 := by decide
  rw [not_not]
  unfold camera_jpeg_parse
  simp only [CAMERA_FLAG_INIT_DONE, CAMERA_FLAG_SYNC, CAMERA_EVENT_AVBTP_DISC, h, ne_eq,
    not_true_eq_false, ↓reduceIte]
  have e12 : (1 ||| 2 : Nat) = 3 := by decide
  rw [e12]
  split_ifs
  all_goals first
    | exact h
    | exact (disc_clear_kept _ h).1
    | exact (disc_clear_kept _ h3).1
    | exact copy_disc_clear _ _ _ _ _ _ _ h
    | exact copy_disc_clear _ _ _ _ _ _ _ h3
    | exact copy_disc_clear _ _ _ _ _ _ _ (hx _ h)
    | exact copy_disc_clear _ _ _ _ _ _ _ (hx _ h3)
    | (split
       · split
         · first
           | exact (disc_clear_kept _ h).1
           | exact (disc_clear_kept _ h3).1
         · first
           | exact copy_disc_clear _ _ _ _ _ _ _ (hx _ h)
           | exact copy_disc_clear _ _ _ _ _ _ _ (hx _ h3)
       · first
         | exact copy_disc_clear _ _ _ _ _ _ _ (hx _ h)
         | exact copy_disc_clear _ _ _ _ _ _ _ (hx _ h3))


/-- `camera_pdu_rx` on a packet that passes the format checks: the parser runs on the state in
which the discontinuity flag has been or-ed into the flags word when the sequence number is not
the expected one and the receiver is initialised, and on the state as it was otherwise. -/
theorem rx_accepted_state (c : camera_data) (p : PduIn) (h : p.Accepted) :
    camera_rx c p =
      { camera :=
          { (camera_jpeg_parse
              (if p.seq ≠ c.sequence_num ∧ c.flags &&& CAMERA_FLAG_INIT_DONE ≠ 0 then
                { c with flags := (c.flags ||| CAMERA_EVENT_AVBTP_DISC) % 256 } else c)
              p.get_buffer (pdu_get_protocol_header p.pdu) p.tstamp (get_pdu p.pdu)
              p.datalen).camera with sequence_num := (p.seq + 1) % 256 }
        ret := 0
        pushed := (camera_jpeg_parse
              (if p.seq ≠ c.sequence_num ∧ c.flags &&& CAMERA_FLAG_INIT_DONE ≠ 0 then
                { c with flags := (c.flags ||| CAMERA_EVENT_AVBTP_DISC) % 256 } else c)
              p.get_buffer (pdu_get_protocol_header p.pdu) p.tstamp (get_pdu p.pdu)
              p.datalen).pushed
        acquired := (camera_jpeg_parse
              (if p.seq ≠ c.sequence_num ∧ c.flags &&& CAMERA_FLAG_INIT_DONE ≠ 0 then
                { c with flags := (c.flags ||| CAMERA_EVENT_AVBTP_DISC) % 256 } else c)
              p.get_buffer (pdu_get_protocol_header p.pdu) p.tstamp (get_pdu p.pdu)
              p.datalen).acquired
        disc := decide (p.seq ≠ c.sequence_num) &&
          decide (c.flags &&& CAMERA_FLAG_INIT_DONE ≠ 0) } := by
  obtain ⟨h1, h2⟩ := h
  unfold PduIn.datalen at h2
  have hret : ∀ c' : camera_data, ¬ (camera_jpeg_parse c' p.get_buffer
      (pdu_get_protocol_header p.pdu) p.tstamp (get_pdu p.pdu)
      (pdu_get_stream_data_length p.pdu)).ret < 0 := by
    intro c'
    have := parse_ret_nonneg c' p.get_buffer (pdu_get_protocol_header p.pdu) p.tstamp
      (get_pdu p.pdu) (pdu_get_stream_data_length p.pdu)
    omega
  unfold camera_rx camera_pdu_rx
  dsimp only
  rw [if_neg (by rw [h1]; simp), if_neg (by omega), if_neg (hret _)]
  simp only [PduIn.seq, PduIn.datalen, Bool.and_eq_true, decide_eq_true_eq]

theorem rx_in_order_disc_clear (c : camera_data) (p : PduIn) (h : p.Accepted)
    (hseq : p.seq = c.sequence_num ∨ c.flags &&& CAMERA_FLAG_INIT_DONE = 0)
    (hd : ¬ DISC_PENDING c) : ¬ DISC_PENDING (camera_rx c p).camera := by
  rw [rx_accepted_state c p h, if_neg (by tauto)]
  exact parse_disc_clear c _ _ _ _ _ hd

theorem feed_in_order_counter : ∀ (ps : List PduIn) (c : camera_data),
    (∀ q ∈ ps, q.Accepted) → seqInOrder ps → (∀ q ∈ ps.head?, q.seq = c.sequence_num) →
    ∀ k q, ps.get? k = some q → (camera_feed c (ps.take k)).1.sequence_num = q.seq := by
  intro ps
  induction ps with
  | nil => intro c _ _ _ k q hq; simp at hq
  | cons p rest ih =>
    intro c hacc hord hhead k q hq
    cases k with
    | zero =>
      simp only [List.get?_cons_zero, Option.some.injEq] at hq
      subst hq
      simp only [List.take_zero, camera_feed]
      exact (hhead p (by simp)).symm
    | succ k =>
      simp only [List.get?_cons_succ] at hq
      rw [List.take_succ_cons, camera_feed_cons]
      obtain ⟨g1, g2⟩ := seqInOrder_cons p rest hord
      refine ih (camera_rx c p).camera (fun x hx => hacc x (List.mem_cons_of_mem _ hx)) g2 ?_ k q hq
      intro x hx
      rw [(rx_accepted c p (hacc p (List.mem_cons_self _ _))).1]
      exact g1 x hx

theorem feed_in_order_disc_clear : ∀ (ps : List PduIn) (c : camera_data),
    (∀ q ∈ ps, q.Accepted) → seqInOrder ps → (∀ q ∈ ps.head?, q.seq = c.sequence_num) →
    ¬ DISC_PENDING c → ∀ k, ¬ DISC_PENDING (camera_feed c (ps.take k)).1 := by
  intro ps
  induction ps with
  | nil => intro c _ _ _ hd k; simpa [camera_feed] using hd
  | cons p rest ih =>
    intro c hacc hord hhead hd k
    cases k with
    | zero => simpa [camera_feed] using hd
    | succ k =>
      rw [List.take_succ_cons, camera_feed_cons]
      obtain ⟨g1, g2⟩ := seqInOrder_cons p rest hord
      refine ih (camera_rx c p).camera (fun x hx => hacc x (List.mem_cons_of_mem _ hx)) g2 ?_
        (rx_in_order_disc_clear c p (hacc p (List.mem_cons_self _ _))
          (Or.inl (hhead p (by simp))) hd) k
      intro x hx
      rw [(rx_accepted c p (hacc p (List.mem_cons_self _ _))).1]
      exact g1 x hx

/-- C15: a packet that passes the format checks leaves the expected counter at its sequence
number plus one modulo 256, whatever the counter was. On an initialised receiver a packet whose
sequence number differs from the counter has the discontinuity flag or-ed into `camera.flags`
before the parser runs (it is pending afterwards when the parser ignores the packet); a packet
that carries the expected number is parsed on the flags word as it was. So each packet of a run
with sequence numbers increasing by 1 modulo 256 is parsed on the state that its predecessor
left, and from a state with no discontinuity pending the flag is never pending along such a
run. -/
theorem sequence_counter_resynchronises (c : camera_data) (p : PduIn) (rest : List PduIn)
    (hacc : ∀ q ∈ p :: rest, q.Accepted) (hord : seqInOrder (p :: rest)) :
    (camera_rx c p).camera.sequence_num = (p.seq + 1) % 256 ∧
    (c.flags &&& CAMERA_FLAG_INIT_DONE ≠ 0 → p.seq ≠ c.sequence_num →
      (camera_rx c p).camera =
        { (camera_jpeg_parse { c with flags := (c.flags ||| CAMERA_EVENT_AVBTP_DISC) % 256 }
            p.get_buffer (pdu_get_protocol_header p.pdu) p.tstamp (get_pdu p.pdu)
            p.datalen).camera with sequence_num := (p.seq + 1) % 256 } ∧
      DISC_PENDING { c with flags := (c.flags ||| CAMERA_EVENT_AVBTP_DISC) % 256 } ∧
      (p.datalen ≤ 2 → DISC_PENDING (camera_rx c p).camera)) ∧
    ((p.seq = c.sequence_num ∨ c.flags &&& CAMERA_FLAG_INIT_DONE = 0) →
      (camera_rx c p).camera =
        { (camera_jpeg_parse c p.get_buffer (pdu_get_protocol_header p.pdu) p.tstamp
            (get_pdu p.pdu) p.datalen).camera with sequence_num := (p.seq + 1) % 256 } ∧
      (¬ DISC_PENDING c → ¬ DISC_PENDING (camera_rx c p).camera)) ∧
    (c.flags &&& CAMERA_FLAG_INIT_DONE ≠ 0 →
      ((camera_rx c p).disc = true ↔ p.seq ≠ c.sequence_num)) ∧
    (∀ o ∈ (camera_feed (camera_rx c p).camera rest).2, o.disc = false) ∧
    (p.seq = c.sequence_num → ∀ o ∈ (camera_feed c (p :: rest)).2, o.disc = false) ∧
    (∀ k q, rest.get? k = some q →
      (camera_rx (camera_feed (camera_rx c p).camera (rest.take k)).1 q).camera =
        { (camera_jpeg_parse (camera_feed (camera_rx c p).camera (rest.take k)).1
            q.get_buffer (pdu_get_protocol_header q.pdu) q.tstamp (get_pdu q.pdu)
            q.datalen).camera with sequence_num := (q.seq + 1) % 256 }) ∧
    (¬ DISC_PENDING c → p.seq = c.sequence_num →
      ∀ k, ¬ DISC_PENDING (camera_feed c ((p :: rest).take k)).1) := by
  have hp := hacc p (List.mem_cons_self _ _)
  have hrest : ∀ q ∈ rest, q.Accepted := fun q hq => hacc q (List.mem_cons_of_mem _ hq)
  obtain ⟨h1, _, h3⟩ := rx_accepted c p hp
  obtain ⟨g1, g2⟩ := seqInOrder_cons p rest hord
  have hhead : ∀ q ∈ rest.head?, q.seq = (camera_rx c p).camera.sequence_num := by
    intro q hq
    rw [h1]
    exact g1 q hq
  have hstate : ∀ c1 : camera_data,
      c1 = (if (decide (pdu_get_sequence_number p.pdu ≠ c.sequence_num) &&
          decide (c.flags &&& CAMERA_FLAG_INIT_DONE ≠ 0)) = true
        then { c with flags := (c.flags ||| CAMERA_EVENT_AVBTP_DISC) % 256 } else c) →
      (camera_rx c p).camera =
        { (camera_jpeg_parse c1 p.get_buffer (pdu_get_protocol_header p.pdu) p.tstamp
            (get_pdu p.pdu) p.datalen).camera with sequence_num := (p.seq + 1) % 256 } := by
    intro c1 hc1
    have hret : ¬ (camera_jpeg_parse c1 p.get_buffer (pdu_get_protocol_header p.pdu) p.tstamp
        (get_pdu p.pdu) (pdu_get_stream_data_length p.pdu)).ret < 0 := by
      have := parse_ret_nonneg c1 p.get_buffer (pdu_get_protocol_header p.pdu) p.tstamp
        (get_pdu p.pdu) (pdu_get_stream_data_length p.pdu)
      omega
    have hsub := hp.1
    have hdecl := hp.2
    unfold PduIn.datalen at hdecl
    unfold camera_rx camera_pdu_rx
    dsimp only
    rw [if_neg (by rw [hsub]; simp), if_neg (by omega), ← hc1, if_neg hret]
    rfl
  refine ⟨h1, ?_, ?_, ?_, ?_, ?_, ?_, ?_⟩
  · intro hi hseq
    have hrx := hstate { c with flags := (c.flags ||| CAMERA_EVENT_AVBTP_DISC) % 256 }
      (by
        unfold PduIn.seq at hseq
        simp [hseq, hi])
    refine ⟨hrx, disc_bit_kept c.flags, ?_⟩
    intro hshort
    rw [hrx, parse_short _ _ _ _ _ _ hshort]
    exact disc_bit_kept c.flags
  · intro hseq
    have hrx := hstate c (by
      unfold PduIn.seq at hseq
      rcases hseq with h | h <;> simp [h])
    exact ⟨hrx, rx_in_order_disc_clear c p hp hseq⟩
  · intro hi
    rw [h3]
    simp [hi]
  · exact feed_in_order_no_disc rest _ hrest g2 hhead
  · intro hseq
    exact feed_in_order_no_disc (p :: rest) c hacc hord (fun q hq => by
      simp only [List.head?_cons, Option.mem_def, Option.some.injEq] at hq
      subst hq
      exact hseq)
  · intro k q hq
    have hq' : q ∈ rest := List.get?_mem hq
    have hc := feed_in_order_counter rest _ hrest g2 hhead k q hq
    rw [rx_accepted_state _ q (hrest q hq'), if_neg (by intro h; exact h.1 hc.symm)]
  · intro hd hseq
    exact feed_in_order_disc_clear (p :: rest) c hacc hord (fun q hq => by
      simp only [List.head?_cons, Option.mem_def, Option.some.injEq] at hq
      subst hq
      exact hseq) hd

theorem sequence_counter_resynchronises_witness :
    (camera_rx c3_collecting c15_gap).camera.sequence_num = (c15_gap.seq + 1) % 256 ∧
    ((camera_rx c3_collecting c15_gap).camera =
        { (camera_jpeg_parse
            { c3_collecting with
              flags := (c3_collecting.flags ||| CAMERA_EVENT_AVBTP_DISC) % 256 }
            c15_gap.get_buffer (pdu_get_protocol_header c15_gap.pdu) c15_gap.tstamp
            (get_pdu c15_gap.pdu) c15_gap.datalen).camera with
          sequence_num := (c15_gap.seq + 1) % 256 } ∧
      DISC_PENDING
        { c3_collecting with
          flags := (c3_collecting.flags ||| CAMERA_EVENT_AVBTP_DISC) % 256 } ∧
      (c15_gap.datalen ≤ 2 → DISC_PENDING (camera_rx c3_collecting c15_gap).camera)) ∧
    (∀ o ∈ (camera_feed (camera_rx c3_collecting c15_gap).camera c15_run.tail).2,
      o.disc = false) ∧
    DISC_PENDING (camera_rx c3_collecting c15_short_gap).camera ∧
    (∀ k, ¬ DISC_PENDING (camera_feed c3_collecting (c15_in_order.take k)).1) ∧
    c3_collecting.flags = 1 ∧
    (camera_rx c3_collecting c15_short_gap).camera.flags = 17 ∧
    (camera_rx c3_collecting c15_gap).camera.flags = 3 :=
  ⟨(sequence_counter_resynchronises c3_collecting c15_gap c15_run.tail (by decide)
      (by decide)).1,
    (sequence_counter_resynchronises c3_collecting c15_gap c15_run.tail (by decide)
      (by decide)).2.1 (by decide) (by decide),
    (sequence_counter_resynchronises c3_collecting c15_gap c15_run.tail (by decide)
      (by decide)).2.2.2.2.1,
    ((sequence_counter_resynchronises c3_collecting c15_short_gap [] (by decide)
      (by decide)).2.1 (by decide) (by decide)).2.2 (by decide),
    (sequence_counter_resynchronises c3_collecting (mkPduIn 1 [1, 2, 3] 200 none)
      [mkPduIn 2 [4, 5, 6] 300 none, mkPduIn 3 [7, 8, 9] 400 none] (by decide)
      (by decide)).2.2.2.2.2.2.2 (by decide) (by decide),
    by decide, by decide, by decide⟩

/-- C16: a packet whose subtype is not 0x02, or whose length is smaller than the declared
stream-data length plus the 24-byte header, makes `camera_pdu_rx` return `-EPROTO` with the
receiver state unchanged, nothing pushed, no buffer requested and no discontinuity raised. -/
theorem malformed_pdu_is_dropped (c : camera_data) (g : Option GstBuffer) (pdu : List Nat)
    (length tstamp : Nat)
    (h : pdu_get_subtype pdu ≠ 0x2 ∨ length < pdu_get_stream_data_length pdu + 24) :
    camera_pdu_rx c g pdu length tstamp =
      { camera := c, ret := -EPROTO, pushed := none, acquired := false, disc := false } := by
  unfold camera_pdu_rx
  dsimp only
  by_cases h1 : pdu_get_subtype pdu ≠ 0x2
  · rw [if_pos h1]
  · rw [if_neg h1]
    rcases h with h | h
    · exact absurd h h1
    · rw [if_pos (by unfold NETIF_HEADER_LENGTH; omega)]

theorem malformed_pdu_is_dropped_witness :
    camera_pdu_rx c3_collecting (some buf16) c16_pdu 27 500 =
      { camera := c3_collecting, ret := -EPROTO, pushed := none, acquired := false,
        disc := false } :=
  malformed_pdu_is_dropped c3_collecting (some buf16) c16_pdu 27 500 (Or.inl (by decide))

theorem copy_overflow (c : camera_data) (fl rem inp : Nat) (data : List Nat) (len : Nat)
    (a : Bool) (h : rem < len) :
    camera_jpeg_copy c fl rem inp data len a = camera_jpeg_drop c (fl ^^^ CAMERA_FLAG_SYNC) a := by
  unfold camera_jpeg_copy
  rw [if_pos h]

theorem copy_acquired (c : camera_data) (fl rem inp : Nat) (data : List Nat) (len : Nat)
    (a : Bool) : (camera_jpeg_copy c fl rem inp data len a).acquired = a := by
  unfold camera_jpeg_copy camera_jpeg_drop camera_jpeg_complete
  dsimp only
  split_ifs <;> rfl

theorem copy_misaligned (c : camera_data) (rem inp : Nat) (data : List Nat) (len : Nat) (a : Bool)
    (hin : inp ≤ c.map.data.length) (hlen : (data.take len).length = len) (h3 : 2 < len)
    (hfit : len ≤ rem) (hna : ¬ eoiAligned (data.take len))
    (heoi : eoiMisaligned (data.take len)) :
    camera_jpeg_copy c 1 rem inp data len a =
      camera_jpeg_complete c 1 (memcpy c.map.data inp (data.take len)) (inp + len - 1) a := by
  unfold eoiAligned at hna
  unfold eoiMisaligned at heoi
  rw [hlen] at hna heoi
  have p2 := probe_memcpy c.map.data (data.take len) inp 2 hin (by omega) (by omega)
  have p3 := probe_memcpy c.map.data (data.take len) inp 3 hin (by omega) (by omega)
  rw [hlen] at p2 p3
  unfold camera_jpeg_copy
  dsimp only
  rw [if_neg (by omega), if_neg (by rw [p2]; exact hna), if_pos (by rw [p3]; exact heoi)]

theorem collecting_flags (c : camera_data) (hinv : CameraInv c) (hcol : COLLECTING c)
    (hnd : ¬ DISC_PENDING c) : c.flags = 1 := by
  unfold COLLECTING at hcol
  unfold DISC_PENDING at hnd
  rcases hinv.1 with h | h | h | h | h <;>
    simp [h, CAMERA_FLAG_INIT_DONE, CAMERA_FLAG_SYNC, CAMERA_EVENT_AVBTP_DISC, flag_bits]
      at hcol hnd ⊢

/-- C17 (amended): while the receiver is collecting, a payload longer than 2 bytes that exceeds
the remaining capacity is not copied and nothing is pushed; the receiver goes back to searching
with the same buffer, write offset and mapped memory, and the next packet longer than 2 bytes
that starts with SOI starts a frame at the first byte of that buffer, with its full size
remaining and without a call of `get_buffer`. -/
theorem overflow_keeps_buffer (c : camera_data) (hdr : GstBuffer) (g : Option GstBuffer)
    (ph ts : Nat) (data : List Nat) (len : Nat)
    (hreach : CameraReachable c) (hcol : COLLECTING c) (hnd : ¬ DISC_PENDING c)
    (hb : c.buffer = some hdr) (h3 : 2 < len) (hover : c.remaining < len) :
    camera_jpeg_parse c g ph ts data len =
      { camera := { c with flags := 3 }, ret := 1, pushed := none, acquired := false } ∧
    SEARCHING { c with flags := 3 } ∧
    ∀ (p : PduIn) (g2 : Option GstBuffer) (ph2 ts2 : Nat), p.WellFormed → startsFrame p →
      (camera_jpeg_parse { c with flags := 3 } g2 ph2 ts2 (get_pdu p.pdu) p.datalen).acquired
        = false ∧
      (p.payload.length ≤ hdr.size → ¬ eoiCheck p.payload →
        Collecting (camera_jpeg_parse { c with flags := 3 } g2 ph2 ts2 (get_pdu p.pdu)
          p.datalen).camera hdr hdr.size p.payload) ∧
      (∀ f, (camera_jpeg_parse { c with flags := 3 } g2 ph2 ts2 (get_pdu p.pdu)
          p.datalen).pushed = some f → f.bytes <+: p.payload) := by
  have hinv := reachable_inv c hreach
  have hf := collecting_flags c hinv hcol hnd
  refine ⟨?_, ?_, ?_⟩
  · rw [parse_collect c g ph ts data len h3 hf, copy_overflow _ _ _ _ _ _ _ hover]
    simp [camera_jpeg_drop, CAMERA_FLAG_SYNC]
  · simp [SEARCHING, CAMERA_FLAG_INIT_DONE, CAMERA_FLAG_SYNC, flag_bits]
  · intro p g2 ph2 ts2 hwf hs
    have hres : Resync { c with flags := 3 } hdr := ⟨Or.inl rfl, hb, hinv.2.2 hdr hb⟩
    have hlen : ((get_pdu p.pdu).take p.datalen).length = p.datalen := payload_length p hwf
    have h3' : 2 < p.datalen := by rw [← payload_length p hwf]; exact hs.1
    rw [parse_resync_start _ hdr p hres hwf hs g2 ph2 ts2]
    obtain ⟨r1, r2⟩ := copy_restart { c with flags := 3 } hdr (get_pdu p.pdu) p.datalen false hb
      hlen h3'
    exact ⟨copy_acquired _ _ _ _ _ _ _,
      fun h1 h2 => r1 (by rw [payload_length p hwf] at h1; exact h1) h2, r2⟩

theorem c17_full_reachable : CameraReachable c17_full :=
  CameraReachable.rx _ _ (CameraReachable.created _ rfl rfl)

theorem overflow_keeps_buffer_witness :
    camera_jpeg_parse c17_full none 0 200 [1, 2, 3] 3 =
      { camera := { c17_full with flags := 3 }, ret := 1, pushed := none, acquired := false } ∧
    SEARCHING { c17_full with flags := 3 } ∧
    ∀ (p : PduIn) (g2 : Option GstBuffer) (ph2 ts2 : Nat), p.WellFormed → startsFrame p →
      (camera_jpeg_parse { c17_full with flags := 3 } g2 ph2 ts2 (get_pdu p.pdu)
        p.datalen).acquired = false ∧
      (p.payload.length ≤ ({ buf4 with dts := 100, pts := 100 } : GstBuffer).size →
        ¬ eoiCheck p.payload →
        Collecting (camera_jpeg_parse { c17_full with flags := 3 } g2 ph2 ts2 (get_pdu p.pdu)
          p.datalen).camera { buf4 with dts := 100, pts := 100 }
          ({ buf4 with dts := 100, pts := 100 } : GstBuffer).size p.payload) ∧
      (∀ f, (camera_jpeg_parse { c17_full with flags := 3 } g2 ph2 ts2 (get_pdu p.pdu)
          p.datalen).pushed = some f → f.bytes <+: p.payload) :=
  overflow_keeps_buffer c17_full { buf4 with dts := 100, pts := 100 } none 0 200 [1, 2, 3] 3
    c17_full_reachable (by decide) (by decide) (by decide) (by decide) (by decide)

/-- C17 as stated fails: the receiver is collecting with no capacity left, a payload of two
bytes exceeds the remaining capacity, and the receiver stays collecting instead of going back
to searching. -/
theorem short_overflow_stays_collecting :
    CameraReachable c17_full ∧ COLLECTING c17_full ∧ ¬ DISC_PENDING c17_full ∧
    c17_full.remaining < ([0xAA, 0xBB] : List Nat).length ∧
    COLLECTING (camera_jpeg_parse c17_full none 0 200 [0xAA, 0xBB] 2).camera ∧
    ¬ SEARCHING (camera_jpeg_parse c17_full none 0 200 [0xAA, 0xBB] 2).camera ∧
    ¬ SEARCHING (camera_rx c17_full (mkPduIn 1 [0xAA, 0xBB] 200 none)).camera :=
  ⟨c17_full_reachable, by decide, by decide, by decide, by decide, by decide, by decide⟩

theorem copy_eoi_outcome (c : camera_data) (hdr : GstBuffer) (rem : Nat) (w data : List Nat)
    (len : Nat) (a : Bool)
    (hb : c.buffer = some hdr) (hw : c.map.data.take w.length = w)
    (hin : w.length ≤ c.map.data.length)
    (hlen : (data.take len).length = len) (h3 : 2 < len) (hfit : len ≤ rem) :
    EoiOutcome (camera_jpeg_copy c 1 rem w.length data len a) w (data.take len) := by
  have htk := take_memcpy c.map.data (data.take len) w.length hin
  rw [hw, hlen] at htk
  have hsearch : ∀ c' : camera_data, c'.flags = 3 → SEARCHING c' := by
    intro c' h
    simp [SEARCHING, h, CAMERA_FLAG_INIT_DONE, CAMERA_FLAG_SYNC, flag_bits]
  have hal : eoiAligned (data.take len) →
      ∃ f, (camera_jpeg_copy c 1 rem w.length data len a).pushed = some f ∧
        f.size = (w ++ data.take len).length ∧ f.bytes = w ++ data.take len ∧
        (camera_jpeg_copy c 1 rem w.length data len a).camera.buffer = none ∧
        SEARCHING (camera_jpeg_copy c 1 rem w.length data len a).camera ∧
        (camera_jpeg_copy c 1 rem w.length data len a).ret = 0 := by
    intro heoi
    rw [copy_complete c rem w.length data len a hin hlen h3 hfit heoi]
    refine ⟨{ hdr with mem := memcpy c.map.data w.length (data.take len),
                       size := w.length + len },
      by simp [camera_jpeg_complete, hb], by simp [hlen], ?_, rfl, hsearch _ rfl, rfl⟩
    simpa [GstBuffer.bytes] using htk
  have hmis : ¬ eoiAligned (data.take len) → eoiMisaligned (data.take len) →
      ∃ f, (camera_jpeg_copy c 1 rem w.length data len a).pushed = some f ∧
        f.size = (w ++ data.take len).length - 1 ∧ f.bytes = (w ++ data.take len).dropLast ∧
        (camera_jpeg_copy c 1 rem w.length data len a).camera.buffer = none ∧
        SEARCHING (camera_jpeg_copy c 1 rem w.length data len a).camera ∧
        (camera_jpeg_copy c 1 rem w.length data len a).ret = 0 := by
    intro hna heoi
    rw [copy_misaligned c rem w.length data len a hin hlen h3 hfit hna heoi]
    refine ⟨{ hdr with mem := memcpy c.map.data w.length (data.take len),
                       size := w.length + len - 1 },
      by simp [camera_jpeg_complete, hb], by simp [hlen], ?_, rfl, hsearch _ rfl, rfl⟩
    simp only [GstBuffer.bytes]
    rw [List.dropLast_eq_take, ← htk, List.take_take]
    simp only [List.length_take, memcpy, List.length_append, List.length_drop, hlen]
    congr 1
    omega
  refine ⟨?_, hal, hmis⟩
  constructor
  · intro hp
    by_contra hno
    rw [copy_append c rem w.length data len a hin hlen h3 hfit hno] at hp
    exact hp rfl
  · intro hchk
    by_cases ha : eoiAligned (data.take len)
    · obtain ⟨f, hf, _⟩ := hal ha
      rw [hf]
      simp
    · rcases hchk with h | h
      · exact absurd h ha
      · obtain ⟨f, hf, _⟩ := hmis ha h
        rw [hf]
        simp

/-- C18 (amended): when `camera_jpeg_parse` appends a payload longer than 2 bytes that fits the
remaining capacity, it completes the frame if and only if `0xFFD9` is found in the last two
written bytes or in the two bytes before the last one. On the first match the pushed size is
the number of bytes written since SOI, on the second it is one less, the byte after the marker
being left out; on either the buffer reference is cleared and the receiver is searching. -/
theorem eoi_completes_frame (c : camera_data) (g : Option GstBuffer) (ph ts : Nat)
    (data : List Nat) (len : Nat) (hdr : GstBuffer) (cap : Nat) (w : List Nat)
    (happ : Appends c g ts data hdr cap w)
    (hlen : (data.take len).length = len) (h3 : 2 < len) (hfit : w.length + len ≤ cap) :
    EoiOutcome (camera_jpeg_parse c g ph ts data len) w (data.take len) := by
  cases happ with
  | collecting hc =>
    rw [parse_collect c g ph ts data len h3 hc.flags, hc.input]
    exact copy_eoi_outcome c hdr c.remaining w data len false hc.buffer hc.written hc.inside
      hlen h3 (by have := hc.remaining; omega)
  | restart hres hsoi hw hcap =>
    subst hw
    have hf : c.flags = 0 ∨ c.flags = 3 ∨ c.flags = 17 ∨ c.flags = 19 := by
      rcases hres.flags with h | h
      · exact Or.inr (Or.inl h)
      · exact Or.inr (Or.inr (Or.inl h))
    rw [parse_sync_held c g ph ts data len h3 hf hsoi hdr hres.buffer]
    exact copy_eoi_outcome c hdr c.map.size [] data len false hres.buffer (by simp) (by simp)
      hlen h3 (by rw [hres.size]; simp at hfit; omega)
  | start b hf hnone hsoi hg hhdr hw hcap =>
    subst hw hg hhdr
    rw [parse_sync_acq c ph ts data len h3 hf hsoi hnone b]
    exact copy_eoi_outcome _ { b with dts := ts, pts := ts } b.size [] data len true rfl
      (by simp) (by simp) hlen h3 (by simp at hfit; omega)

theorem c3_collecting_state : Collecting c3_collecting c3_hdr 16 [0xFF, 0xD8, 1] :=
  ⟨by decide, by decide, by decide, by decide, by decide, by decide⟩

theorem eoi_completes_frame_witness :
    EoiOutcome (camera_jpeg_parse c3_collecting none 0 200 [2, 0xFF, 0xD9, 0] 4)
      [0xFF, 0xD8, 1] (([2, 0xFF, 0xD9, 0] : List Nat).take 4) :=
  eoi_completes_frame c3_collecting none 0 200 [2, 0xFF, 0xD9, 0] 4 c3_hdr 16 [0xFF, 0xD8, 1]
    (Appends.collecting c3_collecting_state) (by decide) (by decide) (by decide)

/-- C18 as stated fails: seven bytes have been written since SOI when the marker is found one
byte before the end, and the pushed buffer has size 6. -/
theorem misaligned_eoi_drops_last_byte :
    Collecting c3_collecting c3_hdr 16 [0xFF, 0xD8, 1] ∧
    eoiMisaligned [2, 0xFF, 0xD9, 0] ∧
    (camera_jpeg_parse c3_collecting none 0 200 [2, 0xFF, 0xD9, 0] 4).camera.map.data.take 7
      = [0xFF, 0xD8, 1, 2, 0xFF, 0xD9, 0] ∧
    (camera_jpeg_parse c3_collecting none 0 200 [2, 0xFF, 0xD9, 0] 4).pushed.map
      (fun f => (f.size, f.bytes)) = some (6, [0xFF, 0xD8, 1, 2, 0xFF, 0xD9]) :=
  ⟨c3_collecting_state, by decide, by decide, by decide⟩

/-! ### Packet ring: read and pending count -/

theorem takeWhile_range'_spec (p : Nat → Bool) : ∀ (N a : Nat),
    ((List.range' a N).takeWhile p).length ≤ N ∧
    (∀ i < ((List.range' a N).takeWhile p).length, p (a + i) = true) ∧
    (((List.range' a N).takeWhile p).length < N →
      p (a + ((List.range' a N).takeWhile p).length) = false) := by
  intro N
  induction N with
  | zero =>
    intro a
    simp
  | succ N ih =>
    intro a
    rw [List.range'_succ, List.takeWhile_cons]
    by_cases hp : p a = true
    · rw [if_pos hp]
      obtain ⟨h1, h2, h3⟩ := ih (a + 1)
      simp only [List.length_cons]
      refine ⟨by omega, ?_, ?_⟩
      · intro i hi
        rcases i with _ | i
        · simpa using hp
        · have := h2 i (by omega)
          rwa [show a + 1 + i = a + (i + 1) by omega] at this
      · intro hlt
        have := h3 (by omega)
        rwa [show a + 1 + ((List.range' (a + 1) N).takeWhile p).length
          = a + (((List.range' (a + 1) N).takeWhile p).length + 1) by omega] at this
    · rw [if_neg hp]
      simp only [List.length_nil, Nat.add_zero]
      refine ⟨by omega, fun i hi => absurd hi (by omega), fun _ => ?_⟩
      simpa using hp

theorem pending_run_spec (s : netif_stream) (N : Nat) :
    pending_run s N ≤ N ∧
    (∀ i < pending_run s N, user_owned s ((s.rx_read_idx + i) % N)) ∧
    (pending_run s N < N → ¬ user_owned s ((s.rx_read_idx + pending_run s N) % N)) := by
  obtain ⟨h1, h2, h3⟩ := takeWhile_range'_spec
    (fun i => decide (user_owned s ((s.rx_read_idx + i) % N))) N 0
  unfold pending_run
  rw [List.range_eq_range']
  refine ⟨h1, ?_, ?_⟩
  · intro i hi
    have := h2 i hi
    simpa using this
  · intro hlt
    have := h3 hlt
    simpa using this

/-- C19: `netif_stream_read` looks at the frame at the read index only. If the frame is owned
by user space, it is returned and the read index becomes `(index + 1) AND mask`, at most the
mask, with the mask and every status word as before; if it is not, the function returns none
and the stream is unchanged. Two streams that agree on the read index, the mask and the status
word at the read index get the same answer. -/
theorem read_inspects_cursor_frame (s : netif_stream) :
    (user_owned s s.rx_read_idx →
      netif_stream_read s =
        ({ s with rx_read_idx := (s.rx_read_idx + 1) &&& s.rx_ring_mask }, some s.rx_read_idx) ∧
      (netif_stream_read s).1.tp_status = s.tp_status ∧
      (netif_stream_read s).1.rx_ring_mask = s.rx_ring_mask ∧
      (netif_stream_read s).1.rx_read_idx < s.rx_ring_mask + 1) ∧
    (¬ user_owned s s.rx_read_idx → netif_stream_read s = (s, none)) ∧
    (∀ s2 : netif_stream, s2.rx_read_idx = s.rx_read_idx → s2.rx_ring_mask = s.rx_ring_mask →
      frame_tp_status s2 s.rx_read_idx = frame_tp_status s s.rx_read_idx →
      (netif_stream_read s2).2 = (netif_stream_read s).2 ∧
      (netif_stream_read s2).1.rx_read_idx = (netif_stream_read s).1.rx_read_idx) := by
  refine ⟨?_, read_not_user s, ?_⟩
  · intro hu
    rw [read_user s hu]
    refine ⟨rfl, rfl, rfl, ?_⟩
    exact Nat.lt_succ_of_le Nat.and_le_right
  · intro s2 h1 h2 h3
    by_cases hu : user_owned s s.rx_read_idx
    · have hu2 : user_owned s2 s2.rx_read_idx := by
        unfold user_owned at hu ⊢
        rw [h1, h3]
        exact hu
      rw [read_user s hu, read_user s2 hu2]
      simp [h1, h2]
    · have hu2 : ¬ user_owned s2 s2.rx_read_idx := by
        unfold user_owned at hu ⊢
        rw [h1, h3]
        exact hu
      rw [read_not_user s hu, read_not_user s2 hu2]
      exact ⟨rfl, h1⟩

/-- C20: on a ring of `2 ^ n` frames (a `u16` count of frames) with the read index inside the
ring, `netif_stream_rx_pending` ends and returns the length of the longest run of consecutive
user-owned frames from the read index, wrapping modulo the ring size and capped at it. -/
theorem rx_pending_counts_run (s : netif_stream) (n fuel : Nat)
    (hn : 2 ^ n < 65536) (hmask : s.rx_ring_mask = 2 ^ n - 1) (hidx : s.rx_read_idx < 2 ^ n)
    (hfuel : 2 ^ n < fuel) :
    netif_stream_rx_pending s fuel = some (pending_run s (2 ^ n)) ∧
    pending_run s (2 ^ n) ≤ 2 ^ n := by
  obtain ⟨h1, h2, h3⟩ := pending_run_spec s (2 ^ n)
  refine ⟨?_, h1⟩
  have := rx_pending_loop_spec s n hmask (pending_run s (2 ^ n)) fuel s.rx_read_idx 0
    (by omega) (by omega) (by omega) hidx h2 (by rw [Nat.zero_add]; exact h3)
  rw [Nat.zero_add] at this
  exact this

theorem rx_pending_counts_run_witness :
    netif_stream_rx_pending wrapped_ring 5 = some (pending_run wrapped_ring (2 ^ 2)) ∧
    pending_run wrapped_ring (2 ^ 2) ≤ 2 ^ 2 :=
  rx_pending_counts_run wrapped_ring 2 5 (by decide) (by decide) (by decide) (by decide)

/-! ### Packet ring: purge and network source -/

theorem status_set_self (st : List Nat) (x : Nat) (hx : x < st.length) (s : netif_stream) :
    frame_tp_status { s with tp_status := __nbuf_rx_done st x } x = TP_STATUS_KERNEL := by
  simp [__nbuf_rx_done, frame_tp_status, List.getD_eq_getElem?_getD, hx]

theorem status_set_ne (st : List Nat) (x y : Nat) (hxy : x ≠ y) (s : netif_stream) :
    frame_tp_status { s with tp_status := __nbuf_rx_done st x } y
      = frame_tp_status { s with tp_status := st } y := by
  simp [__nbuf_rx_done, frame_tp_status, List.getD_eq_getElem?_getD, List.getElem?_set_ne hxy]

theorem rx_purge_loop_spec (n : Nat) : ∀ (m fuel : Nat) (s : netif_stream) (idx : Nat),
    m < fuel → s.rx_ring_mask = 2 ^ n - 1 → s.tp_status.length = 2 ^ n → idx < 2 ^ n →
    m ≤ 2 ^ n → (∀ i < m, user_owned s ((idx + i) % 2 ^ n)) →
    (m < 2 ^ n → ¬ user_owned s ((idx + m) % 2 ^ n)) →
    ∃ s1, rx_purge_loop fuel s idx = some (s1, (idx + m) % 2 ^ n) ∧
      s1.rx_read_idx = s.rx_read_idx ∧ s1.rx_ring_mask = s.rx_ring_mask ∧
      s1.tp_status.length = s.tp_status.length ∧
      (∀ i < m, frame_tp_status s1 ((idx + i) % 2 ^ n) = TP_STATUS_KERNEL) ∧
      (∀ x, (∀ i < m, x ≠ (idx + i) % 2 ^ n) → frame_tp_status s1 x = frame_tp_status s x) := by
  have hN : 0 < 2 ^ n := Nat.pow_pos (by decide)
  intro m
  induction m with
  | zero =>
    intro fuel s idx hf hm hl hi _ _ hstop
    obtain ⟨f, rfl⟩ : ∃ f, fuel = f + 1 := ⟨fuel - 1, by omega⟩
    have h0 := hstop hN
    rw [Nat.add_zero, Nat.mod_eq_of_lt hi] at h0
    unfold user_owned at h0
    refine ⟨s, ?_, rfl, rfl, rfl, fun i hi' => absurd hi' (by omega), fun _ _ => rfl⟩
    rw [rx_purge_loop, if_neg h0, Nat.add_zero, Nat.mod_eq_of_lt hi]
  | succ m ih =>
    intro fuel s idx hf hm hl hi hmN hu hstop
    obtain ⟨f, rfl⟩ : ∃ f, fuel = f + 1 := ⟨fuel - 1, by omega⟩
    have h0 := hu 0 (by omega)
    rw [Nat.add_zero, Nat.mod_eq_of_lt hi] at h0
    have hne : ∀ i, i < m → idx ≠ (idx + 1 + i) % 2 ^ n := by
      intro i him e
      have := mod_ne_of_lt (2 ^ n) idx (idx + 1 + i) (by omega) (by omega)
      rw [Nat.mod_eq_of_lt hi] at this
      exact this e
    obtain ⟨s1, e1, e2, e3, e4, e5, e6⟩ := ih f (netif_stream_rx_done s idx) ((idx + 1) % 2 ^ n)
      (by omega) hm (by rw [(rx_done_fields s idx).2.2]; exact hl) (Nat.mod_lt _ hN) (by omega)
      (by
        intro i him
        rw [Nat.mod_add_mod]
        have := hu (i + 1) (by omega)
        rw [show idx + (i + 1) = idx + 1 + i by omega] at this
        unfold user_owned at this ⊢
        rw [rx_done_status_ne s idx _ (hne i him)]
        exact this)
      (by
        intro hlt
        rw [Nat.mod_add_mod]
        by_cases hfull : m + 1 < 2 ^ n
        · have := hstop hfull
          rw [show idx + (m + 1) = idx + 1 + m by omega] at this
          exact rx_done_not_user s idx _ this
        · have hmN' : m + 1 = 2 ^ n := by omega
          have e : (idx + 1 + m) % 2 ^ n = idx := by
            rw [show idx + 1 + m = idx + (m + 1) by omega, hmN', Nat.add_mod_right,
              Nat.mod_eq_of_lt hi]
          rw [e]
          simp [user_owned, rx_done_status_self s idx (by omega), TP_STATUS_KERNEL])
    refine ⟨s1, ?_, e2, e3, ?_, ?_, ?_⟩
    · unfold user_owned at h0
      have hmask_eq : (idx + 1) &&& s.rx_ring_mask = (idx + 1) % 2 ^ n := by
        rw [hm, Nat.and_pow_two_sub_one_eq_mod]
      have harith : ((idx + 1) % 2 ^ n + m) % 2 ^ n = (idx + (m + 1)) % 2 ^ n := by
        rw [Nat.mod_add_mod, show idx + 1 + m = idx + (m + 1) by omega]
      rw [rx_purge_loop, if_pos h0, hmask_eq, ← harith]
      exact e1
    · rw [e4, (rx_done_fields s idx).2.2]
    · intro i hi'
      rcases i with _ | i
      · rw [Nat.add_zero, Nat.mod_eq_of_lt hi]
        rw [e6 idx (fun i him => by rw [Nat.mod_add_mod]; exact hne i him)]
        exact rx_done_status_self s idx (by omega)
      · have := e5 i (by omega)
        rwa [Nat.mod_add_mod, show idx + 1 + i = idx + (i + 1) by omega] at this
    · intro x hx
      have hx0 : x ≠ idx := by
        have := hx 0 (by omega)
        rwa [Nat.add_zero, Nat.mod_eq_of_lt hi] at this
      rw [e6 x (fun i him => by
        rw [Nat.mod_add_mod, show idx + 1 + i = idx + (i + 1) by omega]
        exact hx (i + 1) (by omega))]
      exact rx_done_status_ne s idx x (Ne.symm hx0)

theorem rx_purge_spec (s : netif_stream) (n fuel : Nat)
    (hmask : s.rx_ring_mask = 2 ^ n - 1) (hlen : s.tp_status.length = 2 ^ n)
    (hidx : s.rx_read_idx < 2 ^ n) (hfuel : 2 ^ n < fuel) :
    ∃ s1, netif_stream_rx_purge s fuel = some s1 ∧
      Purged s s1 (2 ^ n) (pending_run s (2 ^ n)) := by
  have hN : 0 < 2 ^ n := Nat.pow_pos (by decide)
  obtain ⟨h1, h2, h3⟩ := pending_run_spec s (2 ^ n)
  obtain ⟨s1, e1, e2, e3, e4, e5, e6⟩ := rx_purge_loop_spec n (pending_run s (2 ^ n)) fuel s
    s.rx_read_idx (by omega) hmask hlen hidx h1 h2 h3
  have hstop : ¬ user_owned s1 ((s.rx_read_idx + pending_run s (2 ^ n)) % 2 ^ n) := by
    by_cases hk : pending_run s (2 ^ n) < 2 ^ n
    · have := h3 hk
      unfold user_owned at this ⊢
      rw [e6 _ (fun i hi e =>
        mod_ne_of_lt (2 ^ n) (s.rx_read_idx + i) (s.rx_read_idx + pending_run s (2 ^ n))
          (by omega) (by omega) e.symm)]
      exact this
    · have hkN : pending_run s (2 ^ n) = 2 ^ n := by omega
      have := e5 0 (by omega)
      rw [Nat.add_zero, Nat.mod_eq_of_lt hidx] at this
      rw [hkN, Nat.add_mod_right, Nat.mod_eq_of_lt hidx]
      simp [user_owned, this, TP_STATUS_KERNEL]
  obtain ⟨s2, g1, _, _, _, _, g6⟩ := rx_purge_loop_spec n 0 fuel s1
    ((s.rx_read_idx + pending_run s (2 ^ n)) % 2 ^ n) (by omega) (by rw [e3]; exact hmask)
    (by rw [e4]; exact hlen) (Nat.mod_lt _ hN) (by omega) (fun i hi => absurd hi (by omega))
    (fun _ => by rw [Nat.add_zero, Nat.mod_mod]; exact hstop)
  have hs2 : s2 = s1 := by
    have hq : rx_purge_loop fuel s1 ((s.rx_read_idx + pending_run s (2 ^ n)) % 2 ^ n)
        = some (s1, (s.rx_read_idx + pending_run s (2 ^ n)) % 2 ^ n) := by
      obtain ⟨f, rfl⟩ : ∃ f, fuel = f + 1 := ⟨fuel - 1, by omega⟩
      unfold user_owned at hstop
      rw [rx_purge_loop, if_neg hstop]
    rw [hq] at g1
    simp only [Option.some.injEq, Prod.mk.injEq] at g1
    exact g1.1.symm
  subst hs2
  rw [Nat.add_zero, Nat.mod_mod] at g1
  refine ⟨{ s2 with rx_read_idx := (s.rx_read_idx + pending_run s (2 ^ n)) % 2 ^ n }, ?_, ?_⟩
  · unfold netif_stream_rx_purge
    rw [e1]
    simp only
    rw [g1]
  · have hnu : ¬ user_owned
        { s2 with rx_read_idx := (s.rx_read_idx + pending_run s (2 ^ n)) % 2 ^ n }
        ((s.rx_read_idx + pending_run s (2 ^ n)) % 2 ^ n) := hstop
    refine ⟨rfl, e3, e4, e5, e6, ?_, read_not_user _ hnu⟩
    intro f hf
    obtain ⟨f', rfl⟩ : ∃ f', f = f' + 1 := ⟨f - 1, by omega⟩
    unfold user_owned at hnu
    unfold netif_stream_rx_pending
    rw [rx_pending_loop, if_pos (Nat.zero_le _), if_pos (by simpa using hnu)]

/-- C21: on a ring of `2 ^ n` frames that the kernel does not refill, with the read index
inside the ring, `netif_stream_rx_purge` ends (each cycle needs at most `2 ^ n + 1` tests of
a frame), whatever the status words, all frames pending included. Afterwards the `k` frames
that were consecutively pending from the old read index belong to the kernel, the read index
has advanced by `k` modulo the ring size, every other frame is as before, nothing is pending
and a read returns none. -/
theorem rx_purge_drains_pending (s : netif_stream) (n fuel : Nat)
    (hmask : s.rx_ring_mask = 2 ^ n - 1) (hlen : s.tp_status.length = 2 ^ n)
    (hidx : s.rx_read_idx < 2 ^ n) (hfuel : 2 ^ n < fuel) :
    ∃ s1, netif_stream_rx_purge s fuel = some s1 ∧
      Purged s s1 (2 ^ n) (pending_run s (2 ^ n)) :=
  rx_purge_spec s n fuel hmask hlen hidx hfuel

theorem rx_purge_drains_pending_witness :
    ∃ s1, netif_stream_rx_purge full_ring 3 = some s1 ∧
      Purged full_ring s1 (2 ^ 1) (pending_run full_ring (2 ^ 1)) :=
  rx_purge_drains_pending full_ring 1 3 (by decide) (by decide) (by decide) (by decide)

/-- C24: `netif_source_suspend` leaves the source inactive and the stream as it was;
`netif_source_resume` leaves it active: it changes nothing on an active source, and on an
inactive one it purges the ring exactly when asked to, leaving the stream as it was otherwise;
`netif_source_is_active` tells whether the tag is set; on an inactive source prepare and check
answer false and dispatch does not call the callback, whatever the ring holds. -/
theorem source_is_two_state (nsrc : netif_source) (purge callback : Bool) (fd_tag n fuel : Nat)
    (hmask : nsrc.stream.rx_ring_mask = 2 ^ n - 1) (hlen : nsrc.stream.tp_status.length = 2 ^ n)
    (hidx : nsrc.stream.rx_read_idx < 2 ^ n) (hfuel : 2 ^ n < fuel) :
    (netif_source_is_active nsrc = true ↔ nsrc.tag ≠ none) ∧
    netif_source_is_active (netif_source_suspend nsrc) = false ∧
    (netif_source_suspend nsrc).stream = nsrc.stream ∧
    (∃ r, netif_source_resume nsrc purge fd_tag fuel = some r ∧
      netif_source_is_active r = true ∧
      (netif_source_is_active nsrc = true → r = nsrc) ∧
      (netif_source_is_active nsrc = false → purge = false → r.stream = nsrc.stream) ∧
      (netif_source_is_active nsrc = false → purge = true →
        netif_stream_rx_purge nsrc.stream fuel = some r.stream ∧
        Purged nsrc.stream r.stream (2 ^ n) (pending_run nsrc.stream (2 ^ n)))) ∧
    (netif_source_is_active nsrc = false →
      netif_source_prepare nsrc = false ∧ netif_source_check nsrc = false ∧
      (netif_source_dispatch nsrc callback).1 = false) := by
  refine ⟨?_, ?_, ?_, ?_, ?_⟩
  · simp [netif_source_is_active, Option.isSome_iff_ne_none]
  · unfold netif_source_suspend netif_source_is_active
    split_ifs with h
    · rfl
    · simpa using h
  · unfold netif_source_suspend
    split_ifs <;> rfl
  · by_cases ha : nsrc.tag.isSome = true
    · refine ⟨nsrc, ?_, ha, fun _ => rfl, ?_, ?_⟩
      · unfold netif_source_resume
        rw [if_pos ha]
      · intro h
        simp [netif_source_is_active, ha] at h
      · intro h
        simp [netif_source_is_active, ha] at h
    · cases purge
      · refine ⟨{ nsrc with tag := some fd_tag }, ?_, rfl, ?_, fun _ _ => rfl, ?_⟩
        · unfold netif_source_resume
          rw [if_neg ha]
          simp
        · intro h
          exact absurd h ha
        · intro _ h
          simp at h
      · obtain ⟨s1, h1, h2⟩ := rx_purge_spec nsrc.stream n fuel hmask hlen hidx hfuel
        refine ⟨{ stream := s1, tag := some fd_tag }, ?_, rfl, ?_, ?_, fun _ _ => ⟨h1, h2⟩⟩
        · unfold netif_source_resume
          rw [if_neg ha, if_pos rfl, h1]
          rfl
        · intro h
          exact absurd h ha
        · intro _ h
          simp at h
  · intro h
    unfold netif_source_is_active at h
    simp [netif_source_prepare, netif_source_check, netif_source_dispatch, h]

theorem source_is_two_state_witness :
    (netif_source_is_active (netif_source_create full_ring) = true ↔
      (netif_source_create full_ring).tag ≠ none) ∧
    netif_source_is_active (netif_source_suspend (netif_source_create full_ring)) = false ∧
    (netif_source_suspend (netif_source_create full_ring)).stream
      = (netif_source_create full_ring).stream ∧
    (∃ r, netif_source_resume (netif_source_create full_ring) true 7 3 = some r ∧
      netif_source_is_active r = true ∧
      (netif_source_is_active (netif_source_create full_ring) = true →
        r = netif_source_create full_ring) ∧
      (netif_source_is_active (netif_source_create full_ring) = false → true = false →
        r.stream = (netif_source_create full_ring).stream) ∧
      (netif_source_is_active (netif_source_create full_ring) = false → true = true →
        netif_stream_rx_purge (netif_source_create full_ring).stream 3 = some r.stream ∧
        Purged (netif_source_create full_ring).stream r.stream (2 ^ 1)
          (pending_run (netif_source_create full_ring).stream (2 ^ 1)))) ∧
    (netif_source_is_active (netif_source_create full_ring) = false →
      netif_source_prepare (netif_source_create full_ring) = false ∧
      netif_source_check (netif_source_create full_ring) = false ∧
      (netif_source_dispatch (netif_source_create full_ring) true).1 = false) :=
  source_is_two_state (netif_source_create full_ring) true true 7 1 3 (by decide) (by decide)
    (by decide) (by decide)

/-! ### Stream creation -/

theorem testBit_top (x k : Nat) (h1 : 2 ^ k ≤ x) (h2 : x < 2 ^ (k + 1)) :
    x.testBit k = true := by
  rw [Nat.testBit_to_div_mod]
  have hd : x / 2 ^ k = 1 := by
    apply Nat.div_eq_of_lt_le
    · simpa using h1
    · rw [Nat.pow_succ] at h2
      omega
  simp [hd]

theorem and_pred_eq_zero_iff (v : Nat) (hv : v ≠ 0) : v &&& (v - 1) = 0 ↔ ∃ k, v = 2 ^ k := by
  constructor
  · intro h
    refine ⟨Nat.log 2 v, ?_⟩
    by_contra hne
    have h1 : 2 ^ Nat.log 2 v ≤ v := Nat.pow_log_le_self 2 hv
    have h2 : v < 2 ^ (Nat.log 2 v + 1) := Nat.lt_pow_succ_log_self (by decide) v
    have hb1 := testBit_top v (Nat.log 2 v) h1 h2
    have hb2 := testBit_top (v - 1) (Nat.log 2 v) (by omega) (by omega)
    have : (v &&& (v - 1)).testBit (Nat.log 2 v) = true := by
      rw [Nat.testBit_and, hb1, hb2]
      rfl
    rw [h] at this
    simp at this
  · rintro ⟨k, rfl⟩
    rw [Nat.and_pow_two_sub_one_eq_mod, Nat.mod_self]

theorem is_power_of_two_iff (v : Nat) (hv : v < 65536) :
    avb_is_power_of_two v = true ↔ v = 0 ∨ ∃ k, v = 2 ^ k := by
  unfold avb_is_power_of_two
  rcases Nat.eq_zero_or_pos v with h0 | hpos
  · subst h0
    simp
  · have e : (v + 4294967295) % 4294967296 = v - 1 := by omega
    rw [e]
    simp only [beq_iff_eq]
    rw [and_pred_eq_zero_iff v (by omega)]
    constructor
    · exact fun h => Or.inr h
    · rintro (h | h)
      · omega
      · exact h

/-- C22 (amended): for `u16` frame counts, `netif_stream_create` returns no stream, with
`errno` set to `ERANGE` and before any allocation or socket operation, when `rx_nr` or `tx_nr`
is neither zero nor a power of two; a count that is zero or a power of two passes the check and
the function goes on to the allocation. -/
theorem create_checks_ring_sizes (rx_nr tx_nr : Nat) (malloc_ok : Bool) (setup_ret : Int)
    (destroy_errno : Option Int) (hrx : rx_nr < 65536) (htx : tx_nr < 65536) :
    ((rx_nr ≠ 0 ∧ ¬ ∃ k, rx_nr = 2 ^ k) ∨ (tx_nr ≠ 0 ∧ ¬ ∃ k, tx_nr = 2 ^ k) →
      netif_stream_create rx_nr tx_nr malloc_ok setup_ret destroy_errno =
        { created := false, errno := ERANGE, ops := [] }) ∧
    ((rx_nr = 0 ∨ ∃ k, rx_nr = 2 ^ k) → (tx_nr = 0 ∨ ∃ k, tx_nr = 2 ^ k) →
      CreateOp.malloc ∈
        (netif_stream_create rx_nr tx_nr malloc_ok setup_ret destroy_errno).ops) := by
  have h1 := is_power_of_two_iff rx_nr hrx
  have h2 := is_power_of_two_iff tx_nr htx
  constructor
  · intro h
    have hbad : (!avb_is_power_of_two rx_nr || !avb_is_power_of_two tx_nr) = true := by
      rcases h with ⟨a, b⟩ | ⟨a, b⟩
      · have : avb_is_power_of_two rx_nr = false := by
          rw [← Bool.not_eq_true, h1]
          rintro (h | h)
          · exact a h
          · exact b h
        simp [this]
      · have : avb_is_power_of_two tx_nr = false := by
          rw [← Bool.not_eq_true, h2]
          rintro (h | h)
          · exact a h
          · exact b h
        simp [this]
    unfold netif_stream_create
    rw [if_pos hbad]
  · intro hr ht
    have e1 := h1.2 hr
    have e2 := h2.2 ht
    unfold netif_stream_create
    rw [if_neg (by simp [e1, e2])]
    split_ifs <;> simp

theorem create_checks_ring_sizes_witness :
    ((6 ≠ 0 ∧ ¬ ∃ k, 6 = 2 ^ k) ∨ (4 ≠ 0 ∧ ¬ ∃ k, 4 = 2 ^ k) →
      netif_stream_create 6 4 true 0 none = { created := false, errno := ERANGE, ops := [] }) ∧
    ((6 = 0 ∨ ∃ k, 6 = 2 ^ k) → (4 = 0 ∨ ∃ k, 4 = 2 ^ k) →
      CreateOp.malloc ∈ (netif_stream_create 6 4 true 0 none).ops) :=
  create_checks_ring_sizes 6 4 true 0 none (by decide) (by decide)

/-- When `netif_stream_setup` fails, `errno` is what `netif_stream_destroy` leaves: the code of
its failed `munmap` or `close` if there is one (here `EINVAL` = 22), the code of the setup (here
92) otherwise. -/
theorem create_setup_failure_errno :
    netif_stream_create 4 4 true (-92) (some 22) =
      { created := false, errno := 22,
        ops := [CreateOp.malloc, CreateOp.setup, CreateOp.destroy] } ∧
    netif_stream_create 4 4 true (-92) none =
      { created := false, errno := 92,
        ops := [CreateOp.malloc, CreateOp.setup, CreateOp.destroy] } := by
  decide

/-- C22 as stated fails: 0 is not of the form `2 ^ k`, and with `rx_nr = 0` the check passes
and a stream is returned. -/
theorem create_accepts_zero_ring_size :
    (¬ ∃ k, 0 = 2 ^ k) ∧
    netif_stream_create 0 4 true 0 none =
      { created := true, errno := 0, ops := [CreateOp.malloc, CreateOp.setup] } := by
  refine ⟨?_, by decide⟩
  rintro ⟨k, hk⟩
  have : 0 < 2 ^ k := Nat.pow_pos (by decide)
  omega

/-- C23 at the failing input: for the requested frame size 40000 the aligned size is 40064, its
next power of two is 65536, and the `u16` variable that receives it holds 0; for 1500 the frame
size is 2048. -/
theorem frame_size_wraps_to_zero :
    TPACKET_ALIGN (40000 + TPACKET2_HDRLEN) = 40064 ∧
    avb_next_power_of_two (TPACKET_ALIGN (40000 + TPACKET2_HDRLEN)) = 65536 ∧
    netif_stream_frame_size 40000 = 0 ∧
    netif_stream_frame_size 1500 = 2048 := by
  decide

/-! ### Decoder session: lock state, in-flight count -/

theorem lock_states_append (t1 t2 : List Event) : ∀ held : Bool,
    lock_states held (t1 ++ t2) = lock_states held t1 ++ lock_states (held_end held t1) t2 := by
  induction t1 with
  | nil => intro held; rfl
  | cons e t ih =>
    intro held
    show (e, held) :: lock_states (held_after held e) (t ++ t2) = _
    rw [ih]
    rfl

theorem held_end_append (t1 t2 : List Event) : ∀ held : Bool,
    held_end held (t1 ++ t2) = held_end (held_end held t1) t2 := by
  induction t1 with
  | nil => intro held; rfl
  | cons e t ih =>
    intro held
    show held_end (held_after held e) (t ++ t2) = _
    rw [ih]
    rfl

theorem submit_locked (dec : mjpeg_decoder) (j : Nat) (qin qout : Int) :
    (∀ p ∈ lock_states true (__submit_buffers dec j qin qout).trace, LockDiscipline p) ∧
    held_end true (__submit_buffers dec j qin qout).trace = true := by
  unfold __submit_buffers
  split_ifs <;>
    simp [lock_states, held_end, held_after, LockDiscipline, Event.isDeviceCall, Event.isProcess]

theorem input_dispose_locked (dec : mjpeg_decoder) (j : Nat) :
    (∀ p ∈ lock_states false (__jpu_input_buffer_dispose dec j).trace, LockDiscipline p) ∧
    held_end false (__jpu_input_buffer_dispose dec j).trace = false := by
  unfold __jpu_input_buffer_dispose
  dsimp only
  split_ifs <;>
    simp [lock_states, held_end, held_after, LockDiscipline, Event.isDeviceCall, Event.isProcess]

theorem wrap_locked (t : List Event)
    (h : (∀ p ∈ lock_states true t, LockDiscipline p) ∧ held_end true t = true) :
    (∀ p ∈ lock_states false ([Event.lock] ++ t ++ [Event.unlock]), LockDiscipline p) ∧
    held_end false ([Event.lock] ++ t ++ [Event.unlock]) = false := by
  constructor
  · intro p hp
    rw [lock_states_append, lock_states_append] at hp
    simp only [List.mem_append] at hp
    rcases hp with (hp | hp) | hp
    · simp only [lock_states, List.mem_singleton] at hp
      subst hp
      exact ⟨fun h => by simp [Event.isDeviceCall] at h, fun h => by simp [Event.isProcess] at h⟩
    · exact h.1 p hp
    · simp only [lock_states, List.mem_singleton] at hp
      subst hp
      exact ⟨fun h => by simp [Event.isDeviceCall] at h, fun h => by simp [Event.isProcess] at h⟩
  · rw [held_end_append, held_end_append]
    rfl

theorem output_dispose_locked (dec : mjpeg_decoder) (k : Nat) (qin qout : Int) :
    (∀ p ∈ lock_states false (__jpu_output_buffer_dispose dec k qin qout).trace,
      LockDiscipline p) ∧
    held_end false (__jpu_output_buffer_dispose dec k qin qout).trace = false := by
  unfold __jpu_output_buffer_dispose
  dsimp only
  split_ifs
  all_goals first
    | exact wrap_locked _ (submit_locked _ _ _ _)
    | simp [lock_states, held_end, held_after, LockDiscipline, Event.isDeviceCall, Event.isProcess]

theorem input_put_locked (dec : mjpeg_decoder) (i : Nat) (j : Int) (qin qout : Int) :
    (∀ p ∈ lock_states false (__camera_input_put dec i j qin qout).trace, LockDiscipline p) ∧
    held_end false (__camera_input_put dec i j qin qout).trace = false := by
  unfold __camera_input_put
  dsimp only
  split_ifs
  all_goals first
    | exact wrap_locked _ (submit_locked _ _ _ _)
    | simp [lock_states, held_end, held_after, LockDiscipline, Event.isDeviceCall, Event.isProcess]

theorem unref_input_locked (dec : mjpeg_decoder) (j : Nat) :
    (∀ p ∈ lock_states false (gst_buffer_unref_input dec j).trace, LockDiscipline p) ∧
    held_end false (gst_buffer_unref_input dec j).trace = false := by
  unfold gst_buffer_unref_input
  split
  · simp [lock_states, held_end]
  · split_ifs
    · exact input_dispose_locked _ _
    · simp [lock_states, held_end]

theorem unref_output_locked (dec : mjpeg_decoder) (k : Nat) (qin qout : Int) :
    (∀ p ∈ lock_states false (gst_buffer_unref_output dec k qin qout).trace,
      LockDiscipline p) ∧
    held_end false (gst_buffer_unref_output dec k qin qout).trace = false := by
  unfold gst_buffer_unref_output
  split
  · simp [lock_states, held_end]
  · split_ifs
    · exact output_dispose_locked _ _ _ _
    · simp [lock_states, held_end]

theorem releases_locked (t0 t1 t2 : List Event)
    (h0 : (∀ p ∈ lock_states false t0, LockDiscipline p) ∧ held_end false t0 = false)
    (h1 : (∀ p ∈ lock_states false t1, LockDiscipline p) ∧ held_end false t1 = false)
    (h2 : (∀ p ∈ lock_states false t2, LockDiscipline p) ∧ held_end false t2 = false) :
    ∀ p ∈ lock_states false (t0 ++ t1 ++ t2), LockDiscipline p := by
  intro p hp
  rw [lock_states_append, lock_states_append, held_end_append, h0.2, h1.2] at hp
  simp only [List.mem_append] at hp
  rcases hp with (hp | hp) | hp
  · exact h0.1 p hp
  · exact h1.1 p hp
  · exact h2.1 p hp

theorem decoder_process_locked (dec : mjpeg_decoder) (k j : Int) (proc : Int) (keep : Bool)
    (qin qout : Int) :
    ∀ p ∈ lock_states false (__decoder_process dec k j proc keep qin qout).trace,
      LockDiscipline p := by
  by_cases hk : k < 0
  · unfold __decoder_process
    rw [if_pos hk]
    simp [lock_states, held_after, LockDiscipline, Event.isDeviceCall, Event.isProcess]
  by_cases hj : j < 0
  · unfold __decoder_process
    rw [if_neg hk, if_pos hj]
    simp [lock_states, held_after, LockDiscipline, Event.isDeviceCall, Event.isProcess]
  by_cases hkj : k ≠ j
  · rw [decoder_process_mismatch dec k j proc keep qin qout (by omega) (by omega) hkj]
    simp [lock_states, held_after, LockDiscipline, Event.isDeviceCall, Event.isProcess]
  have hkj' : k = j := by simpa using hkj
  by_cases hact : dec.active = true
  · rw [decoder_process_active dec k j proc keep qin qout (by omega) hkj' hact _ rfl]
    by_cases hp : proc < 0
    · rw [if_pos hp]
      simp [lock_states, held_after, LockDiscipline, Event.isDeviceCall, Event.isProcess]
    · rw [if_neg hp]
      refine releases_locked _ _ _ ?_ (unref_input_locked _ _) (unref_output_locked _ _ _ _)
      simp [lock_states, held_end, held_after, LockDiscipline, Event.isDeviceCall,
        Event.isProcess]
  · rw [decoder_process_inactive dec k j proc keep qin qout (by omega) hkj' (by simpa using hact)]
    refine releases_locked _ _ _ ?_ (unref_input_locked _ _) (unref_output_locked _ _ _ _)
    simp [lock_states, held_end, held_after, LockDiscipline, Event.isDeviceCall, Event.isProcess]

/-- C25 (amended): on every path through `__camera_input_put`, `__jpu_output_buffer_dispose`
and `__decoder_process`, entered with the lock free, the `process` callback of the consumer is
invoked with the lock released, and every device I/O call (the two queue calls of
`__submit_buffers`, the two dequeue calls of `__decoder_process`) is made with the lock held. -/
theorem device_io_under_lock (dec : mjpeg_decoder) (i k : Nat) (j kd jd proc : Int)
    (keep : Bool) (qin qout : Int) :
    (∀ p ∈ lock_states false (__camera_input_put dec i j qin qout).trace, LockDiscipline p) ∧
    (∀ p ∈ lock_states false (__jpu_output_buffer_dispose dec k qin qout).trace,
      LockDiscipline p) ∧
    (∀ p ∈ lock_states false (__decoder_process dec kd jd proc keep qin qout).trace,
      LockDiscipline p) :=
  ⟨(input_put_locked dec i j qin qout).1, (output_dispose_locked dec k qin qout).1,
    decoder_process_locked dec kd jd proc keep qin qout⟩

/-- C25 as stated fails: `__camera_input_put` queues the pair to the device between `lock` and
`unlock`, and `__decoder_process` dequeues with the lock held; only the `process` callback
runs with the lock released. -/
theorem submit_runs_with_lock_held :
    lock_states false
        (__camera_input_put (__camera_input_get mjpeg_runtime_init 0 true).dec 0 0 0 0).trace =
      [(Event.lock, false), (Event.submit 0, true), (Event.queue_input 0, true),
        (Event.queue_output 0, true), (Event.signal_wait, true), (Event.unlock, true)] ∧
    lock_states false (__decoder_process two_queued_session 0 0 0 true 0 0).trace =
      [(Event.lock, false), (Event.dequeue_output, true), (Event.dequeue_input, true),
        (Event.unlock, true), (Event.process 0 0, false)] := by
  decide

/-- C26 at the failing input: output buffer 0 is on loan (in-flight count 1) when the session
is stopped; the completion of pair 1, processed on the inactive session, hands nothing to the
consumer, yet it brings the in-flight count to 0 and signals drain completion while buffer 0
is still on loan; when the consumer returns buffer 0 the count is -1. -/
theorem inactive_completion_decrements_in_flight :
    on_loan_session.output_busy = 1 ∧
    on_loan_session.output_pool.getD 0 default = { priv := some 1, map := 1 } ∧
    (camera_state_changed on_loan_session true).ret = false ∧
    stopping_session.active = false ∧
    (__decoder_process stopping_session 1 1 0 false 0 0).trace.filter Event.isProcess = [] ∧
    (__decoder_process stopping_session 1 1 0 false 0 0).dec.output_busy = 0 ∧
    Event.signal_flush_wait ∈ (__decoder_process stopping_session 1 1 0 false 0 0).trace ∧
    (__decoder_process stopping_session 1 1 0 false 0 0).dec.output_pool.getD 0 default
      = { priv := some 1, map := 1 } ∧
    (gst_buffer_unref_output (__decoder_process stopping_session 1 1 0 false 0 0).dec
      0 0 0).dec.output_busy = -1 := by
  decide

/-- C29 at the failing inputs: when the output dequeue fails, when the input dequeue fails and
when the two dequeued indices differ, `__decoder_process` returns with the lock held; it
returns with the lock released when the pair is processed. -/
theorem decoder_process_returns_with_lock_held :
    ((__decoder_process two_queued_session (-1) 0 0 true 0 0).ret = -1 ∧
      (__decoder_process two_queued_session (-1) 0 0 true 0 0).dec.locked = true ∧
      held_end false (__decoder_process two_queued_session (-1) 0 0 true 0 0).trace = true) ∧
    ((__decoder_process two_queued_session 0 (-1) 0 true 0 0).ret = -1 ∧
      (__decoder_process two_queued_session 0 (-1) 0 true 0 0).dec.locked = true ∧
      held_end false (__decoder_process two_queued_session 0 (-1) 0 true 0 0).trace = true) ∧
    ((__decoder_process two_queued_session 0 1 0 true 0 0).ret = -EBADFD ∧
      (__decoder_process two_queued_session 0 1 0 true 0 0).dec.locked = true ∧
      held_end false (__decoder_process two_queued_session 0 1 0 true 0 0).trace = true) ∧
    ((__decoder_process two_queued_session 0 0 0 true 0 0).ret = 0 ∧
      (__decoder_process two_queued_session 0 0 0 true 0 0).dec.locked = false ∧
      held_end false (__decoder_process two_queued_session 0 0 0 true 0 0).trace = false) := by
  decide

/-! ### Frame assembler: bounds of the write cursor -/

/-- C28 (amended): a packet that passes the format checks and declares a stream-data length of
2 bytes or less pushes nothing, requests no buffer and leaves the receiver as it was but for
the expected counter and, when its sequence number differs from the counter on an initialised
receiver, the discontinuity flag, which it raises; a discontinuity that is pending stays
pending. -/
theorem short_pdu_moves_counter_only (c : camera_data) (p : PduIn) (hacc : p.Accepted)
    (hshort : p.datalen ≤ 2) :
    (camera_rx c p).pushed = none ∧ (camera_rx c p).acquired = false ∧
    (camera_rx c p).ret = 0 ∧
    ((camera_rx c p).disc = true ↔
      (p.seq ≠ c.sequence_num ∧ c.flags &&& CAMERA_FLAG_INIT_DONE ≠ 0)) ∧
    (camera_rx c p).camera =
      { c with
        sequence_num := (p.seq + 1) % 256
        flags := if (camera_rx c p).disc then (c.flags ||| CAMERA_EVENT_AVBTP_DISC) % 256
          else c.flags } ∧
    (p.seq = c.sequence_num →
      (camera_rx c p).camera = { c with sequence_num := (p.seq + 1) % 256 }) ∧
    (DISC_PENDING c → DISC_PENDING (camera_rx c p).camera) := by
  obtain ⟨h1, h2⟩ := hacc
  unfold PduIn.datalen at h2 hshort
  have hrx : camera_rx c p =
      { camera := { c with
          sequence_num := (p.seq + 1) % 256
          flags := if (decide (p.seq ≠ c.sequence_num) &&
              decide (c.flags &&& CAMERA_FLAG_INIT_DONE ≠ 0)) = true
            then (c.flags ||| CAMERA_EVENT_AVBTP_DISC) % 256 else c.flags }
        ret := 0, pushed := none, acquired := false
        disc := decide (p.seq ≠ c.sequence_num) &&
          decide (c.flags &&& CAMERA_FLAG_INIT_DONE ≠ 0) } := by
    unfold camera_rx camera_pdu_rx
    dsimp only
    rw [if_neg (by rw [h1]; simp), if_neg (by omega)]
    simp only [parse_short _ _ _ _ _ _ hshort, PduIn.seq]
    rw [if_neg (by decide)]
    split_ifs <;> rfl
  rw [hrx]
  refine ⟨rfl, rfl, rfl, ?_, rfl, ?_, ?_⟩
  · simp
  · intro hseq
    simp [hseq]
  · intro hd
    unfold DISC_PENDING at hd ⊢
    simp only
    split_ifs
    · exact disc_bit_kept c.flags
    · exact hd

theorem short_pdu_moves_counter_only_witness :
    (camera_rx c3_collecting (mkPduIn 1 [0xFF, 0xD9] 200 none)).pushed = none ∧
    (camera_rx c3_collecting (mkPduIn 1 [0xFF, 0xD9] 200 none)).acquired = false ∧
    (camera_rx c3_collecting (mkPduIn 1 [0xFF, 0xD9] 200 none)).ret = 0 ∧
    ((camera_rx c3_collecting (mkPduIn 1 [0xFF, 0xD9] 200 none)).disc = true ↔
      ((mkPduIn 1 [0xFF, 0xD9] 200 none).seq ≠ c3_collecting.sequence_num ∧
        c3_collecting.flags &&& CAMERA_FLAG_INIT_DONE ≠ 0)) ∧
    (camera_rx c3_collecting (mkPduIn 1 [0xFF, 0xD9] 200 none)).camera =
      { c3_collecting with
        sequence_num := ((mkPduIn 1 [0xFF, 0xD9] 200 none).seq + 1) % 256
        flags := if (camera_rx c3_collecting (mkPduIn 1 [0xFF, 0xD9] 200 none)).disc
          then (c3_collecting.flags ||| CAMERA_EVENT_AVBTP_DISC) % 256
          else c3_collecting.flags } ∧
    ((mkPduIn 1 [0xFF, 0xD9] 200 none).seq = c3_collecting.sequence_num →
      (camera_rx c3_collecting (mkPduIn 1 [0xFF, 0xD9] 200 none)).camera =
        { c3_collecting with
          sequence_num := ((mkPduIn 1 [0xFF, 0xD9] 200 none).seq + 1) % 256 }) ∧
    (DISC_PENDING c3_collecting →
      DISC_PENDING (camera_rx c3_collecting (mkPduIn 1 [0xFF, 0xD9] 200 none)).camera) :=
  short_pdu_moves_counter_only c3_collecting (mkPduIn 1 [0xFF, 0xD9] 200 none) (by decide)
    (by decide)

/-- C28 as stated fails: a collecting receiver that expects sequence number 1 gets a packet of
two payload bytes with sequence number 5; the packet passes the format checks, and besides the
counter it changes the flags word, from 1 to 17. -/
theorem short_pdu_raises_discontinuity :
    (mkPduIn 5 [0xAA, 0xBB] 200 none).Accepted ∧
    (mkPduIn 5 [0xAA, 0xBB] 200 none).datalen ≤ 2 ∧
    c3_collecting.flags = 1 ∧
    (camera_rx c3_collecting (mkPduIn 5 [0xAA, 0xBB] 200 none)).camera.flags = 17 ∧
    (camera_rx c3_collecting (mkPduIn 5 [0xAA, 0xBB] 200 none)).camera ≠
      { c3_collecting with sequence_num := 6 } := by
  decide

/-! ### Packet filter: shape of the program -/

theorem filter_setup_eq (da sa : Option (List Nat)) (proto vlan : Nat) :
    netif_filter_setup da sa proto vlan =
      filter_adjust (netif_filter_body da sa proto vlan)
        ((netif_filter_body da sa proto vlan).length % 256 - 2) := rfl

theorem forall_idx_get {α : Type} (P : Nat → α → Prop) : ∀ (l : List α) (p0 : Nat),
    forall_idx P p0 l → ∀ i x, l.get? i = some x → P (p0 + i) x := by
  intro l
  induction l with
  | nil => intro p0 _ i x h; simp at h
  | cons y ys ih =>
    intro p0 h i x hx
    rcases i with _ | i
    · simp only [List.get?_cons_zero, Option.some.injEq] at hx
      subst hx
      exact h.1
    · simp only [List.get?_cons_succ] at hx
      have := ih (p0 + 1) h.2 i x hx
      rwa [show p0 + 1 + i = p0 + (i + 1) by omega] at this

theorem filter_shape (da sa : Option (List Nat)) (proto vlan : Nat) :
    (netif_filter_setup da sa proto vlan).length ≤ 18 ∧
    2 ≤ (netif_filter_setup da sa proto vlan).length ∧
    (netif_filter_setup da sa proto vlan).drop
      ((netif_filter_setup da sa proto vlan).length - 2)
        = [⟨0x06, 0, 0, 0xFFFF⟩, ⟨0x06, 0, 0, 0⟩] ∧
    forall_idx (JumpsInside (netif_filter_setup da sa proto vlan).length) 0
      (netif_filter_setup da sa proto vlan) ∧
    forall_idx (RejectFixed (netif_filter_setup da sa proto vlan).length) 0
      ((netif_filter_body da sa proto vlan).zip (netif_filter_setup da sa proto vlan)) := by
  rcases da with _ | d <;> rcases sa with _ | s <;>
    by_cases hp : proto = 0 <;> by_cases hv : vlan = 0 <;>
    simp [netif_filter_setup, netif_filter_body, filter_adjust, forall_idx, JumpsInside,
      RejectFixed, hp, hv]

/-- C30: for every combination of given predicates the program of `netif_filter_setup` has at
most 18 instructions and ends with the accept instruction followed by the reject instruction;
after the fix-up every conditional jump stays inside the program, every false-branch that was
marked for rejection lands on the last instruction (reject), no true-branch is marked, and a
true-branch offset other than 0 (the first ethertype comparison) lands on the last
instruction but one (accept). -/
theorem filter_jumps_inside_program (da sa : Option (List Nat)) (proto vlan : Nat) :
    (netif_filter_setup da sa proto vlan).length ≤ 18 ∧
    (netif_filter_setup da sa proto vlan).drop
      ((netif_filter_setup da sa proto vlan).length - 2)
        = [⟨0x06, 0, 0, 0xFFFF⟩, ⟨0x06, 0, 0, 0⟩] ∧
    (∀ p ins, (netif_filter_setup da sa proto vlan).get? p = some ins → ins.code = 0x15 →
      p + 1 + ins.jt < (netif_filter_setup da sa proto vlan).length ∧
      p + 1 + ins.jf < (netif_filter_setup da sa proto vlan).length) ∧
    (∀ p raw ins, (netif_filter_body da sa proto vlan).get? p = some raw →
      (netif_filter_setup da sa proto vlan).get? p = some ins →
      raw.jt ≠ 255 ∧
      (raw.jf = 255 → p + 1 + ins.jf = (netif_filter_setup da sa proto vlan).length - 1)) ∧
    (∀ p ins, (netif_filter_setup da sa proto vlan).get? p = some ins → ins.jt ≠ 0 →
      ins.code = 0x15 ∧ p + 1 + ins.jt = (netif_filter_setup da sa proto vlan).length - 2) := by
  obtain ⟨h1, _, h3, h4, h5⟩ := filter_shape da sa proto vlan
  refine ⟨h1, h3, ?_, ?_, ?_⟩
  · intro p ins hg hc
    have := forall_idx_get _ _ 0 h4 p ins hg
    rw [Nat.zero_add] at this
    exact this.1 hc
  · intro p raw ins hr hi
    have hz : ((netif_filter_body da sa proto vlan).zip
        (netif_filter_setup da sa proto vlan)).get? p = some (raw, ins) := by
      rw [List.get?_eq_getElem?] at hr hi ⊢
      rw [List.getElem?_zip_eq_some]
      exact ⟨hr, hi⟩
    have := forall_idx_get _ _ 0 h5 p (raw, ins) hz
    rw [Nat.zero_add] at this
    exact ⟨this.2.1, this.1⟩
  · intro p ins hg hj
    have := forall_idx_get _ _ 0 h4 p ins hg
    rw [Nat.zero_add] at this
    exact this.2 hj

end SvUtest
